import Mathlib

/-!
# Kristall: browser tab session controller and markdown renderer

A shallow embedding of `src/browsertab.cpp` and `src/renderers/markdownrenderer.cpp`.

* Qt, libc (`iconv`), cmark and the classes of the repository that are declared in
  headers outside the two translation units (protocol handlers, `MimeParser`, the other
  renderers, settings) are not re-implemented: their functions are fields of `Env`, so every
  theorem holds for every behaviour of these collaborators.
* Modal dialogs and protocol handlers answer through `Env` as well; every external call whose
  result the code branches on is recorded in a trace of `Effect`s.
* `assert` failures and exhausted loop budgets end a call without a result (`none`).
-/

namespace Kristall

/-! ## Strings and bytes -/

/-- Contents of a `QByteArray`. -/
abbrev QByteArray := List UInt8

/-- The bytes of `QString::toUtf8()`. -/
def toUtf8 (s : String) : QByteArray := s.data.flatMap String.utf8EncodeChar

/-- The test `QString::startsWith(p)`. -/
def startsWith (s p : String) : Bool := p.data.isPrefixOf s.data

/-- The literal `u8"�"` appended by `convertToUtf8`: U+FFFD in UTF-8. -/
def replacement_character : QByteArray := [0xEF, 0xBF, 0xBD]

/-! ## Locations -/

/-- The components of a `QUrl` that the code reads, and its validity flag. -/
structure QUrl where
  scheme : String
  host : String
  path : String
  query : String
  fragment : String
  isValid : Bool
deriving DecidableEq, Repr

/-- The default constructed `QUrl{}`: empty and not valid. -/
def QUrl.empty : QUrl := ⟨"", "", "", "", "", false⟩

/-- The test `QUrl::isRelative()`: a URL is a relative reference when it has no scheme. -/
def QUrl.isRelative (u : QUrl) : Bool := u.scheme == ""

/-! ## Formats of the document model -/

/-- A `QTextCharFormat`: the properties the renderer sets itself, and `base` for all
properties supplied by the theme (font family, colour, ...). -/
structure QTextCharFormat where
  base : Nat
  italic : Bool
  weight : Nat
  anchorHref : String
deriving DecidableEq, Repr

/-- The constant `QFont::Bold`. -/
def QFont_Bold : Nat := 75

/-- Block alignment as far as the renderer sets it. -/
inductive Alignment where
  | AlignCenter
deriving DecidableEq, Repr

/-- A `QTextBlockFormat`: `props` stands for the set of properties supplied by the theme
(`0` for none), `alignment` for the one the renderer sets. -/
structure QTextBlockFormat where
  props : Nat
  alignment : Option Alignment
deriving DecidableEq, Repr

/-- The default constructed `QTextBlockFormat()`. -/
def QTextBlockFormat.default : QTextBlockFormat := ⟨0, none⟩

/-- The test `QTextFormat::isEmpty()`: no property is set. -/
def QTextBlockFormat.isEmpty (f : QTextBlockFormat) : Bool :=
  f.props == 0 && f.alignment == none

/-- List styles the renderer selects. -/
inductive ListStyle where
  | themed
  | ListDecimal
deriving DecidableEq, Repr

/-- A `QTextListFormat`. -/
structure QTextListFormat where
  base : Nat
  indent : Int
  style : ListStyle
deriving DecidableEq, Repr

/-- The formats of `TextStyleInstance` that the markdown renderer reads. -/
structure TextStyleInstance where
  standard : QTextCharFormat
  standard_link : QTextCharFormat
  external_link : QTextCharFormat
  cross_protocol_link : QTextCharFormat
  standard_h1 : QTextCharFormat
  standard_h2 : QTextCharFormat
  standard_h3 : QTextCharFormat
  preformatted : QTextCharFormat
  blockquote : QTextCharFormat
  standard_format : QTextBlockFormat
  preformatted_format : QTextBlockFormat
  blockquote_format : QTextBlockFormat
  heading_format : QTextBlockFormat
  list_format : QTextListFormat
  blockquote_tableformat : Nat
deriving DecidableEq, Repr

/-- The members of `DocumentStyle` that the two translation units read. `text_style` is the
`TextStyleInstance { style }` built from it, `stylesheet` the result of `toStyleSheet()`. -/
structure DocumentStyle where
  standard_font : Nat
  background_color : String
  stylesheet : String
  margin : Int
  margin_h : Int
  margin_v : Int
  indent_size : Int
  centre_h1 : Bool
  text_style : TextStyleInstance
deriving DecidableEq, Repr

/-- Operations performed on the `QTextCursor` of the document being built, in order. -/
inductive CursorOp where
  | insertBlock
  | setBlockFormat (f : QTextBlockFormat)
  | insertText (text : String) (f : QTextCharFormat)
  | insertList (f : QTextListFormat)
  | insertTable (rows cols : Nat) (tableFormat : Nat)
  | setCellFormat (f : QTextCharFormat)
  | movePosition_NextBlock
deriving DecidableEq, Repr

/-- Calls received by a `DocumentOutlineModel`, in order. -/
inductive OutlineCall where
  | clear
  | beginBuild
  | appendH1 (title anchor : String)
  | appendH2 (title anchor : String)
  | appendH3 (title anchor : String)
  | endBuild
deriving DecidableEq, Repr

/-- Settings applied to a `QTextDocument` as a whole. -/
inductive DocSetup where
  | setDefaultFont (font : Nat)
  | setDefaultStyleSheet (css : String)
  | setDocumentMargin (m : Int)
  | setPageMargins (h v : Int)
  | setIndentWidth (w : Int)
deriving DecidableEq, Repr

/-- How the content of a `QTextDocument` was supplied. -/
inductive DocumentContent where
  | cursor (ops : List CursorOp)
  | html (source : String)
  | markdown (source : String)
  | plainText (text : String)
  | external (renderer : String) (data : QByteArray)
deriving DecidableEq, Repr

/-- A `QTextDocument`. -/
structure QTextDocument where
  setup : List DocSetup
  content : DocumentContent
deriving DecidableEq, Repr

/-! ## The cmark node tree -/

/-- A `cmark_node`, by node type, with the attributes the renderer reads. Only container
types have children; custom nodes are never created by `cmark_parse_document`. -/
inductive Node where
  | document (children : List Node)
  | block_quote (children : List Node)
  | list (ordered : Bool) (children : List Node)
  | item (children : List Node)
  | code_block (literal : String)
  | html_block (literal : String)
  | custom_block
  | paragraph (children : List Node)
  | heading (level : Nat) (children : List Node)
  | thematic_break
  | text (literal : String)
  | softbreak
  | linebreak
  | code (literal : String)
  | html_inline (literal : String)
  | custom_inline
  | emph (children : List Node)
  | strong (children : List Node)
  | link (url : String) (children : List Node)
  | image (url : String) (children : List Node)

/-- The result of `cmark_node_get_literal`: `NULL` (here `none`) for node types without
string content. -/
def cmark_node_get_literal : Node → Option String
  | .code_block l => some l
  | .html_block l => some l
  | .text l => some l
  | .code l => some l
  | .html_inline l => some l
  | _ => none

/-- The expression `cmark_node_get_literal(cmark_node_first_child(&node))` converted to a
`QString`: a missing child or a missing literal gives the null string. -/
def firstChildLiteral : List Node → String
  | [] => ""
  | c :: _ => (cmark_node_get_literal c).getD ""

/-! ## Session types -/

/-- The result of `ProtocolSetup::isSchemeSupported`. -/
inductive ProtocolSetup where
  | Disabled
  | Unsupported
  | Enabled
deriving DecidableEq, Repr

/-- The request options `ProtocolHandler::RequestOptions`. -/
inductive RequestOptions where
  | Default
  | IgnoreTlsErrors
deriving DecidableEq, Repr

/-- The push mode `BrowserTab::PushToHistory`. -/
inductive PushToHistory where
  | DontPush
  | PushImmediate
deriving DecidableEq, Repr

/-- The error kinds `ProtocolHandler::NetworkError`, as enumerated in `on_networkError`. -/
inductive NetworkError where
  | UnknownError
  | ProtocolViolation
  | HostNotFound
  | ConnectionRefused
  | ResourceNotFound
  | BadRequest
  | ProxyRequest
  | InternalServerError
  | InvalidClientCertificate
  | UntrustedHost
  | MistrustedHost
  | Unauthorized
  | TlsFailure
  | Timeout
deriving DecidableEq, Repr

/-- The setting `GenericSettings::TextDisplay`. -/
inductive TextDisplay where
  | FormattedText
  | PlainText
deriving DecidableEq, Repr

/-- Modelled from the spec: the enumeration `GenericSettings::RedirectionWarning`, declared in
a header that is not part of the two translation units. The spec gives the configured redirect
policy as `WarnAlways` or a bitmask of `WarnOnHostChange` and `WarnOnSchemeChange`. -/
inductive RedirectionWarning where
  | WarnAlways
  | mask (WarnOnSchemeChange WarnOnHostChange : Bool)
deriving DecidableEq, Repr

/-- The test `policy & (WarnOnHostChange | WarnOnSchemeChange)` for a policy that is not
`WarnAlways`. -/
def RedirectionWarning.hasAnyWarning : RedirectionWarning → Bool
  | .WarnAlways => true
  | .mask sc ho => sc || ho

/-- The test `policy & WarnOnSchemeChange`. -/
def RedirectionWarning.hasSchemeChange : RedirectionWarning → Bool
  | .WarnAlways => true
  | .mask sc _ => sc

/-- The test `policy & WarnOnHostChange`. -/
def RedirectionWarning.hasHostChange : RedirectionWarning → Bool
  | .WarnAlways => true
  | .mask _ ho => ho

/-- The members of `global_options` that the session controller reads. -/
structure GenericSettings where
  text_display : TextDisplay
  redirection_policy : RedirectionWarning
  max_redirections : Int
  use_os_scheme_handler : Bool
deriving DecidableEq, Repr

/-- A `CryptoIdentity`: `certificate` names the certificate and key. -/
structure CryptoIdentity where
  certificate : Nat
  isValid : Bool
  is_persistent : Bool
deriving DecidableEq, Repr

/-- The default constructed `CryptoIdentity()`: not valid. -/
def CryptoIdentity.none : CryptoIdentity := ⟨0, false, false⟩

/-- A parsed `MimeType`. -/
structure MimeType where
  type : String
  subtype : String
  parameters : List (String × String)
deriving DecidableEq, Repr

/-- The default constructed `MimeType { }`. -/
def MimeType.empty : MimeType := ⟨"", "", []⟩

/-- Modelled from the spec: `MimeType::parameter(name, default)`, defined outside the two
translation units. The spec: extract the `charset` parameter (default "utf-8"). -/
def MimeType.parameter (m : MimeType) (name default : String) : String :=
  match m.parameters.lookup name with
  | some v => v
  | none => default

/-- The values of `errno` that `convertToUtf8` tells apart. -/
inductive Errno where
  | E2BIG
  | EILSEQ
  | EINVAL
  | other
deriving DecidableEq, Repr

/-- What one call of `iconv` did: the state of the conversion descriptor afterwards, the
number of input bytes consumed (`input_ptr` advanced, `input_size` reduced), the bytes written
to `temp_buffer`, and `errno` when the call returned `(size_t)-1`. -/
structure IconvResult where
  cd : Nat
  consumed : Nat
  output : QByteArray
  error : Option Errno
deriving DecidableEq, Repr

/-- A protocol handler as seen by the tab: `supportsScheme`, and the client certificate that
is enabled on it after the calls of `enableClientCertificate` and
`disableClientCertificate`. -/
structure ProtocolHandler where
  supportsScheme : String → Bool
  client_certificate : Option CryptoIdentity

/-- Which of the three views shows the content. -/
inductive DocumentType where
  | Text
  | Image
  | Media
deriving DecidableEq, Repr

/-- An item of the `QGraphicsScene`. -/
inductive SceneItem where
  | pixmap (image : Nat)
  | text (message : String)
deriving DecidableEq, Repr

/-- The load statistics `DocumentStats` (the loading time is not modelled). -/
structure DocumentStats where
  file_size : Nat
  mime_type : MimeType
deriving DecidableEq, Repr

/-- External calls and signals of one event handler, in order. -/
inductive Effect where
  | navigateTo (url : QUrl) (mode : PushToHistory)
  | warning (text : String)
  | critical (text : String)
  | question (text : String) (yes : Bool)
  | inputDialog (label : String) (result : Option String)
  | certificateDialog (query : String) (accepted : Bool)
  | cancelRequest (handler : Nat) (ok : Bool)
  | enableClientCertificate (handler : Nat) (ok : Bool)
  | disableClientCertificate (handler : Nat)
  | startRequest (handler : Nat) (url : QUrl) (options : RequestOptions) (ok : Bool)
  | openUrl (url : QUrl) (ok : Bool)
  | stopPlaying
  | locationChanged (url : QUrl)
  | titleChanged (title : String)
  | fileLoaded (stats : DocumentStats)
deriving DecidableEq, Repr

/-! ## The collaborators -/

/-- Everything the two translation units call but do not define: Qt, libc, cmark, classes of
the repository defined elsewhere, the settings, and the answers of the user and of the
protocol handlers during one event. -/
structure Env where
  /-- The function `QString::toUpper()`. -/
  toUpper : String → String
  /-- The function `QString::fromUtf8`. -/
  fromUtf8 : QByteArray → String
  /-- The function `QString::arg(a)`, used where the template is not a literal of the code or
  the text substituted before may itself hold a place marker. -/
  QString_arg : String → String → String
  /-- The decimal text that `QString::arg(int)` substitutes for a number. -/
  QString_number : Nat → String
  /-- The function `QUrl::toString()`. -/
  url_toString : QUrl → String
  /-- The function `QUrl::toString(QUrl::FullyEncoded)`. -/
  url_toStringFullyEncoded : QUrl → String
  /-- The function `base.resolved(relative)`. -/
  url_resolved : QUrl → QUrl → QUrl
  /-- The function `QUrl::setQuery`. -/
  url_setQuery : QUrl → String → QUrl
  /-- The constructor `QUrl(QString)`. -/
  url_fromString : String → QUrl
  /-- The function `iconv_open("UTF-8", fromcode)`: the initial state of the conversion
  descriptor, or `none` for `(iconv_t)-1`. -/
  iconv_open : String → Option Nat
  /-- The function `iconv`, called with the descriptor state, the remaining input and the
  size of the output buffer. -/
  iconv : Nat → QByteArray → Nat → IconvResult
  /-- The function `MimeParser::parse`. -/
  MimeParser_parse : String → MimeType
  /-- The function `IoUtil::size_human`. -/
  size_human : Nat → String
  /-- The function `GeminiRenderer::render`: the document, and the calls made on the
  outline. -/
  GeminiRenderer_render : QByteArray → QUrl → DocumentStyle → Option QTextDocument × List OutlineCall
  /-- The function `GophermapRenderer::render`. -/
  GophermapRenderer_render : QByteArray → QUrl → DocumentStyle → Option QTextDocument
  /-- The function `PlainTextRenderer::render`. -/
  PlainTextRenderer_render : QByteArray → DocumentStyle → Option QTextDocument
  /-- The function `renderhelpers::replace_quotes`. -/
  replace_quotes : String → String
  /-- The function `cmark_parse_document`: `none` for a null root. -/
  cmark_parse_document : QByteArray → Option Node
  /-- The block format `QTextCursor::blockFormat()` reports after the given operations. -/
  cursor_blockFormat : List CursorOp → QTextBlockFormat
  /-- The image `QImageReader::read` decodes, or its `errorString()`. -/
  imageReader_read : QByteArray → Except String Nat
  /-- The compile time feature test `QT_FEATURE_textmarkdownreader`. -/
  QT_FEATURE_textmarkdownreader : Bool
  /-- The contents of a file of the Qt resource system, `none` when it cannot be opened. -/
  resource : String → Option QByteArray
  /-- The style `mainWindow->current_style.derive(location)`. -/
  derive_style : QUrl → DocumentStyle
  /-- The settings `global_options`. -/
  global_options : GenericSettings
  /-- The function `mainWindow->protocols.isSchemeSupported`. -/
  isSchemeSupported : String → ProtocolSetup
  /-- Whether the user answers `QMessageBox::Yes` to the question with the given text. -/
  question : String → Bool
  /-- The identity chosen in the `CertificateSelectionDialog` for the given server query,
  `none` when the dialog is not accepted. -/
  certificateDialog : String → Option CryptoIdentity
  /-- The result of `cancelRequest()` of the handler with the given index. -/
  handler_cancelRequest : Nat → Bool
  /-- The result of `enableClientCertificate` of the handler with the given index. -/
  handler_enableClientCertificate : Nat → CryptoIdentity → Bool
  /-- The result of `startRequest` of the handler with the given index. -/
  handler_startRequest : Nat → QUrl → RequestOptions → Bool
  /-- The result of `QDesktopServices::openUrl`. -/
  openUrl : QUrl → Bool

/-! ## The tab -/

/-- The members of `BrowserTab` (and the widget states it sets) that its event handlers read
or write. `current_handler` is an index into `protocol_handlers`; `outline` holds the calls
received by the outline since it was last cleared. -/
structure BrowserTab where
  current_location : QUrl
  history : List QUrl
  current_history_index : Option Nat
  redirection_count : Int
  successfully_loaded : Bool
  is_internal_location : Bool
  current_identitiy : CryptoIdentity
  current_handler : Option Nat
  protocol_handlers : List ProtocolHandler
  enable_client_cert_button : Bool
  url_bar : String
  current_mime : String
  current_buffer : QByteArray
  current_document : Option QTextDocument
  outline : List OutlineCall
  graphics_scene : List SceneItem
  media : Option (QByteArray × QUrl × String)
  visible : DocumentType
  current_stats : DocumentStats

/-- The result of an event handler: the tab afterwards and the effects, or `none` when the
call ends without returning. -/
abbrev Outcome := Option (BrowserTab × List Effect)

/-- Puts effects that happened earlier in front of the trace of an outcome. -/
def Outcome.after (pre : List Effect) : Outcome → Outcome
  | none => none
  | some (s, tr) => some (s, pre ++ tr)

/-! ### History

`TabBrowsingHistory` is defined outside the two translation units. -/

/-- Modelled from the spec: `TabBrowsingHistory::get`; the history is an ordered sequence of
locations with a nullable index, and an invalid index designates no location. -/
def history_get (history : List QUrl) (index : Option Nat) : QUrl :=
  match index with
  | none => QUrl.empty
  | some i => history.getD i QUrl.empty

/-- Modelled from the spec: `TabBrowsingHistory::pushUrl`; pushing a location past the current
index truncates any forward entries, and the returned index designates the pushed entry. -/
def history_pushUrl (history : List QUrl) (position : Option Nat) (url : QUrl) :
    List QUrl × Option Nat :=
  let kept := match position with
    | none => history
    | some i => history.take (i + 1)
  (kept ++ [url], some kept.length)

/-- Modelled from the spec: `TabBrowsingHistory::oneBackward`; the index one step back, invalid
when there is none. -/
def history_oneBackward (_history : List QUrl) (index : Option Nat) : Option Nat :=
  match index with
  | some (i + 1) => some i
  | _ => none

/-- Modelled from the spec: `TabBrowsingHistory::oneForward`; the index one step forward,
invalid when there is none. -/
def history_oneForward (history : List QUrl) (index : Option Nat) : Option Nat :=
  match index with
  | some i => if i + 1 < history.length then some (i + 1) else none
  | none => none

/-! ## Charset conversion (`browsertab.cpp`) -/

/-- The `while(input_size > 0)` loop of `convertToUtf8`, with a budget of iterations: `cd` is
the descriptor state, `input` the bytes from `input_ptr` on, `result` the bytes accumulated so
far. In every iteration that does not `break`, the bytes written to `temp_buffer` are appended
after the handling of `errno`. The result is `none` when the budget runs out. -/
def convertToUtf8_loop (env : Env) : Nat → Nat → QByteArray → QByteArray → Option QByteArray
  | 0, _, input, result => if input.length > 0 then none else some result
  | fuel + 1, cd, input, result =>
    if input.length > 0 then
      let r := env.iconv cd input 4096
      let input1 := input.drop r.consumed
      match r.error with
      | none => convertToUtf8_loop env fuel r.cd input1 (result ++ r.output)
      | some Errno.E2BIG => convertToUtf8_loop env fuel r.cd input1 (result ++ r.output)
      | some Errno.EILSEQ =>
        if input1.length > 0 then
          convertToUtf8_loop env fuel r.cd (input1.drop 1)
            (result ++ replacement_character ++ r.output)
        else
          convertToUtf8_loop env fuel r.cd input1 (result ++ r.output)
      | some Errno.EINVAL =>
        if input1.length > 0 then
          convertToUtf8_loop env fuel r.cd (input1.drop 1)
            (result ++ replacement_character ++ r.output)
        else
          convertToUtf8_loop env fuel r.cd input1 (result ++ r.output)
      | some Errno.other => some result
    else
      some result

/-- The function `convertToUtf8`: an empty array when the charset cannot be opened, else the
result of the conversion loop. (The copy of the input written to `/tmp/raw.dat` is not
modelled.) -/
def convertToUtf8 (env : Env) (fuel : Nat) (input : QByteArray) (charSet : String) :
    Option QByteArray :=
  match env.iconv_open (env.toUpper charSet) with
  | none => some []
  | some cd => convertToUtf8_loop env fuel cd input []

/-! ## Markdown renderer (`markdownrenderer.cpp`) -/

/-- The struct `RenderState`; `cursor` holds the operations performed on the text cursor and
`outline` the calls made on the outline. -/
structure RenderState where
  cursor : List CursorOp
  root_url : QUrl
  style : DocumentStyle
  outline : List OutlineCall
  text_style : TextStyleInstance
  page_title : String
  centre_first_h1 : Bool
  suppress_next_block : Bool

/-- The method `RenderState::emitNewBlock`. -/
def RenderState.emitNewBlock (state : RenderState) : RenderState :=
  let state1 :=
    if !state.suppress_next_block then
      { state with cursor := state.cursor ++ [CursorOp.insertBlock] }
    else state
  { state1 with suppress_next_block := false }

/-- The function `extractNodeText`, applied to the literal of the node. -/
def extractNodeText (env : Env) (literal : String) : String :=
  env.replace_quotes literal

/-- The function `resetFormatting`. -/
def resetFormatting (state : RenderState)
    (defaultFormat : QTextBlockFormat := QTextBlockFormat.default) : RenderState :=
  let defaultFormat1 :=
    if defaultFormat.isEmpty then state.text_style.standard_format else defaultFormat
  let state1 := state.emitNewBlock
  { state1 with
    suppress_next_block := true
    cursor := state1.cursor ++ [CursorOp.setBlockFormat defaultFormat1] }

/-- The first `switch` on the heading level in `renderNode`: the character format of the
heading. -/
def headingFormat (ts : TextStyleInstance) (current_format : QTextCharFormat) (level : Nat) :
    QTextCharFormat :=
  match level with
  | 1 => ts.standard_h1
  | 2 => ts.standard_h2
  | 3 => ts.standard_h3
  | 4 => ts.standard_h3
  | 5 => ts.standard_h3
  | 6 => ts.standard_h3
  | _ => current_format

/-- The second `switch` on the heading level in `renderNode`: the outline entry, the page
title and the centring of the first level 1 heading. -/
def headingOutline (state : RenderState) (level : Nat) (text : String) : RenderState :=
  match level with
  | 1 =>
    let state1 := { state with outline := state.outline ++ [OutlineCall.appendH1 text ""] }
    let state2 :=
      if state1.page_title.isEmpty then { state1 with page_title := text } else state1
    if state2.centre_first_h1 then
      { state2 with
        cursor := state2.cursor ++
          [CursorOp.setBlockFormat
            { state2.text_style.heading_format with alignment := some Alignment.AlignCenter }]
        centre_first_h1 := false }
    else state2
  | 2 => { state with outline := state.outline ++ [OutlineCall.appendH2 text ""] }
  | 3 => { state with outline := state.outline ++ [OutlineCall.appendH3 text ""] }
  | _ => state

/-- The target of a link or image node: the URL of the node, resolved against the root URL
when it is relative. -/
def linkTarget (env : Env) (root_url : QUrl) (url : String) : QUrl :=
  let absolute_url := env.url_fromString url
  if absolute_url.isRelative then env.url_resolved root_url absolute_url else absolute_url

/-- The suffix that `renderNode` inserts after the children of a link or image node. -/
def linkSuffix (env : Env) (root_url absolute_url : QUrl) : String :=
  if absolute_url.scheme != root_url.scheme then
    if absolute_url.scheme != "kristall+ctrl" then
      " [" ++ env.toUpper absolute_url.scheme ++ "]"
    else ""
  else ""

/-- The character format that `renderNode` gives to a link or image node and its suffix. -/
def linkFormat (env : Env) (ts : TextStyleInstance) (root_url absolute_url : QUrl) :
    QTextCharFormat :=
  let fmt := ts.external_link
  let fmt1 := if absolute_url.host == root_url.host then ts.standard_link else fmt
  let fmt2 :=
    if absolute_url.scheme != root_url.scheme then
      if absolute_url.scheme != "kristall+ctrl" then ts.cross_protocol_link else fmt1
    else fmt1
  { fmt2 with anchorHref := env.url_toStringFullyEncoded absolute_url }

mutual
/-- The function `renderNode`. Calls of `renderChildren` that omit `listIndent` pass the
default argument `0`. -/
def renderNode (env : Env) (state : RenderState) (node : Node)
    (current_format : QTextCharFormat) (listIndent : Int) : RenderState :=
  match node with
  | .document children => renderChildren env state children current_format 0
  | .block_quote children =>
    let state1 := state.emitNewBlock
    let state2 := { state1 with
      suppress_next_block := true
      cursor := state1.cursor ++
        [CursorOp.insertTable 1 1 state1.text_style.blockquote_tableformat,
         CursorOp.setBlockFormat state1.text_style.blockquote_format,
         CursorOp.setCellFormat state1.text_style.blockquote] }
    let state3 := renderChildren env state2 children current_format 0
    { state3 with cursor := state3.cursor ++ [CursorOp.movePosition_NextBlock] }
  | .list ordered children =>
    let fmt := env.cursor_blockFormat state.cursor
    let listFormat := state.text_style.list_format
    let listFormat1 := { listFormat with indent := listFormat.indent + listIndent }
    let listIndent1 := listIndent + 1
    let listFormat2 :=
      if ordered then { listFormat1 with style := ListStyle.ListDecimal } else listFormat1
    let state1 := { state with
      cursor := state.cursor ++ [CursorOp.insertList listFormat2]
      suppress_next_block := true }
    let state2 := renderChildren env state1 children current_format listIndent1
    resetFormatting state2 fmt
  | .item children => renderChildren env state children current_format listIndent
  | .code_block literal =>
    let state1 := state.emitNewBlock
    let code := extractNodeText env literal
    let state2 := { state1 with
      cursor := state1.cursor ++
        [CursorOp.setBlockFormat state1.text_style.preformatted_format,
         CursorOp.insertText code state1.text_style.preformatted] }
    resetFormatting state2
  | .html_block _ => state
  | .custom_block => state
  | .paragraph children =>
    renderChildren env state.emitNewBlock children current_format 0
  | .heading level children =>
    let state1 := state.emitNewBlock
    let state2 := { state1 with
      cursor := state1.cursor ++ [CursorOp.setBlockFormat state1.text_style.heading_format] }
    let fmt := headingFormat state2.text_style current_format level
    let text := firstChildLiteral children
    let state3 := headingOutline state2 level text
    let state4 := renderChildren env state3 children fmt 0
    resetFormatting state4
  | .thematic_break => state
  | .text literal =>
    { state with
      cursor := state.cursor ++
        [CursorOp.insertText (extractNodeText env literal) current_format] }
  | .softbreak =>
    { state with cursor := state.cursor ++ [CursorOp.insertText " " current_format] }
  | .linebreak => state.emitNewBlock
  | .code literal =>
    { state with
      cursor := state.cursor ++
        [CursorOp.insertText (extractNodeText env literal) state.text_style.preformatted] }
  | .html_inline _ => state
  | .custom_inline => state
  | .emph children =>
    renderChildren env state children { current_format with italic := true } 0
  | .strong children =>
    renderChildren env state children { current_format with weight := QFont_Bold } 0
  | .image url children =>
    let absolute_url := linkTarget env state.root_url url
    let suffix := linkSuffix env state.root_url absolute_url
    let fmt := linkFormat env state.text_style state.root_url absolute_url
    let state1 := renderChildren env state children fmt 0
    { state1 with cursor := state1.cursor ++ [CursorOp.insertText suffix fmt] }
  | .link url children =>
    let absolute_url := linkTarget env state.root_url url
    let suffix := linkSuffix env state.root_url absolute_url
    let fmt := linkFormat env state.text_style state.root_url absolute_url
    let state1 := renderChildren env state children fmt 0
    { state1 with cursor := state1.cursor ++ [CursorOp.insertText suffix fmt] }

/-- The function `renderChildren`: renders the children from first to last. -/
def renderChildren (env : Env) (state : RenderState) (children : List Node)
    (current_format : QTextCharFormat) (listIndent : Int) : RenderState :=
  match children with
  | [] => state
  | child :: rest =>
    renderChildren env (renderNode env state child current_format listIndent) rest
      current_format listIndent
end

/-- The result of `MarkdownRenderer::render`: the document (a null pointer when cmark returns
no root), the calls made on the outline, and the page title afterwards. -/
structure MarkdownResult where
  document : Option QTextDocument
  outline : List OutlineCall
  page_title : String

/-- The function `MarkdownRenderer::render`; `outline` holds the calls the outline received
before, `page_title` the title passed in by reference. -/
def MarkdownRenderer_render (env : Env) (input : QByteArray) (root_url : QUrl)
    (style : DocumentStyle) (outline : List OutlineCall) (page_title : String) :
    MarkdownResult :=
  match env.cmark_parse_document input with
  | none => ⟨none, outline, page_title⟩
  | some md_root =>
    let state : RenderState :=
      { cursor := []
        root_url := root_url
        style := style
        outline := outline ++ [OutlineCall.beginBuild]
        text_style := style.text_style
        page_title := page_title
        centre_first_h1 := style.centre_h1
        suppress_next_block := true }
    let state1 := renderNode env state md_root state.text_style.standard 0
    ⟨some ⟨[DocSetup.setPageMargins style.margin_h style.margin_v,
            DocSetup.setIndentWidth style.indent_size],
           DocumentContent.cursor state1.cursor⟩,
     state1.outline ++ [OutlineCall.endBuild],
     state1.page_title⟩

/-! ## Session controller (`browsertab.cpp`)

Messages built with `QString::arg` from a literal template are written as the literal with the
argument in the place of its marker. The notice for an unsupported media type, whose first
argument is the content type as received, goes through `QString_arg` twice. -/

/-- The method `MimeType::parameter("charset", "utf-8").toUpper()` of `on_requestComplete`. -/
def charsetOf (env : Env) (mime : MimeType) : String :=
  env.toUpper (mime.parameter "charset" "utf-8")

/-- The guard of the charset conversion in `on_requestComplete`. -/
def needsConversion (env : Env) (ref_data : QByteArray) (mime : MimeType) : Bool :=
  !ref_data.isEmpty && mime.type == "text" && charsetOf env mime != "UTF-8"

/-- The question asked when the conversion produced no bytes. -/
def conversionQuestion (charset : String) : String :=
  "Failed to convert input charset " ++ charset ++
    " to UTF-8. Cannot display the file.\r\nDo you want to display unconverted data anyways?"

/-- The error message for a failed conversion. -/
def conversionFailedMessage (charset : String) : String :=
  "Failed to convert input charset " ++ charset ++ " to UTF-8."

/-- The payload that `setErrorMessage(msg)` hands to `on_requestComplete`. -/
def errorDocumentData (msg : String) : QByteArray :=
  toUtf8 ("An error happened:\r\n" ++ msg)

/-- The content type that `setErrorMessage` hands to `on_requestComplete`. -/
def errorDocumentMime : String := "text/plain charset=utf-8"

/-- The template of the document for an unsupported media type. -/
def unsupportedNoticeTemplate : String :=
  "You accessed an unsupported media type!\n\nUse the *File* menu to save the file to your " ++
  "local disk or navigate somewhere else. I cannot display this for you. ☹\n\nInfo:\n" ++
  "MIME Type: %1\nFile Size: %2\n"

/-- The text of the document for an unsupported media type: the template with the content
type substituted by a first call of `QString::arg` and the size by a second call on the
result. -/
def unsupportedNotice (env : Env) (mime_text size : String) : String :=
  env.QString_arg (env.QString_arg unsupportedNoticeTemplate mime_text) size

/-- What the renderer selection of `on_requestComplete` produces. -/
structure RenderOutcome where
  doc_type : DocumentType
  document : Option QTextDocument
  outline : List OutlineCall
  graphics_scene : List SceneItem
  media : Option (QByteArray × QUrl × String)

/-- The `if`/`else if` chain of `on_requestComplete` that selects the renderer by the declared
content type. `media` is `none` when `setMedia` is not called. -/
def selectRenderer (env : Env) (current_location : QUrl) (data : QByteArray)
    (mime_text : String) : RenderOutcome :=
  let doc_style := env.derive_style current_location
  let plaintext_only := env.global_options.text_display == TextDisplay.PlainText
  if !plaintext_only && startsWith mime_text "text/gemini" then
    let r := env.GeminiRenderer_render data current_location doc_style
    ⟨DocumentType.Text, r.1, r.2, [], none⟩
  else if !plaintext_only && startsWith mime_text "text/gophermap" then
    ⟨DocumentType.Text, env.GophermapRenderer_render data current_location doc_style,
      [], [], none⟩
  else if !plaintext_only && startsWith mime_text "text/finger" then
    ⟨DocumentType.Text, env.PlainTextRenderer_render data doc_style, [], [], none⟩
  else if !plaintext_only && startsWith mime_text "text/html" then
    ⟨DocumentType.Text,
      some ⟨[DocSetup.setDefaultFont doc_style.standard_font,
             DocSetup.setDefaultStyleSheet doc_style.stylesheet,
             DocSetup.setDocumentMargin doc_style.margin],
            DocumentContent.html (env.fromUtf8 data)⟩,
      [], [], none⟩
  else if env.QT_FEATURE_textmarkdownreader && !plaintext_only
      && startsWith mime_text "text/markdown" then
    ⟨DocumentType.Text,
      some ⟨[DocSetup.setDefaultFont doc_style.standard_font,
             DocSetup.setDefaultStyleSheet doc_style.stylesheet,
             DocSetup.setDocumentMargin doc_style.margin],
            DocumentContent.markdown (env.fromUtf8 data)⟩,
      [], [], none⟩
  else if startsWith mime_text "text/" then
    ⟨DocumentType.Text, env.PlainTextRenderer_render data doc_style, [], [], none⟩
  else if startsWith mime_text "image/" then
    ⟨DocumentType.Image, none, [],
      (match env.imageReader_read data with
        | Except.ok img => [SceneItem.pixmap img]
        | Except.error e => [SceneItem.text ("Failed to load picture:\r\n" ++ e)]),
      none⟩
  else if startsWith mime_text "video/" || startsWith mime_text "audio/" then
    ⟨DocumentType.Media, none, [], [], some (data, current_location, mime_text)⟩
  else
    ⟨DocumentType.Text,
      some ⟨[DocSetup.setDefaultFont doc_style.standard_font,
             DocSetup.setDefaultStyleSheet doc_style.stylesheet],
            DocumentContent.plainText
              (unsupportedNotice env mime_text (env.size_human data.length))⟩,
      [], [], none⟩

/-- The assertion `assert((document != nullptr) == (doc_type == Text))`. -/
def documentAssertion (r : RenderOutcome) : Bool :=
  r.document.isSome == (r.doc_type == DocumentType.Text)

/-- The part of `on_requestComplete` after the charset conversion: `data` is the payload to
render, `ref_data` the payload as received. The call ends without a result when the assertion
fails. -/
def on_requestComplete_show (env : Env) (s : BrowserTab) (data ref_data : QByteArray)
    (mime_text : String) : Outcome :=
  let mime := env.MimeParser_parse mime_text
  let r := selectRenderer env s.current_location data mime_text
  if documentAssertion r then
    let stats : DocumentStats := ⟨ref_data.length, mime⟩
    some
      ({ s with
          current_mime := mime_text
          current_buffer := ref_data
          graphics_scene := r.graphics_scene
          outline := r.outline
          media := match r.media with
            | some m => some m
            | none => s.media
          visible := r.doc_type
          current_document := r.document
          current_stats := stats
          successfully_loaded := true },
       [Effect.locationChanged s.current_location,
        Effect.titleChanged (env.url_toString s.current_location),
        Effect.fileLoaded stats])
  else none

/-- The slot `on_requestComplete`, with a budget for the conversion loop and for the nested
call made by `setErrorMessage` (written out here: `setErrorMessage(msg)` calls
`on_requestComplete` with the error payload and then only refreshes the widgets). -/
def on_requestComplete (env : Env) : Nat → BrowserTab → QByteArray → String → Outcome
  | 0, _, _, _ => none
  | fuel + 1, s, ref_data, mime_text =>
    let mime := env.MimeParser_parse mime_text
    let charset := charsetOf env mime
    if needsConversion env ref_data mime then
      match convertToUtf8 env fuel ref_data charset with
      | none => none
      | some temp =>
        if temp.length > 0 then
          (on_requestComplete_show env s temp ref_data mime_text).after [Effect.stopPlaying]
        else if env.question (conversionQuestion charset) then
          (on_requestComplete_show env s ref_data ref_data mime_text).after
            [Effect.stopPlaying, Effect.question (conversionQuestion charset) true]
        else
          (on_requestComplete env fuel s
              (errorDocumentData (conversionFailedMessage charset)) errorDocumentMime).after
            [Effect.stopPlaying, Effect.question (conversionQuestion charset) false]
    else
      (on_requestComplete_show env s ref_data ref_data mime_text).after [Effect.stopPlaying]

/-- The method `setErrorMessage`. -/
def setErrorMessage (env : Env) (fuel : Nat) (s : BrowserTab) (msg : String) : Outcome :=
  on_requestComplete env fuel s (errorDocumentData msg) errorDocumentMime

/-- The handler that the loop of `startRequest` selects: the first one that supports the
scheme. -/
def findHandler (handlers : List ProtocolHandler) (scheme : String) : Option Nat :=
  handlers.findIdx? (fun h => h.supportsScheme scheme)

/-- Replaces the client certificate of the handler with the given index. -/
def setClientCertificate (c : Option CryptoIdentity) :
    Nat → List ProtocolHandler → List ProtocolHandler
  | _, [] => []
  | 0, h :: hs => { h with client_certificate := c } :: hs
  | n + 1, h :: hs => h :: setClientCertificate c n hs

/-- The calls `handler->disableClientCertificate()` and
`enable_client_cert_button->setChecked(false)`, made together throughout. -/
def disableClientCertificate (s : BrowserTab) (handler : Nat) : BrowserTab :=
  { s with
    protocol_handlers := setClientCertificate none handler s.protocol_handlers
    enable_client_cert_button := false }

/-- The question of `startRequest` for a scheme without client certificates. -/
def unsupportedCertificateQuestion (scheme : String) : String :=
  "You requested a " ++ scheme ++
    "-URL with a client certificate, but these are not supported for this scheme. Continue?"

/-- The question of `startRequest` before a certificate is sent to another host. -/
def newHostQuestion : String :=
  "You want to visit a new host, but have a client certificate enabled. This may be a risk " ++
  "to expose your identity to another host.\r\nDo you want to keep the certificate enabled?"

/-- The first `if`/`else` of `startRequest`, which enables or disables the client certificate
on the selected handler. The Boolean is `false` when the method returns `false` there. -/
def startRequest_certificate (env : Env) (s : BrowserTab) (handler : Nat) (url : QUrl) :
    BrowserTab × List Effect × Bool :=
  if s.current_identitiy.isValid then
    if !env.handler_enableClientCertificate handler s.current_identitiy then
      let q := unsupportedCertificateQuestion url.scheme
      if !env.question q then
        (s, [Effect.enableClientCertificate handler false, Effect.question q false], false)
      else
        (disableClientCertificate s handler,
          [Effect.enableClientCertificate handler false, Effect.question q true,
           Effect.disableClientCertificate handler], true)
    else
      ({ s with
          protocol_handlers :=
            setClientCertificate (some s.current_identitiy) handler s.protocol_handlers },
        [Effect.enableClientCertificate handler true], true)
  else
    (disableClientCertificate s handler, [Effect.disableClientCertificate handler], true)

/-- The second `if` of `startRequest`, which asks before the certificate goes to a new
host. -/
def startRequest_newHost (env : Env) (s : BrowserTab) (handler : Nat) (url : QUrl) :
    BrowserTab × List Effect :=
  if s.current_identitiy.isValid && url.host != s.current_location.host then
    if !env.question newHostQuestion then
      (disableClientCertificate s handler,
        [Effect.question newHostQuestion false, Effect.disableClientCertificate handler])
    else
      (s, [Effect.question newHostQuestion true])
  else
    (s, [])

/-- The method `startRequest`: the tab afterwards, the effects and the returned Boolean. The
call ends without a result when no handler supports the scheme (the assertion on
`current_handler`). -/
def startRequest (env : Env) (s : BrowserTab) (url : QUrl) (options : RequestOptions) :
    Option (BrowserTab × List Effect × Bool) :=
  match findHandler s.protocol_handlers url.scheme with
  | none => none
  | some handler =>
    let s0 := { s with current_handler := some handler }
    let c := startRequest_certificate env s0 handler url
    if !c.2.2 then
      some (c.1, c.2.1, false)
    else
      let n := startRequest_newHost env c.1 handler url
      let s2 := { n.1 with
        is_internal_location := url.scheme == "about"
        current_location := url
        url_bar := env.url_toStringFullyEncoded url }
      let ok := env.handler_startRequest handler url options
      some (s2, c.2.1 ++ n.2 ++ [Effect.startRequest handler url options ok], ok)

/-- The method `pushToHistory`. -/
def pushToHistory (s : BrowserTab) (url : QUrl) : BrowserTab :=
  let r := history_pushUrl s.history s.current_history_index url
  { s with history := r.1, current_history_index := r.2 }

/-- The part of `navigateTo` after the scheme and cancel checks have passed. -/
def navigateTo_start (env : Env) (s : BrowserTab) (url : QUrl) (mode : PushToHistory) :
    Outcome :=
  let s1 := { s with redirection_count := 0, successfully_loaded := false }
  match startRequest env s1 url RequestOptions.Default with
  | none => none
  | some (s2, tr, false) =>
    some (s2, tr ++
      [Effect.critical ("Failed to execute request to " ++ env.url_toString url)])
  | some (s2, tr, true) =>
    if mode == PushToHistory.PushImmediate then some (pushToHistory s2 url, tr)
    else some (s2, tr)

/-- The method `navigateTo`. The trace starts with a marker of the call. -/
def navigateTo (env : Env) (s : BrowserTab) (url : QUrl) (mode : PushToHistory) : Outcome :=
  if env.isSchemeSupported url.scheme != ProtocolSetup.Enabled then
    some (s, [Effect.navigateTo url mode,
      Effect.warning ("URI scheme not supported or disabled: " ++ url.scheme)])
  else
    match s.current_handler with
    | some handler =>
      if !env.handler_cancelRequest handler then
        some (s, [Effect.navigateTo url mode, Effect.cancelRequest handler false,
          Effect.warning "Failed to cancel running request!"])
      else
        (navigateTo_start env s url mode).after
          [Effect.navigateTo url mode, Effect.cancelRequest handler true]
    | none => (navigateTo_start env s url mode).after [Effect.navigateTo url mode]

/-- The method `navigateBack`. -/
def navigateBack (env : Env) (s : BrowserTab) (history_index : Option Nat) : Outcome :=
  let url := history_get s.history history_index
  if url.isValid then
    navigateTo env { s with current_history_index := history_index } url
      PushToHistory.DontPush
  else some (s, [])

/-- The method `navOneBackback`. -/
def navOneBackback (env : Env) (s : BrowserTab) : Outcome :=
  navigateBack env s (history_oneBackward s.history s.current_history_index)

/-- The method `navOneForward`. -/
def navOneForward (env : Env) (s : BrowserTab) : Outcome :=
  navigateBack env s (history_oneForward s.history s.current_history_index)

/-- The method `reloadPage`. -/
def reloadPage (env : Env) (s : BrowserTab) : Outcome :=
  if s.current_location.isValid then
    navigateTo env s s.current_location PushToHistory.DontPush
  else some (s, [])

/-- The file name that the `switch` of `on_networkError` selects. -/
def errorPageFile : NetworkError → String
  | .UnknownError => "UnknownError.gemini"
  | .ProtocolViolation => "ProtocolViolation.gemini"
  | .HostNotFound => "HostNotFound.gemini"
  | .ConnectionRefused => "ConnectionRefused.gemini"
  | .ResourceNotFound => "ResourceNotFound.gemini"
  | .BadRequest => "BadRequest.gemini"
  | .ProxyRequest => "ProxyRequest.gemini"
  | .InternalServerError => "InternalServerError.gemini"
  | .InvalidClientCertificate => "InvalidClientCertificate.gemini"
  | .UntrustedHost => "UntrustedHost.gemini"
  | .MistrustedHost => "MistrustedHost.gemini"
  | .Unauthorized => "Unauthorized.gemini"
  | .TlsFailure => "TlsFailure.gemini"
  | .Timeout => "Timeout.gemini"

/-- The slot `on_networkError`. The call ends without a result when the error page cannot be
opened (`assert(false)`). -/
def on_networkError (env : Env) (fuel : Nat) (s : BrowserTab) (error_code : NetworkError)
    (reason : String) : Outcome :=
  let file_name := ":/error_page/" ++ errorPageFile error_code
  match env.resource file_name with
  | none => none
  | some bytes =>
    let contents := toUtf8 (env.QString_arg (env.fromUtf8 bytes) reason)
    on_requestComplete env fuel { s with is_internal_location := true } contents "text/gemini"

/-- The method `trySetClientCertificate`: the tab afterwards, the effects and the returned
Boolean. -/
def trySetClientCertificate (env : Env) (s : BrowserTab) (query : String) :
    BrowserTab × List Effect × Bool :=
  match env.certificateDialog query with
  | none =>
    ({ s with
        protocol_handlers :=
          s.protocol_handlers.map (fun h => { h with client_certificate := none })
        enable_client_cert_button := false },
      [Effect.certificateDialog query false], false)
  | some identity =>
    let s1 := { s with current_identitiy := identity }
    if !s1.current_identitiy.isValid then
      ({ s1 with enable_client_cert_button := false },
        [Effect.certificateDialog query true,
         Effect.warning "Failed to generate temporary crypto-identitiy"], false)
    else
      ({ s1 with enable_client_cert_button := true },
        [Effect.certificateDialog query true], true)

/-- The question of `resetClientCertificate` for a transient session. -/
def transientSessionQuestion : String :=
  "You currently have a transient session active!\r\nIf you disable the session, you will " ++
  "not be able to restore it. Continue?"

/-- The method `resetClientCertificate`. -/
def resetClientCertificate (env : Env) (s : BrowserTab) : BrowserTab × List Effect :=
  let transient := s.current_identitiy.isValid && !s.current_identitiy.is_persistent
  if transient && !env.question transientSessionQuestion then
    ({ s with enable_client_cert_button := true },
      [Effect.question transientSessionQuestion false])
  else
    ({ s with
        current_identitiy := CryptoIdentity.none
        protocol_handlers :=
          s.protocol_handlers.map (fun h => { h with client_certificate := none })
        enable_client_cert_button := false },
      if transient then [Effect.question transientSessionQuestion true] else [])

/-- The slot `on_enable_client_cert_button_clicked`. -/
def on_enable_client_cert_button_clicked (env : Env) (s : BrowserTab) (checked : Bool) :
    BrowserTab × List Effect :=
  if checked then
    let r := trySetClientCertificate env s ""
    (r.1, r.2.1)
  else resetClientCertificate env s

/-- The slot `on_certificateRequired`. -/
def on_certificateRequired (env : Env) (fuel : Nat) (s : BrowserTab) (reason : String) :
    Outcome :=
  let r := trySetClientCertificate env s reason
  if !r.2.2 then
    (setErrorMessage env fuel r.1
      ("The page requested a authorized client certificate, but none was provided.\r\n" ++
        "Original query was: " ++ reason)).after r.2.1
  else
    (navigateTo env r.1 r.1.current_location PushToHistory.DontPush).after r.2.1

/-- The length `new_location.toString(QUrl::FullyEncoded).toUtf8().size()` that
`on_inputRequired` compares with 1020. -/
def encodedLength (env : Env) (location : QUrl) : Nat :=
  (toUtf8 (env.url_toStringFullyEncoded location)).length

/-- The warning of `on_inputRequired` for an input that is too long. -/
def inputTooLongMessage (env : Env) (len : Nat) : String :=
  "Your input message is too long. Your input is " ++ env.QString_number len ++
    " bytes, but a maximum of 1020 bytes are allowed.\r\nPlease cancel or shorten your input."

/-- The slot `on_inputRequired`. The list holds the results of the successive executions of
the input dialog: `none` when the dialog is not accepted, else the text entered. The call has
no result when the list ends while the loop still runs. -/
def on_inputRequired (env : Env) (fuel : Nat) (s : BrowserTab) (query : String) :
    List (Option String) → Outcome
  | [] => none
  | none :: _ =>
    (setErrorMessage env fuel s ("Site requires input:\n" ++ query)).after
      [Effect.inputDialog query none]
  | some text :: later =>
    let new_location := env.url_setQuery s.current_location text
    let len := encodedLength env new_location
    if len >= 1020 then
      (on_inputRequired env fuel s query later).after
        [Effect.inputDialog query (some text), Effect.warning (inputTooLongMessage env len)]
    else
      (navigateTo env s new_location PushToHistory.DontPush).after
        [Effect.inputDialog query (some text)]

/-- The error message of `on_redirected` at the redirection limit. -/
def tooManyRedirectsMessage (env : Env) (uri : QUrl) : String :=
  "Too many consecutive redirections. The last redirection would have redirected you to:\r\n"
    ++ env.url_toStringFullyEncoded uri

/-- The text `question` that `on_redirected` builds from the redirection policy; it stays
empty when no branch applies. -/
def redirectQuestion (env : Env) (policy : RedirectionWarning)
    (is_cross_protocol is_cross_host : Bool) (uri : QUrl) : String :=
  if policy == RedirectionWarning.WarnAlways then
    "The location you visited wants to redirect you to another location:\r\n" ++
      env.url_toStringFullyEncoded uri ++ "\r\nDo you want to allow the redirection?"
  else if policy.hasAnyWarning && is_cross_protocol && is_cross_host then
    "The location you visited wants to redirect you to another host and switch the " ++
      "protocol.\r\nProtocol: " ++ uri.scheme ++ "\r\nNew Host: " ++ uri.host ++
      "\r\nDo you want to allow the redirection?"
  else if policy.hasSchemeChange && is_cross_protocol then
    "The location you visited wants to switch the protocol.\r\nProtocol: " ++ uri.scheme ++
      "\r\nDo you want to allow the redirection?"
  else if policy.hasHostChange && is_cross_host then
    "The location you visited wants to redirect you to another host.\r\nNew Host: " ++
      uri.host ++ "\r\nDo you want to allow the redirection?"
  else ""

/-- The slot `on_redirected`. -/
def on_redirected (env : Env) (fuel : Nat) (s : BrowserTab) (uri : QUrl)
    (_is_permanent : Bool) : Outcome :=
  if s.redirection_count >= env.global_options.max_redirections then
    setErrorMessage env fuel s (tooManyRedirectsMessage env uri)
  else
    let is_cross_protocol := s.current_location.scheme != uri.scheme
    let is_cross_host := s.current_location.host != uri.host
    let question := redirectQuestion env env.global_options.redirection_policy
      is_cross_protocol is_cross_host uri
    if (is_cross_protocol || is_cross_host) && !env.question question then
      (setErrorMessage env fuel s
        ("Redirection to " ++ env.url_toString uri ++ " cancelled by user")).after
        [Effect.question question false]
    else
      let asked :=
        if is_cross_protocol || is_cross_host then [Effect.question question true] else []
      match startRequest env s uri RequestOptions.Default with
      | none => none
      | some (s1, tr, true) =>
        some ({ s1 with
                redirection_count := s1.redirection_count + 1
                current_location := uri
                url_bar := env.url_toString uri },
              asked ++ tr)
      | some (s1, tr, false) =>
        (setErrorMessage env fuel s1
          ("Redirection to " ++ env.url_toString uri ++ " failed")).after (asked ++ tr)

/-- The question of `on_text_browser_anchorClicked` before TLS errors are ignored. -/
def ignoreTlsQuestion : String :=
  "This sites certificate could not be verified! This may be a man-in-the-middle attack on " ++
  "the server to send you malicious content (or the server admin made a configuration " ++
  "mistake).\r\nAre you sure you want to continue?"

/-- The message of `on_text_browser_anchorClicked` for a control link in a document that is
not internal. -/
def maliciousSiteMessage : String :=
  "Malicious site detected! This site tries to use the Kristall control scheme!\r\n" ++
  "A trustworthy site does not do this!"

/-- The slot `on_text_browser_anchorClicked`. The value returned by `startRequest` for the
control action is discarded, as in the source. -/
def on_text_browser_anchorClicked (env : Env) (s : BrowserTab) (url : QUrl) : Outcome :=
  if url.scheme == "kristall+ctrl" then
    if s.is_internal_location then
      let opt := url.path
      if opt == "ignore-tls" then
        if env.question ignoreTlsQuestion then
          match startRequest env s s.current_location RequestOptions.IgnoreTlsErrors with
          | none => none
          | some (s1, tr, _) => some (s1, [Effect.question ignoreTlsQuestion true] ++ tr)
        else some (s, [Effect.question ignoreTlsQuestion false])
      else some (s, [])
    else some (s, [Effect.critical maliciousSiteMessage])
  else
    let real_url := if url.isRelative then env.url_resolved s.current_location url else url
    let support := env.isSchemeSupported real_url.scheme
    if support == ProtocolSetup.Enabled then
      navigateTo env s real_url PushToHistory.PushImmediate
    else if env.global_options.use_os_scheme_handler then
      if !env.openUrl url then
        some (s, [Effect.openUrl url false,
          Effect.warning
            ("Failed to start system URL handler for\r\n" ++ env.url_toString real_url)])
      else some (s, [Effect.openUrl url true])
    else if support == ProtocolSetup.Disabled then
      some (s, [Effect.warning
        ("The requested url uses a scheme that has been disabled in the settings:\r\n" ++
          env.url_toString real_url)])
    else
      some (s, [Effect.warning
        ("The requested url cannot be processed by Kristall:\r\n" ++
          env.url_toString real_url)])

/-- The slot `on_stop_button_clicked`. -/
def on_stop_button_clicked (env : Env) (s : BrowserTab) : BrowserTab × List Effect :=
  match s.current_handler with
  | some handler => (s, [Effect.cancelRequest handler (env.handler_cancelRequest handler)])
  | none => (s, [])

/-- The slot `on_requestProgress`. -/
def on_requestProgress (s : BrowserTab) (transferred : Nat) : BrowserTab × List Effect :=
  let stats : DocumentStats := ⟨transferred, MimeType.empty⟩
  ({ s with current_stats := stats }, [Effect.fileLoaded stats])

/-! ## Observations on traces -/

/-- The request of a `startRequest` call on a handler. -/
def Effect.dispatch? : Effect → Option (Nat × QUrl × RequestOptions)
  | .startRequest handler url options _ => some (handler, url, options)
  | _ => none

/-- The requests handed to protocol handlers during a trace, in order. -/
def dispatches (tr : List Effect) : List (Nat × QUrl × RequestOptions) :=
  tr.filterMap Effect.dispatch?

/-- The arguments of a `navigateTo` call. -/
def Effect.navigation? : Effect → Option (QUrl × PushToHistory)
  | .navigateTo url mode => some (url, mode)
  | _ => none

/-- The calls of `navigateTo` during a trace, in order. -/
def navigations (tr : List Effect) : List (QUrl × PushToHistory) :=
  tr.filterMap Effect.navigation?

/-- The text of a question put to the user. -/
def Effect.question? : Effect → Option String
  | .question text _ => some text
  | _ => none

/-- The questions put to the user during a trace, in order. -/
def questions (tr : List Effect) : List String :=
  tr.filterMap Effect.question?

/-- The number of executions of the input dialog during a trace. -/
def inputPrompts (tr : List Effect) : Nat :=
  (tr.filter fun e => match e with
    | .inputDialog _ _ => true
    | _ => false).length

/-! ## A concrete environment

A small instance of the collaborators on which the definitions can be evaluated: one handler
for `gemini`, a converter for the charset `ASCII`, and a user who answers every question with
yes. -/

/-- The longest prefix of bytes below 128 that fits into a buffer of the given size. -/
def asciiRun : QByteArray → Nat → QByteArray
  | [], _ => []
  | _ :: _, 0 => []
  | b :: bs, cap + 1 => if b < 128 then b :: asciiRun bs cap else []

/-- The behaviour of `iconv` for a conversion from `ASCII`: it copies bytes below 128 until the
input ends, the buffer is full (`E2BIG`) or a byte is not ASCII (`EILSEQ`, with the input
pointer left at that byte). -/
def iconv_ascii (cd : Nat) (input : QByteArray) (cap : Nat) : IconvResult :=
  let out := asciiRun input cap
  { cd := cd
    consumed := out.length
    output := out
    error := match input.drop out.length with
      | [] => none
      | b :: _ => if b < 128 then some Errno.E2BIG else some Errno.EILSEQ }

/-- A parser of content types that knows the types used below. -/
def demoParse (mime_text : String) : MimeType :=
  if mime_text == "text/plain; charset=ascii" then ⟨"text", "plain", [("charset", "ascii")]⟩
  else if startsWith mime_text "text/" then ⟨"text", "plain", []⟩
  else ⟨"application", "octet-stream", []⟩

/-- A character format of the demo theme. -/
def demoCharFormat (base : Nat) : QTextCharFormat := ⟨base, false, 50, ""⟩

/-- The demo theme. -/
def demoStyle : DocumentStyle :=
  { standard_font := 0
    background_color := "#ffffff"
    stylesheet := ""
    margin := 0
    margin_h := 0
    margin_v := 0
    indent_size := 20
    centre_h1 := false
    text_style :=
      { standard := demoCharFormat 0
        standard_link := demoCharFormat 1
        external_link := demoCharFormat 2
        cross_protocol_link := demoCharFormat 3
        standard_h1 := demoCharFormat 4
        standard_h2 := demoCharFormat 5
        standard_h3 := demoCharFormat 6
        preformatted := demoCharFormat 7
        blockquote := demoCharFormat 8
        standard_format := ⟨1, none⟩
        preformatted_format := ⟨2, none⟩
        blockquote_format := ⟨3, none⟩
        heading_format := ⟨4, none⟩
        list_format := ⟨0, 1, ListStyle.themed⟩
        blockquote_tableformat := 0 } }

/-- A URL with the given scheme, host and path. -/
def demoUrl (scheme host path : String) : QUrl := ⟨scheme, host, path, "", "", true⟩

/-- The demo environment. -/
def demoEnv : Env :=
  { toUpper := fun t => String.mk (t.data.map Char.toUpper)
    fromUtf8 := fun b => String.mk (b.map fun c => Char.ofNat c.toNat)
    QString_arg := fun t a => t ++ a
    QString_number := fun n => String.mk (Nat.toDigits 10 n)
    url_toString := fun u => u.scheme ++ "://" ++ u.host ++ u.path
    url_toStringFullyEncoded := fun u => u.scheme ++ "://" ++ u.host ++ u.path
    url_resolved := fun base rel => { rel with scheme := base.scheme, host := base.host }
    url_setQuery := fun u q => { u with query := q }
    url_fromString := fun t =>
      if t == "other://host/x" then ⟨"other", "host", "/x", "", "", true⟩
      else ⟨"", "", t, "", "", true⟩
    iconv_open := fun charset => if charset == "ASCII" then some 0 else none
    iconv := iconv_ascii
    MimeParser_parse := demoParse
    size_human := fun n => String.mk (Nat.toDigits 10 n)
    GeminiRenderer_render := fun d _ _ => (some ⟨[], DocumentContent.external "gemini" d⟩, [])
    GophermapRenderer_render := fun d _ _ => some ⟨[], DocumentContent.external "gophermap" d⟩
    PlainTextRenderer_render := fun d _ => some ⟨[], DocumentContent.external "plain" d⟩
    replace_quotes := fun t => t
    cmark_parse_document := fun _ => none
    cursor_blockFormat := fun _ => QTextBlockFormat.default
    imageReader_read := fun _ => Except.error "unsupported image format"
    QT_FEATURE_textmarkdownreader := false
    resource := fun _ => none
    derive_style := fun _ => demoStyle
    global_options := ⟨TextDisplay.FormattedText, RedirectionWarning.WarnAlways, 5, false⟩
    isSchemeSupported := fun sc =>
      if sc == "gemini" then ProtocolSetup.Enabled else ProtocolSetup.Unsupported
    question := fun _ => true
    certificateDialog := fun _ => none
    handler_cancelRequest := fun _ => true
    handler_enableClientCertificate := fun _ _ => true
    handler_startRequest := fun _ _ _ => true
    openUrl := fun _ => true }

/-- A tab of the demo environment that shows `gemini://a/`. -/
def demoTab : BrowserTab :=
  { current_location := demoUrl "gemini" "a" "/"
    history := [demoUrl "gemini" "a" "/"]
    current_history_index := some 0
    redirection_count := 0
    successfully_loaded := true
    is_internal_location := false
    current_identitiy := CryptoIdentity.none
    current_handler := none
    protocol_handlers := [⟨fun sc => sc == "gemini", none⟩]
    enable_client_cert_button := false
    url_bar := "gemini://a/"
    current_mime := "text/gemini"
    current_buffer := []
    current_document := none
    outline := []
    graphics_scene := []
    media := none
    visible := DocumentType.Text
    current_stats := ⟨0, MimeType.empty⟩ }

/-! ## Notions used in the statements -/

/-- What `on_requestComplete` and `setErrorMessage` leave alone. -/
structure SameSession (s s' : BrowserTab) : Prop where
  current_location : s'.current_location = s.current_location
  history : s'.history = s.history
  current_history_index : s'.current_history_index = s.current_history_index
  redirection_count : s'.redirection_count = s.redirection_count
  is_internal_location : s'.is_internal_location = s.is_internal_location
  current_identitiy : s'.current_identitiy = s.current_identitiy
  current_handler : s'.current_handler = s.current_handler
  protocol_handlers : s'.protocol_handlers = s.protocol_handlers
  enable_client_cert_button : s'.enable_client_cert_button = s.enable_client_cert_button
  url_bar : s'.url_bar = s.url_bar

/-- What `startRequest` leaves alone. -/
structure SameNavigation (s s' : BrowserTab) : Prop where
  history : s'.history = s.history
  current_history_index : s'.current_history_index = s.current_history_index
  redirection_count : s'.redirection_count = s.redirection_count
  successfully_loaded : s'.successfully_loaded = s.successfully_loaded
  current_identitiy : s'.current_identitiy = s.current_identitiy

/-- Whether the redirect passes the confirmation step of `on_redirected`: no question is put,
or the user answers yes. -/
def redirectAccepted (env : Env) (s : BrowserTab) (uri : QUrl) : Bool :=
  let is_cross_protocol := s.current_location.scheme != uri.scheme
  let is_cross_host := s.current_location.host != uri.host
  !(is_cross_protocol || is_cross_host) ||
    env.question (redirectQuestion env env.global_options.redirection_policy
      is_cross_protocol is_cross_host uri)

/-- The demo environment with a redirection policy that has neither warning bit set. -/
def demoEnvNoWarning : Env :=
  { demoEnv with
    global_options :=
      ⟨TextDisplay.FormattedText, RedirectionWarning.mask false false, 5, false⟩ }

mutual
/-- Specification: the headings of level 1, 2 or 3 below a node, in document order, each with
its level and its text (the literal of its first child). -/
def headingsOf : Node → List (Nat × String)
  | .heading level children =>
    (if level = 1 ∨ level = 2 ∨ level = 3 then [(level, firstChildLiteral children)] else [])
      ++ headingsOfList children
  | .document children => headingsOfList children
  | .block_quote children => headingsOfList children
  | .list _ children => headingsOfList children
  | .item children => headingsOfList children
  | .paragraph children => headingsOfList children
  | .emph children => headingsOfList children
  | .strong children => headingsOfList children
  | .link _ children => headingsOfList children
  | .image _ children => headingsOfList children
  | _ => []
/-- Specification: the headings of level 1, 2 or 3 in a sequence of nodes, in document
order. -/
def headingsOfList : List Node → List (Nat × String)
  | [] => []
  | child :: rest => headingsOf child ++ headingsOfList rest
end

/-- The outline call that records a heading of level 1, 2 or 3. -/
def entryCall (e : Nat × String) : OutlineCall :=
  match e.1 with
  | 1 => OutlineCall.appendH1 e.2 ""
  | 2 => OutlineCall.appendH2 e.2 ""
  | _ => OutlineCall.appendH3 e.2 ""

/-- Specification: the text of the first level 1 heading, the empty string when there is
none. -/
def firstH1 (hs : List (Nat × String)) : String :=
  ((hs.find? fun e => e.1 == 1).map fun e => e.2).getD ""

/-- Specification: the text of the first level 1 heading whose text is not empty, the empty
string when there is none. -/
def firstTitledH1 (hs : List (Nat × String)) : String :=
  ((hs.find? fun e => e.1 == 1 && e.2 != "").map fun e => e.2).getD ""

/-- The relation between the state before and after rendering nodes with headings `hs`. -/
def Recorded (state state' : RenderState) (hs : List (Nat × String)) : Prop :=
  state'.outline = state.outline ++ hs.map entryCall ∧
  state'.page_title = if state.page_title = "" then firstTitledH1 hs else state.page_title

/-- The demo environment with a markdown parser that returns the given tree. -/
def demoMarkdownEnv (root : Node) : Env :=
  { demoEnv with cmark_parse_document := fun _ => some root }

/-- A document with the headings "A" (level 1), "B" (level 2) and "C" (level 1). -/
def headingsExample : Node :=
  Node.document
    [Node.heading 1 [Node.text "A"], Node.paragraph [Node.text "x"],
     Node.heading 2 [Node.text "B"], Node.heading 1 [Node.text "C"]]

/-- A document whose first level 1 heading is empty, as cmark parses `#` followed by `# C`. -/
def emptyHeadingExample : Node :=
  Node.document [Node.heading 1 [], Node.heading 1 [Node.text "C"]]

mutual
/-- Specification: the text of a node as a reader sees it, that is the literals of the text and
inline code nodes below it, in document order, with a space for a soft break. -/
def visibleText : Node → String
  | .text literal => literal
  | .code literal => literal
  | .softbreak => " "
  | .document children => visibleTextOfList children
  | .block_quote children => visibleTextOfList children
  | .list _ children => visibleTextOfList children
  | .item children => visibleTextOfList children
  | .paragraph children => visibleTextOfList children
  | .heading _ children => visibleTextOfList children
  | .emph children => visibleTextOfList children
  | .strong children => visibleTextOfList children
  | .link _ children => visibleTextOfList children
  | .image _ children => visibleTextOfList children
  | _ => ""
/-- Specification: the visible text of a sequence of nodes. -/
def visibleTextOfList : List Node → String
  | [] => ""
  | child :: rest => visibleText child ++ visibleTextOfList rest
end

/-- A document whose first level 1 heading is set in emphasis, as cmark parses `# *A*`
followed by `# C`. -/
def emphasisedHeadingExample : Node :=
  Node.document [Node.heading 1 [Node.emph [Node.text "A"]], Node.heading 1 [Node.text "C"]]

/-- A render state of the demo theme for documents below `gemini://a/`. -/
def demoRenderState : RenderState :=
  { cursor := []
    root_url := demoUrl "gemini" "a" "/"
    style := demoStyle
    outline := []
    text_style := demoStyle.text_style
    page_title := ""
    centre_first_h1 := false
    suppress_next_block := true }

/-- Every request of the trace was dispatched with the default options. -/
def DefaultOnly (tr : List Effect) : Prop :=
  ∀ d ∈ dispatches tr, d.2.2 = RequestOptions.Default

/-- The demo environment with a user who answers every question with no and a libc that knows
no charset. -/
def demoEnvDeclining : Env :=
  { demoEnv with
    question := fun _ => false
    iconv_open := fun _ => none }

/-- An identity of the demo environment. -/
def demoIdentity : CryptoIdentity := ⟨1, true, true⟩

/-- The demo tab with the demo identity enabled on its handler. -/
def demoTabWithIdentity : BrowserTab :=
  { demoTab with
    current_identitiy := demoIdentity
    enable_client_cert_button := true
    protocol_handlers := [⟨fun sc => sc == "gemini", some demoIdentity⟩] }

/-- The client certificates enabled on the handlers of the tab, by handler. -/
def enabledCertificates (s : BrowserTab) : List (Option CryptoIdentity) :=
  s.protocol_handlers.map fun h => h.client_certificate

/-- The conditions under which `navigateTo` reaches `pushToHistory`: the scheme is enabled, an
active request was cancelled, `startRequest` returned true and the mode is
`PushImmediate`. -/
def pushesHistory (env : Env) (s : BrowserTab) (url : QUrl) (mode : PushToHistory) : Prop :=
  env.isSchemeSupported url.scheme = ProtocolSetup.Enabled ∧
  (∀ handler, s.current_handler = some handler → env.handler_cancelRequest handler = true) ∧
  (∃ s2 tr2, startRequest env { s with redirection_count := 0, successfully_loaded := false }
    url RequestOptions.Default = some (s2, tr2, true)) ∧
  mode = PushToHistory.PushImmediate

mutual
/-- Specification: the node is inline content without inline code, links and images, that is
a text node, a soft or hard break, inline HTML, or an emphasis or strong node with only such
nodes below it. -/
def plainInline : Node → Bool
  | .text _ => true
  | .softbreak => true
  | .linebreak => true
  | .html_inline _ => true
  | .custom_inline => true
  | .emph children => plainInlineList children
  | .strong children => plainInlineList children
  | _ => false
/-- Specification: every node of the sequence satisfies `plainInline`. -/
def plainInlineList : List Node → Bool
  | [] => true
  | child :: rest => plainInline child && plainInlineList rest
end

/-- Every text run inserted by the cursor operations `ops` has a format that satisfies `p`. -/
def AllRuns (p : QTextCharFormat → Prop) (ops : List CursorOp) : Prop :=
  ∀ text fmt, CursorOp.insertText text fmt ∈ ops → p fmt

/-- The format keeps the italic and bold settings of `base`. -/
def KeepsModifiers (base fmt : QTextCharFormat) : Prop :=
  (base.italic = true → fmt.italic = true) ∧
  (base.weight = QFont_Bold → fmt.weight = QFont_Bold)

/-- The indents of the lists inserted by cursor operations, in order. -/
def listIndents (ops : List CursorOp) : List Int :=
  ops.filterMap fun op => match op with
    | CursorOp.insertList f => some f.indent
    | _ => none

/-- A list whose item holds a block quote with a list in it. -/
def quotedListExample : Node :=
  Node.list false
    [Node.item
      [Node.paragraph [Node.text "a"],
       Node.block_quote [Node.list false [Node.item [Node.paragraph [Node.text "b"]]]]]]

/-- A list whose item holds a list directly. -/
def nestedListExample : Node :=
  Node.list false
    [Node.item
      [Node.paragraph [Node.text "a"],
       Node.list false [Node.item [Node.paragraph [Node.text "b"]]]]]

/-- The demo environment with an error page for every name of the resource system. -/
def demoEnvWithPages : Env :=
  { demoEnv with resource := fun name => some (toUtf8 ("# " ++ name ++ "\n")) }

/-- The loop of `convertToUtf8` as in `convertToUtf8_loop`, which also reports the input that
is left when the loop ends (`input_ptr` onwards). -/
def convertToUtf8_run (env : Env) :
    Nat → Nat → QByteArray → QByteArray → Option (QByteArray × QByteArray)
  | 0, _, input, result => if input.length > 0 then none else some (result, input)
  | fuel + 1, cd, input, result =>
    if input.length > 0 then
      let r := env.iconv cd input 4096
      let input1 := input.drop r.consumed
      match r.error with
      | none => convertToUtf8_run env fuel r.cd input1 (result ++ r.output)
      | some Errno.E2BIG => convertToUtf8_run env fuel r.cd input1 (result ++ r.output)
      | some Errno.EILSEQ =>
        if input1.length > 0 then
          convertToUtf8_run env fuel r.cd (input1.drop 1)
            (result ++ replacement_character ++ r.output)
        else
          convertToUtf8_run env fuel r.cd input1 (result ++ r.output)
      | some Errno.EINVAL =>
        if input1.length > 0 then
          convertToUtf8_run env fuel r.cd (input1.drop 1)
            (result ++ replacement_character ++ r.output)
        else
          convertToUtf8_run env fuel r.cd input1 (result ++ r.output)
      | some Errno.other => some (result, input1)
    else
      some (result, input)

/-- The demo environment with a handler that refuses to cancel its request. -/
def demoEnvBusy : Env := { demoEnv with handler_cancelRequest := fun _ => false }

/-- The demo tab after a visit of `gemini://a/` and then `gemini://b/`, with the handler
still active. -/
def demoTabSecondPage : BrowserTab :=
  { demoTab with
    current_location := demoUrl "gemini" "b" "/"
    history := [demoUrl "gemini" "a" "/", demoUrl "gemini" "b" "/"]
    current_history_index := some 1
    current_handler := some 0 }

/-- The demo tab after a visit of `http://a/` and then `gemini://b/`; the demo environment
does not enable `http`. -/
def demoTabAfterHttp : BrowserTab :=
  { demoTab with
    current_location := demoUrl "gemini" "b" "/"
    history := [demoUrl "http" "a" "/", demoUrl "gemini" "b" "/"]
    current_history_index := some 1 }

/-- The user declines at the prompt of `startRequest` for a scheme without client
certificates, so that the method returns false before the request is dispatched. -/
def abortedAtCertificatePrompt (env : Env) (s : BrowserTab) (handler : Nat) (url : QUrl) :
    Prop :=
  s.current_identitiy.isValid = true ∧
  env.handler_enableClientCertificate handler s.current_identitiy = false ∧
  env.question (unsupportedCertificateQuestion url.scheme) = false

/-- Rendering from `s` to `s'` keeps the theme and the root URL and only adds cursor
operations. -/
def Extends (s s' : RenderState) : Prop :=
  s'.text_style = s.text_style ∧ s'.root_url = s.root_url ∧
    ∃ ops, s'.cursor = s.cursor ++ ops

/-- The inline node types that hand a character format of their own to their children. -/
inductive Container where
  | emph
  | strong
  | link (url : String)
  | image (url : String)
deriving DecidableEq, Repr

/-- One step from a container node down to one of its children: the container, the children
before that child and the children after it. -/
structure Step where
  container : Container
  before : List Node
  after : List Node

/-- The container node of a step, with `child` between the other children. -/
def Step.node (st : Step) (child : Node) : Node :=
  match st.container with
  | .emph => Node.emph (st.before ++ child :: st.after)
  | .strong => Node.strong (st.before ++ child :: st.after)
  | .link url => Node.link url (st.before ++ child :: st.after)
  | .image url => Node.image url (st.before ++ child :: st.after)

/-- The tree that has `leaf` at the end of the path, the outermost step first. -/
def plug : List Step → Node → Node
  | [], leaf => leaf
  | st :: rest, leaf => st.node (plug rest leaf)

/-- The format that `renderNode` hands to the children of a container. -/
def Container.childFormat (env : Env) (state : RenderState) (c : Container)
    (current_format : QTextCharFormat) : QTextCharFormat :=
  match c with
  | .emph => { current_format with italic := true }
  | .strong => { current_format with weight := QFont_Bold }
  | .link url =>
    linkFormat env state.text_style state.root_url (linkTarget env state.root_url url)
  | .image url =>
    linkFormat env state.text_style state.root_url (linkTarget env state.root_url url)

/-- The render state and the current format when the renderer, started on the outermost
container of the path, reaches the node at the end of the path: at every step the children
before the path have been rendered. -/
def reach (env : Env) : List Step → RenderState → QTextCharFormat →
    RenderState × QTextCharFormat
  | [], state, current_format => (state, current_format)
  | st :: rest, state, current_format =>
    reach env rest
      (renderChildren env state st.before
        (st.container.childFormat env state current_format) 0)
      (st.container.childFormat env state current_format)

/-- The steps pass only emphasis and strong nodes. -/
def ModifiersOnly (path : List Step) : Prop :=
  ∀ st ∈ path, st.container = Container.emph ∨ st.container = Container.strong

/-- The demo environment with a parser that also knows a content type whose charset the
converter cannot open, and a user who answers every question with no. -/
def demoEnvUnknownCharset : Env :=
  { demoEnv with
    question := fun _ => false
    MimeParser_parse := fun mime_text =>
      if mime_text == "text/plain; charset=x-unknown" then
        ⟨"text", "plain", [("charset", "x-unknown")]⟩
      else demoParse mime_text }

/-! ## Lemmas -/

theorem dispatches_append (a b : List Effect) :
    dispatches (a ++ b) = dispatches a ++ dispatches b := by
  simp [dispatches]

theorem navigations_append (a b : List Effect) :
    navigations (a ++ b) = navigations a ++ navigations b := by
  simp [navigations]

theorem after_eq_some {pre : List Effect} {o : Outcome} {s : BrowserTab} {tr : List Effect}
    (h : o.after pre = some (s, tr)) : ∃ tr0, o = some (s, tr0) ∧ tr = pre ++ tr0 := by
  cases o with
  | none => simp [Outcome.after] at h
  | some r =>
    obtain ⟨s0, t0⟩ := r
    simp only [Outcome.after, Option.some.injEq, Prod.mk.injEq] at h
    exact ⟨t0, by rw [h.1], h.2.symm⟩

theorem show_frame {env : Env} {s s' : BrowserTab} {data ref_data : QByteArray}
    {mime_text : String} {tr : List Effect}
    (h : on_requestComplete_show env s data ref_data mime_text = some (s', tr)) :
    SameSession s s' ∧ s'.successfully_loaded = true ∧ dispatches tr = [] ∧
      navigations tr = [] := by
  unfold on_requestComplete_show at h
  simp only at h
  split at h
  · simp only [Option.some.injEq, Prod.mk.injEq] at h
    obtain ⟨hs, ht⟩ := h
    subst hs; subst ht
    exact ⟨⟨rfl, rfl, rfl, rfl, rfl, rfl, rfl, rfl, rfl, rfl⟩, rfl, rfl, rfl⟩
  · exact absurd h (by simp)

theorem requestComplete_frame (env : Env) (fuel : Nat) :
    ∀ (s s' : BrowserTab) (ref_data : QByteArray) (mime_text : String) (tr : List Effect),
    on_requestComplete env fuel s ref_data mime_text = some (s', tr) →
    SameSession s s' ∧ s'.successfully_loaded = true ∧ dispatches tr = [] ∧
      navigations tr = [] := by
  induction fuel with
  | zero => intro s s' d m tr h; simp [on_requestComplete] at h
  | succ n ih =>
    intro s s' d m tr h
    unfold on_requestComplete at h
    simp only at h
    split at h
    · split at h
      · exact absurd h (by simp)
      · split at h
        · obtain ⟨t0, h0, rfl⟩ := after_eq_some h
          obtain ⟨a, b, c, e⟩ := show_frame h0
          exact ⟨a, b, by rw [dispatches_append, c]; rfl, by rw [navigations_append, e]; rfl⟩
        · split at h
          · obtain ⟨t0, h0, rfl⟩ := after_eq_some h
            obtain ⟨a, b, c, e⟩ := show_frame h0
            exact ⟨a, b, by rw [dispatches_append, c]; rfl, by rw [navigations_append, e]; rfl⟩
          · obtain ⟨t0, h0, rfl⟩ := after_eq_some h
            obtain ⟨a, b, c, e⟩ := ih _ _ _ _ _ h0
            exact ⟨a, b, by rw [dispatches_append, c]; rfl, by rw [navigations_append, e]; rfl⟩
    · obtain ⟨t0, h0, rfl⟩ := after_eq_some h
      obtain ⟨a, b, c, e⟩ := show_frame h0
      exact ⟨a, b, by rw [dispatches_append, c]; rfl, by rw [navigations_append, e]; rfl⟩

theorem toUtf8_append (a b : String) : toUtf8 (a ++ b) = toUtf8 a ++ toUtf8 b := by
  simp [toUtf8, String.data_append]

theorem selectRenderer_errorDocument (env : Env) (loc : QUrl) (data : QByteArray) :
    selectRenderer env loc data errorDocumentMime =
      ⟨DocumentType.Text, env.PlainTextRenderer_render data (env.derive_style loc),
        [], [], none⟩ := by
  have h1 : startsWith errorDocumentMime "text/gemini" = false := by decide
  have h2 : startsWith errorDocumentMime "text/gophermap" = false := by decide
  have h3 : startsWith errorDocumentMime "text/finger" = false := by decide
  have h4 : startsWith errorDocumentMime "text/html" = false := by decide
  have h5 : startsWith errorDocumentMime "text/markdown" = false := by decide
  have h6 : startsWith errorDocumentMime "text/" = true := by decide
  simp [selectRenderer, h1, h2, h3, h4, h5, h6]

theorem setErrorMessage_installs (env : Env) (fuel : Nat) (s : BrowserTab) (msg : String)
    (hmime : charsetOf env (env.MimeParser_parse errorDocumentMime) = "UTF-8")
    (hplain : (env.PlainTextRenderer_render (errorDocumentData msg)
      (env.derive_style s.current_location)).isSome = true) :
    ∃ s' tr, setErrorMessage env (fuel + 1) s msg = some (s', tr) ∧
      s'.current_buffer = errorDocumentData msg ∧
      s'.current_document = env.PlainTextRenderer_render (errorDocumentData msg)
        (env.derive_style s.current_location) ∧
      s'.visible = DocumentType.Text := by
  have hn : needsConversion env (errorDocumentData msg)
      (env.MimeParser_parse errorDocumentMime) = false := by
    simp [needsConversion, hmime]
  simp only [setErrorMessage, on_requestComplete, hn, on_requestComplete_show,
    selectRenderer_errorDocument, documentAssertion, hplain]
  simp [Outcome.after]

theorem certificate_frame (env : Env) (s : BrowserTab) (handler : Nat) (url : QUrl) :
    SameNavigation s (startRequest_certificate env s handler url).1 ∧
    (startRequest_certificate env s handler url).1.current_location = s.current_location ∧
    (startRequest_certificate env s handler url).1.is_internal_location
      = s.is_internal_location ∧
    (startRequest_certificate env s handler url).1.current_handler = s.current_handler ∧
    dispatches (startRequest_certificate env s handler url).2.1 = [] ∧
    navigations (startRequest_certificate env s handler url).2.1 = [] := by
  unfold startRequest_certificate
  split
  · split
    · dsimp only
      split
      · exact ⟨⟨rfl, rfl, rfl, rfl, rfl⟩, rfl, rfl, rfl, rfl, rfl⟩
      · exact ⟨⟨rfl, rfl, rfl, rfl, rfl⟩, rfl, rfl, rfl, rfl, rfl⟩
    · exact ⟨⟨rfl, rfl, rfl, rfl, rfl⟩, rfl, rfl, rfl, rfl, rfl⟩
  · exact ⟨⟨rfl, rfl, rfl, rfl, rfl⟩, rfl, rfl, rfl, rfl, rfl⟩

theorem newHost_frame (env : Env) (s : BrowserTab) (handler : Nat) (url : QUrl) :
    SameNavigation s (startRequest_newHost env s handler url).1 ∧
    (startRequest_newHost env s handler url).1.current_handler = s.current_handler ∧
    dispatches (startRequest_newHost env s handler url).2 = [] ∧
    navigations (startRequest_newHost env s handler url).2 = [] := by
  unfold startRequest_newHost
  split
  · split
    · exact ⟨⟨rfl, rfl, rfl, rfl, rfl⟩, rfl, rfl, rfl⟩
    · exact ⟨⟨rfl, rfl, rfl, rfl, rfl⟩, rfl, rfl, rfl⟩
  · exact ⟨⟨rfl, rfl, rfl, rfl, rfl⟩, rfl, rfl, rfl⟩

/-- The effect of `startRequest`. -/
theorem startRequest_frame {env : Env} {s s' : BrowserTab} {url : QUrl}
    {options : RequestOptions} {tr : List Effect} {ok : Bool}
    (h : startRequest env s url options = some (s', tr, ok)) :
    SameNavigation s s' ∧ navigations tr = [] ∧
    (dispatches tr = [] ∧ ok = false ∧ s'.current_location = s.current_location ∧
        s'.is_internal_location = s.is_internal_location ∨
      (∃ handler, dispatches tr = [(handler, url, options)] ∧
        ok = env.handler_startRequest handler url options) ∧
        s'.current_location = url ∧ s'.is_internal_location = (url.scheme == "about")) := by
  unfold startRequest at h
  split at h
  · exact absurd h (by simp)
  · rename_i handler _
    simp only at h
    obtain ⟨c1, c2, c3, _, c5, c6⟩ :=
      certificate_frame env { s with current_handler := some handler } handler url
    split at h
    · simp only [Option.some.injEq, Prod.mk.injEq] at h
      obtain ⟨rfl, rfl, rfl⟩ := h
      exact ⟨⟨c1.1, c1.2, c1.3, c1.4, c1.5⟩, c6, Or.inl ⟨c5, rfl, c2, c3⟩⟩
    · simp only [Option.some.injEq, Prod.mk.injEq] at h
      obtain ⟨rfl, rfl, rfl⟩ := h
      obtain ⟨n1, _, n3, n4⟩ := newHost_frame env
        (startRequest_certificate env { s with current_handler := some handler } handler url).1
        handler url
      refine ⟨⟨n1.1.trans c1.1, n1.2.trans c1.2, n1.3.trans c1.3, n1.4.trans c1.4,
        n1.5.trans c1.5⟩, ?_, Or.inr ⟨⟨handler, ?_, rfl⟩, rfl, rfl⟩⟩
      · rw [navigations_append, navigations_append, c6, n4]; rfl
      · rw [dispatches_append, dispatches_append, c5, n3]; rfl

theorem setErrorMessage_frame {env : Env} {fuel : Nat} {s s' : BrowserTab} {msg : String}
    {tr : List Effect} (h : setErrorMessage env fuel s msg = some (s', tr)) :
    SameSession s s' ∧ s'.successfully_loaded = true ∧ dispatches tr = [] ∧
      navigations tr = [] :=
  requestComplete_frame env fuel _ _ _ _ _ h

theorem navigateTo_start_frame {env : Env} {s s' : BrowserTab} {url : QUrl}
    {mode : PushToHistory} {tr : List Effect}
    (h : navigateTo_start env s url mode = some (s', tr)) :
    s'.redirection_count = 0 ∧ navigations tr = [] ∧
    (dispatches tr = [] ∨ ∃ handler, dispatches tr = [(handler, url, RequestOptions.Default)]) ∧
    s'.current_identitiy = s.current_identitiy := by
  unfold navigateTo_start at h
  simp only at h
  split at h
  · exact absurd h (by simp)
  · rename_i s2 tr2 hs
    simp only [Option.some.injEq, Prod.mk.injEq] at h
    obtain ⟨rfl, rfl⟩ := h
    obtain ⟨f, n, d⟩ := startRequest_frame hs
    refine ⟨f.redirection_count, ?_, ?_, f.current_identitiy⟩
    · rw [navigations_append, n]; rfl
    · rw [dispatches_append]
      rcases d with ⟨d, _⟩ | ⟨⟨handler, d, _⟩, _⟩
      · left; rw [d]; rfl
      · right; exact ⟨handler, by rw [d]; rfl⟩
  · rename_i s2 tr2 hs
    obtain ⟨f, n, d⟩ := startRequest_frame hs
    have hd : dispatches tr2 = [] ∨
        ∃ handler, dispatches tr2 = [(handler, url, RequestOptions.Default)] := by
      rcases d with ⟨d, _⟩ | ⟨⟨handler, d, _⟩, _⟩
      · exact Or.inl d
      · exact Or.inr ⟨handler, d⟩
    split at h
    · simp only [Option.some.injEq, Prod.mk.injEq] at h
      obtain ⟨rfl, rfl⟩ := h
      exact ⟨f.redirection_count, n, hd, f.current_identitiy⟩
    · simp only [Option.some.injEq, Prod.mk.injEq] at h
      obtain ⟨rfl, rfl⟩ := h
      exact ⟨f.redirection_count, n, hd, f.current_identitiy⟩

theorem navigateTo_frame {env : Env} {s s' : BrowserTab} {url : QUrl}
    {mode : PushToHistory} {tr : List Effect}
    (h : navigateTo env s url mode = some (s', tr)) :
    navigations tr = [(url, mode)] ∧
    (dispatches tr = [] ∨ ∃ handler, dispatches tr = [(handler, url, RequestOptions.Default)]) := by
  unfold navigateTo at h
  split at h
  · simp only [Option.some.injEq, Prod.mk.injEq] at h
    obtain ⟨_, rfl⟩ := h
    exact ⟨rfl, Or.inl rfl⟩
  · split at h
    · split at h
      · simp only [Option.some.injEq, Prod.mk.injEq] at h
        obtain ⟨_, rfl⟩ := h
        exact ⟨rfl, Or.inl rfl⟩
      · obtain ⟨t0, h0, rfl⟩ := after_eq_some h
        obtain ⟨_, n, d, _⟩ := navigateTo_start_frame h0
        refine ⟨by rw [navigations_append, n]; rfl, ?_⟩
        rw [dispatches_append]
        rcases d with d | ⟨handler, d⟩
        · left; rw [d]; rfl
        · right; exact ⟨handler, by rw [d]; rfl⟩
    · obtain ⟨t0, h0, rfl⟩ := after_eq_some h
      obtain ⟨_, n, d, _⟩ := navigateTo_start_frame h0
      refine ⟨by rw [navigations_append, n]; rfl, ?_⟩
      rw [dispatches_append]
      rcases d with d | ⟨handler, d⟩
      · left; rw [d]; rfl
      · right; exact ⟨handler, by rw [d]; rfl⟩

theorem on_redirected_count {env : Env} {fuel : Nat} {s s' : BrowserTab} {uri : QUrl}
    {p : Bool} {tr : List Effect} (h : on_redirected env fuel s uri p = some (s', tr)) :
    ((s.redirection_count < env.global_options.max_redirections ∧
        redirectAccepted env s uri = true ∧
        ∃ s1 tr1, startRequest env s uri RequestOptions.Default = some (s1, tr1, true)) →
      s'.redirection_count = s.redirection_count + 1) ∧
    (¬ (s.redirection_count < env.global_options.max_redirections ∧
        redirectAccepted env s uri = true ∧
        ∃ s1 tr1, startRequest env s uri RequestOptions.Default = some (s1, tr1, true)) →
      s'.redirection_count = s.redirection_count) := by
  unfold on_redirected at h
  split at h
  · rename_i hlim
    obtain ⟨a, _⟩ := setErrorMessage_frame h
    exact ⟨fun c => absurd hlim (not_le.mpr c.1), fun _ => a.redirection_count⟩
  · rename_i hlim
    simp only at h
    split at h
    · rename_i hdecl
      obtain ⟨t0, h0, rfl⟩ := after_eq_some h
      obtain ⟨a, _⟩ := setErrorMessage_frame h0
      refine ⟨fun c => ?_, fun _ => a.redirection_count⟩
      have hacc := c.2.1
      simp only [redirectAccepted] at hacc
      simp only [Bool.and_eq_true, Bool.not_eq_true'] at hdecl
      rw [hdecl.1, hdecl.2] at hacc
      exact absurd hacc (by simp)
    · rename_i hacc
      split at h
      · exact absurd h (by simp)
      · rename_i s1 tr1 hs
        simp only [Option.some.injEq, Prod.mk.injEq] at h
        obtain ⟨rfl, rfl⟩ := h
        obtain ⟨f, _⟩ := startRequest_frame hs
        refine ⟨fun _ => by simp [f.redirection_count], fun c => absurd ⟨not_le.mp hlim, ?_, s1, tr1, hs⟩ c⟩
        simp only [redirectAccepted]
        simp only [Bool.and_eq_true, Bool.not_eq_true', not_and, Bool.not_eq_false] at hacc
        cases hc : (s.current_location.scheme != uri.scheme || s.current_location.host != uri.host)
        · simp
        · simp [hacc hc]
      · rename_i s1 tr1 hs
        obtain ⟨t0, h0, rfl⟩ := after_eq_some h
        obtain ⟨a, _⟩ := setErrorMessage_frame h0
        obtain ⟨f, _⟩ := startRequest_frame hs
        refine ⟨fun c => ?_, fun _ => a.redirection_count.trans f.redirection_count⟩
        obtain ⟨_, _, s2, tr2, hs2⟩ := c
        rw [hs] at hs2
        simp at hs2

theorem anchorClicked_plain_link {env : Env} {s s' : BrowserTab} {url : QUrl}
    {tr : List Effect} (hsch : ¬ (url.scheme == "kristall+ctrl") = true)
    (h : on_text_browser_anchorClicked env s url = some (s', tr)) :
    ∀ d ∈ dispatches tr, d.2.2 = RequestOptions.Default := by
  intro d hmem
  rw [on_text_browser_anchorClicked, if_neg hsch] at h
  simp only at h
  generalize (if url.isRelative = true then env.url_resolved s.current_location url else url)
    = real_url at h
  by_cases h1 : (env.isSchemeSupported real_url.scheme == ProtocolSetup.Enabled) = true
  · rw [if_pos h1] at h
    rcases (navigateTo_frame h).2 with e | ⟨h2, e⟩
    · rw [e] at hmem; simp at hmem
    · rw [e] at hmem; simp at hmem; rw [hmem]
  · rw [if_neg h1] at h
    have hquiet : dispatches tr = [] := by
      by_cases h2 : env.global_options.use_os_scheme_handler = true
      · rw [if_pos h2] at h
        by_cases h3 : (!env.openUrl url) = true
        · rw [if_pos h3] at h
          simp only [Option.some.injEq, Prod.mk.injEq] at h
          obtain ⟨_, rfl⟩ := h
          rfl
        · rw [if_neg h3] at h
          simp only [Option.some.injEq, Prod.mk.injEq] at h
          obtain ⟨_, rfl⟩ := h
          rfl
      · rw [if_neg h2] at h
        by_cases h3 : (env.isSchemeSupported real_url.scheme == ProtocolSetup.Disabled) = true
        · rw [if_pos h3] at h
          simp only [Option.some.injEq, Prod.mk.injEq] at h
          obtain ⟨_, rfl⟩ := h
          rfl
        · rw [if_neg h3] at h
          simp only [Option.some.injEq, Prod.mk.injEq] at h
          obtain ⟨_, rfl⟩ := h
          rfl
    rw [hquiet] at hmem
    simp at hmem

theorem on_inputRequired_navigations (env : Env) (fuel : Nat) (s : BrowserTab)
    (query : String) :
    ∀ (answers : List (Option String)) (s' : BrowserTab) (tr : List Effect),
    on_inputRequired env fuel s query answers = some (s', tr) →
    navigations tr = [] ∨
      ∃ text, some text ∈ answers ∧
        encodedLength env (env.url_setQuery s.current_location text) < 1020 ∧
        navigations tr =
          [(env.url_setQuery s.current_location text, PushToHistory.DontPush)] := by
  intro answers
  induction answers with
  | nil => intro s' tr h; simp [on_inputRequired] at h
  | cons a later ih =>
    intro s' tr h
    cases a with
    | none =>
      simp only [on_inputRequired] at h
      obtain ⟨t0, h0, rfl⟩ := after_eq_some h
      left
      rw [navigations_append, (setErrorMessage_frame h0).2.2.2]; rfl
    | some text =>
      simp only [on_inputRequired] at h
      split at h
      · obtain ⟨t0, h0, rfl⟩ := after_eq_some h
        rcases ih _ _ h0 with e | ⟨t, ht, hl, e⟩
        · left; rw [navigations_append, e]; rfl
        · right
          exact ⟨t, List.mem_cons_of_mem _ ht, hl, by rw [navigations_append, e]; rfl⟩
      · rename_i hlen
        obtain ⟨t0, h0, rfl⟩ := after_eq_some h
        right
        exact ⟨text, List.mem_cons_self _ _, not_le.mp hlen,
          by rw [navigations_append, (navigateTo_frame h0).1]; rfl⟩

theorem startsWith_first {s p : String} {c : Char} {cs : List Char}
    (hp : p.data = c :: cs) (h : startsWith s p = true) : s.data.head? = some c := by
  unfold startsWith at h
  rw [hp] at h
  cases hd : s.data with
  | nil => rw [hd] at h; simp [List.isPrefixOf] at h
  | cons d ds =>
    rw [hd] at h
    simp only [List.isPrefixOf, Bool.and_eq_true, beq_iff_eq] at h
    simp [h.1]

theorem startsWith_other {s p : String} {c : Char} {cs : List Char}
    (hp : p.data = c :: cs) (h : s.data.head? ≠ some c) : startsWith s p = false := by
  cases hb : startsWith s p with
  | false => rfl
  | true => exact absurd (startsWith_first hp hb) h

theorem firstTitledH1_append (a b : List (Nat × String)) :
    firstTitledH1 (a ++ b) = if firstTitledH1 a = "" then firstTitledH1 b else firstTitledH1 a := by
  unfold firstTitledH1
  rw [List.find?_append]
  cases h : a.find? (fun e => e.1 == 1 && e.2 != "") with
  | none => simp
  | some e =>
    have := List.find?_some h
    simp only [Bool.and_eq_true, beq_iff_eq, bne_iff_ne, ne_eq] at this
    simp [this.2]

theorem Recorded.refl (state : RenderState) : Recorded state state [] := by
  refine ⟨by simp, ?_⟩
  by_cases h0 : state.page_title = "" <;> simp [h0, firstTitledH1]

theorem Recorded.trans {s0 s1 s2 : RenderState} {h1 h2 : List (Nat × String)}
    (a : Recorded s0 s1 h1) (b : Recorded s1 s2 h2) : Recorded s0 s2 (h1 ++ h2) := by
  obtain ⟨a1, a2⟩ := a
  obtain ⟨b1, b2⟩ := b
  refine ⟨by rw [b1, a1, List.map_append, List.append_assoc], ?_⟩
  rw [b2, a2, firstTitledH1_append]
  by_cases h0 : s0.page_title = ""
  · simp only [h0, if_true]
  · simp only [h0, if_false]

theorem Recorded.of_eq {s0 s1 : RenderState} (ho : s1.outline = s0.outline)
    (ht : s1.page_title = s0.page_title) : Recorded s0 s1 [] := by
  refine ⟨by simp [ho], ?_⟩
  rw [ht]
  by_cases h0 : s0.page_title = "" <;> simp [h0, firstTitledH1]

theorem emitNewBlock_recorded (s : RenderState) : Recorded s s.emitNewBlock [] := by
  apply Recorded.of_eq <;> (unfold RenderState.emitNewBlock; split <;> rfl)

theorem resetFormatting_recorded (s : RenderState) (f : QTextBlockFormat) :
    Recorded s (resetFormatting s f) [] := by
  have h := emitNewBlock_recorded s
  apply Recorded.of_eq
  · simpa [resetFormatting] using h.1
  · have := h.2
    simp only [resetFormatting]
    rw [this]
    by_cases h0 : s.page_title = "" <;> simp [h0, firstTitledH1]

theorem headingOutline_recorded (s : RenderState) (level : Nat) (text : String) :
    Recorded s (headingOutline s level text)
      (if level = 1 ∨ level = 2 ∨ level = 3 then [(level, text)] else []) := by
  unfold headingOutline
  split
  · simp only [true_or, if_true]
    refine ⟨?_, ?_⟩
    · split <;> split <;> simp [entryCall]
    · by_cases h0 : s.page_title = ""
      · by_cases ht : text = ""
        · split <;> split <;> simp_all [firstTitledH1, String.isEmpty_iff]
        · split <;> split <;> simp_all [firstTitledH1, String.isEmpty_iff]
      · split <;> split <;> simp_all [firstTitledH1, String.isEmpty_iff]
  · simp [Recorded, entryCall, firstTitledH1]
    by_cases h0 : s.page_title = "" <;> simp [h0]
  · simp [Recorded, entryCall, firstTitledH1]
    by_cases h0 : s.page_title = "" <;> simp [h0]
  · rename_i h1 h2 h3
    have : ¬ (level = 1 ∨ level = 2 ∨ level = 3) := by
      rintro (h | h | h)
      · exact h1 h
      · exact h2 h
      · exact h3 h
    simp only [this, if_false]
    exact Recorded.refl s

theorem Recorded.cursor {s0 s1 : RenderState} {hs : List (Nat × String)}
    (h : Recorded s0 s1 hs) (ops : List CursorOp) (b : Bool) :
    Recorded s0 { s1 with cursor := ops, suppress_next_block := b } hs := h

mutual
theorem renderNode_recorded (env : Env) (state : RenderState) (node : Node)
    (fmt : QTextCharFormat) (listIndent : Int) :
    Recorded state (renderNode env state node fmt listIndent) (headingsOf node) := by
  cases node with
  | document children =>
    simp only [renderNode, headingsOf]
    exact renderChildren_recorded env state children fmt 0
  | block_quote children =>
    simp only [renderNode, headingsOf]
    have h1 := emitNewBlock_recorded state
    have h2 := renderChildren_recorded env
      { state.emitNewBlock with
        suppress_next_block := true
        cursor := state.emitNewBlock.cursor ++
          [CursorOp.insertTable 1 1 state.emitNewBlock.text_style.blockquote_tableformat,
           CursorOp.setBlockFormat state.emitNewBlock.text_style.blockquote_format,
           CursorOp.setCellFormat state.emitNewBlock.text_style.blockquote] } children fmt 0
    have h3 := (h1.cursor _ true).trans h2
    simpa using h3
  | list ordered children =>
    simp only [renderNode, headingsOf]
    have h2 := renderChildren_recorded env
      { state with
        cursor := state.cursor ++
          [CursorOp.insertList
            (if ordered then
              { ({ state.text_style.list_format with
                    indent := state.text_style.list_format.indent + listIndent } :
                  QTextListFormat) with style := ListStyle.ListDecimal }
            else
              { state.text_style.list_format with
                indent := state.text_style.list_format.indent + listIndent })]
        suppress_next_block := true } children fmt (listIndent + 1)
    have h3 := ((Recorded.refl state).cursor _ true).trans h2
    have h4 := h3.trans (resetFormatting_recorded _ (env.cursor_blockFormat state.cursor))
    simpa using h4
  | item children =>
    simp only [renderNode, headingsOf]
    exact renderChildren_recorded env state children fmt listIndent
  | code_block literal =>
    simp only [renderNode, headingsOf]
    have h1 := emitNewBlock_recorded state
    have h3 := (h1.cursor (state.emitNewBlock.cursor ++
        [CursorOp.setBlockFormat state.emitNewBlock.text_style.preformatted_format,
         CursorOp.insertText (extractNodeText env literal)
           state.emitNewBlock.text_style.preformatted])
      state.emitNewBlock.suppress_next_block).trans
      (resetFormatting_recorded _ QTextBlockFormat.default)
    simpa using h3
  | html_block literal => simp only [renderNode, headingsOf]; exact Recorded.refl state
  | custom_block => simp only [renderNode, headingsOf]; exact Recorded.refl state
  | paragraph children =>
    simp only [renderNode, headingsOf]
    have h3 := (emitNewBlock_recorded state).trans
      (renderChildren_recorded env state.emitNewBlock children fmt 0)
    simpa using h3
  | heading level children =>
    simp only [renderNode, headingsOf]
    have h1 := (emitNewBlock_recorded state).cursor (state.emitNewBlock.cursor ++
        [CursorOp.setBlockFormat state.emitNewBlock.text_style.heading_format])
      state.emitNewBlock.suppress_next_block
    have h2 := headingOutline_recorded
      { state.emitNewBlock with
        cursor := state.emitNewBlock.cursor ++
          [CursorOp.setBlockFormat state.emitNewBlock.text_style.heading_format] }
      level (firstChildLiteral children)
    have h3 := renderChildren_recorded env
      (headingOutline
        { state.emitNewBlock with
          cursor := state.emitNewBlock.cursor ++
            [CursorOp.setBlockFormat state.emitNewBlock.text_style.heading_format] }
        level (firstChildLiteral children)) children
      (headingFormat state.emitNewBlock.text_style fmt level) 0
    have h4 := ((h1.trans h2).trans h3).trans
      (resetFormatting_recorded _ QTextBlockFormat.default)
    simpa using h4
  | thematic_break => simp only [renderNode, headingsOf]; exact Recorded.refl state
  | text literal => simp only [renderNode, headingsOf]; exact Recorded.refl state
  | softbreak => simp only [renderNode, headingsOf]; exact Recorded.refl state
  | linebreak => simp only [renderNode, headingsOf]; exact emitNewBlock_recorded state
  | code literal => simp only [renderNode, headingsOf]; exact Recorded.refl state
  | html_inline literal => simp only [renderNode, headingsOf]; exact Recorded.refl state
  | custom_inline => simp only [renderNode, headingsOf]; exact Recorded.refl state
  | emph children =>
    simp only [renderNode, headingsOf]
    exact renderChildren_recorded env state children _ 0
  | strong children =>
    simp only [renderNode, headingsOf]
    exact renderChildren_recorded env state children _ 0
  | link url children =>
    simp only [renderNode, headingsOf]
    exact renderChildren_recorded env state children _ 0
  | image url children =>
    simp only [renderNode, headingsOf]
    exact renderChildren_recorded env state children _ 0

theorem renderChildren_recorded (env : Env) (state : RenderState) (children : List Node)
    (fmt : QTextCharFormat) (listIndent : Int) :
    Recorded state (renderChildren env state children fmt listIndent)
      (headingsOfList children) := by
  cases children with
  | nil => simp only [renderChildren, headingsOfList]; exact Recorded.refl state
  | cons child rest =>
    simp only [renderChildren, headingsOfList]
    exact (renderNode_recorded env state child fmt listIndent).trans
      (renderChildren_recorded env _ rest fmt listIndent)
end

theorem DefaultOnly.of_quiet {tr : List Effect} (h : dispatches tr = []) : DefaultOnly tr := by
  intro d hd
  rw [h] at hd
  simp at hd

theorem DefaultOnly.append {a b : List Effect} (ha : DefaultOnly a) (hb : DefaultOnly b) :
    DefaultOnly (a ++ b) := by
  intro d hd
  rw [dispatches_append, List.mem_append] at hd
  rcases hd with h | h
  · exact ha d h
  · exact hb d h

theorem navigateTo_defaultOnly {env : Env} {s s' : BrowserTab} {url : QUrl}
    {mode : PushToHistory} {tr : List Effect}
    (h : navigateTo env s url mode = some (s', tr)) : DefaultOnly tr := by
  intro d hmem
  rcases (navigateTo_frame h).2 with e | ⟨h2, e⟩
  · rw [e] at hmem; simp at hmem
  · rw [e] at hmem; simp at hmem; rw [hmem]

theorem on_inputRequired_defaultOnly (env : Env) (fuel : Nat) (s : BrowserTab)
    (query : String) :
    ∀ (answers : List (Option String)) (s' : BrowserTab) (tr : List Effect),
    on_inputRequired env fuel s query answers = some (s', tr) → DefaultOnly tr := by
  intro answers
  induction answers with
  | nil => intro s' tr h; simp [on_inputRequired] at h
  | cons a later ih =>
    intro s' tr h
    cases a with
    | none =>
      simp only [on_inputRequired] at h
      obtain ⟨t0, h0, rfl⟩ := after_eq_some h
      exact DefaultOnly.append (DefaultOnly.of_quiet rfl)
        (DefaultOnly.of_quiet (setErrorMessage_frame h0).2.2.1)
    | some text =>
      simp only [on_inputRequired] at h
      split at h
      · obtain ⟨t0, h0, rfl⟩ := after_eq_some h
        exact DefaultOnly.append (DefaultOnly.of_quiet rfl) (ih _ _ h0)
      · obtain ⟨t0, h0, rfl⟩ := after_eq_some h
        exact DefaultOnly.append (DefaultOnly.of_quiet rfl) (navigateTo_defaultOnly h0)

theorem trySetClientCertificate_quiet (env : Env) (s : BrowserTab) (query : String) :
    dispatches (trySetClientCertificate env s query).2.1 = [] := by
  unfold trySetClientCertificate
  split
  · rfl
  · dsimp only
    split <;> rfl

theorem on_certificateRequired_defaultOnly {env : Env} {fuel : Nat} {s s' : BrowserTab}
    {reason : String} {tr : List Effect}
    (h : on_certificateRequired env fuel s reason = some (s', tr)) : DefaultOnly tr := by
  unfold on_certificateRequired at h
  simp only at h
  split at h
  · obtain ⟨t0, h0, rfl⟩ := after_eq_some h
    exact DefaultOnly.append (DefaultOnly.of_quiet (trySetClientCertificate_quiet env s reason))
      (DefaultOnly.of_quiet (setErrorMessage_frame h0).2.2.1)
  · obtain ⟨t0, h0, rfl⟩ := after_eq_some h
    exact DefaultOnly.append (DefaultOnly.of_quiet (trySetClientCertificate_quiet env s reason))
      (navigateTo_defaultOnly h0)

theorem navigateBack_defaultOnly {env : Env} {s s' : BrowserTab} {index : Option Nat}
    {tr : List Effect} (h : navigateBack env s index = some (s', tr)) : DefaultOnly tr := by
  unfold navigateBack at h
  simp only at h
  split at h
  · exact navigateTo_defaultOnly h
  · simp only [Option.some.injEq, Prod.mk.injEq] at h
    obtain ⟨_, rfl⟩ := h
    exact DefaultOnly.of_quiet rfl

theorem reloadPage_defaultOnly {env : Env} {s s' : BrowserTab}
    {tr : List Effect} (h : reloadPage env s = some (s', tr)) : DefaultOnly tr := by
  unfold reloadPage at h
  split at h
  · exact navigateTo_defaultOnly h
  · simp only [Option.some.injEq, Prod.mk.injEq] at h
    obtain ⟨_, rfl⟩ := h
    exact DefaultOnly.of_quiet rfl

theorem on_networkError_quiet {env : Env} {fuel : Nat} {s s' : BrowserTab}
    {error_code : NetworkError} {reason : String} {tr : List Effect}
    (h : on_networkError env fuel s error_code reason = some (s', tr)) :
    dispatches tr = [] := by
  unfold on_networkError at h
  simp only at h
  split at h
  · exact absurd h (by simp)
  · exact (requestComplete_frame env fuel _ _ _ _ _ h).2.2.1

theorem on_redirected_defaultOnly {env : Env} {fuel : Nat} {s s' : BrowserTab} {uri : QUrl}
    {p : Bool} {tr : List Effect} (h : on_redirected env fuel s uri p = some (s', tr)) :
    DefaultOnly tr := by
  have hstart : ∀ {s1 : BrowserTab} {tr1 : List Effect} {ok : Bool},
      startRequest env s uri RequestOptions.Default = some (s1, tr1, ok) →
      DefaultOnly tr1 := by
    intro s1 tr1 ok hs d hd
    rcases (startRequest_frame hs).2.2 with ⟨e, _⟩ | ⟨⟨h2, e, _⟩, _⟩
    · rw [e] at hd; simp at hd
    · rw [e] at hd; simp at hd; rw [hd]
  unfold on_redirected at h
  split at h
  · exact DefaultOnly.of_quiet (setErrorMessage_frame h).2.2.1
  · simp only at h
    split at h
    · obtain ⟨t0, h0, rfl⟩ := after_eq_some h
      exact DefaultOnly.append (DefaultOnly.of_quiet rfl)
        (DefaultOnly.of_quiet (setErrorMessage_frame h0).2.2.1)
    · have hasked : DefaultOnly
          (if (s.current_location.scheme != uri.scheme ||
              s.current_location.host != uri.host) = true then
            [Effect.question (redirectQuestion env env.global_options.redirection_policy
              (s.current_location.scheme != uri.scheme)
              (s.current_location.host != uri.host) uri) true]
          else []) := by
        apply DefaultOnly.of_quiet
        split <;> rfl
      split at h
      · exact absurd h (by simp)
      · rename_i s1 tr1 hs
        simp only [Option.some.injEq, Prod.mk.injEq] at h
        obtain ⟨_, rfl⟩ := h
        exact DefaultOnly.append hasked (hstart hs)
      · rename_i s1 tr1 hs
        obtain ⟨t0, h0, rfl⟩ := after_eq_some h
        exact DefaultOnly.append (DefaultOnly.append hasked (hstart hs))
          (DefaultOnly.of_quiet (setErrorMessage_frame h0).2.2.1)

theorem exists_of_isSome {α : Type} {o : Option α} (h : o.isSome = true) : ∃ a, o = some a := by
  cases o with
  | none => simp at h
  | some a => exact ⟨a, rfl⟩

theorem navigateTo_start_history {env : Env} {s s' : BrowserTab} {url : QUrl}
    {mode : PushToHistory} {tr : List Effect}
    (h : navigateTo_start env s url mode = some (s', tr)) :
    (((∃ s2 tr2, startRequest env { s with redirection_count := 0, successfully_loaded := false }
          url RequestOptions.Default = some (s2, tr2, true)) ∧
        mode = PushToHistory.PushImmediate) →
      s'.history = (history_pushUrl s.history s.current_history_index url).1 ∧
      s'.current_history_index = (history_pushUrl s.history s.current_history_index url).2) ∧
    (¬ ((∃ s2 tr2, startRequest env
          { s with redirection_count := 0, successfully_loaded := false }
          url RequestOptions.Default = some (s2, tr2, true)) ∧
        mode = PushToHistory.PushImmediate) →
      s'.history = s.history ∧ s'.current_history_index = s.current_history_index) := by
  unfold navigateTo_start at h
  simp only at h
  split at h
  · exact absurd h (by simp)
  · rename_i s2 tr2 hs
    simp only [Option.some.injEq, Prod.mk.injEq] at h
    obtain ⟨rfl, rfl⟩ := h
    obtain ⟨f, _⟩ := startRequest_frame hs
    refine ⟨fun c => ?_, fun _ => ⟨f.history, f.current_history_index⟩⟩
    obtain ⟨⟨s3, tr3, h3⟩, _⟩ := c
    rw [hs] at h3
    simp at h3
  · rename_i s2 tr2 hs
    obtain ⟨f, _⟩ := startRequest_frame hs
    split at h
    · rename_i hm
      simp only [Option.some.injEq, Prod.mk.injEq] at h
      obtain ⟨rfl, rfl⟩ := h
      refine ⟨fun _ => ?_, fun c => absurd ⟨⟨s2, tr2, hs⟩, by simpa using hm⟩ c⟩
      simp only [pushToHistory]
      rw [f.history, f.current_history_index]
      exact ⟨rfl, rfl⟩
    · rename_i hm
      simp only [Option.some.injEq, Prod.mk.injEq] at h
      obtain ⟨rfl, rfl⟩ := h
      refine ⟨fun c => ?_, fun _ => ⟨f.history, f.current_history_index⟩⟩
      exact absurd (by simp [c.2]) hm

theorem navigateTo_history {env : Env} {s s' : BrowserTab} {url : QUrl}
    {mode : PushToHistory} {tr : List Effect}
    (h : navigateTo env s url mode = some (s', tr)) :
    (pushesHistory env s url mode →
      s'.history = (history_pushUrl s.history s.current_history_index url).1 ∧
      s'.current_history_index = (history_pushUrl s.history s.current_history_index url).2) ∧
    (¬ pushesHistory env s url mode →
      s'.history = s.history ∧ s'.current_history_index = s.current_history_index) := by
  unfold navigateTo at h
  split at h
  · rename_i hsch
    simp only [Option.some.injEq, Prod.mk.injEq] at h
    obtain ⟨rfl, _⟩ := h
    refine ⟨fun c => ?_, fun _ => ⟨rfl, rfl⟩⟩
    rw [c.1] at hsch
    simp at hsch
  · rename_i hsch
    have hsch' : env.isSchemeSupported url.scheme = ProtocolSetup.Enabled := by
      simpa using hsch
    split at h
    · rename_i handler hh
      split at h
      · rename_i hc
        simp only [Option.some.injEq, Prod.mk.injEq] at h
        obtain ⟨rfl, _⟩ := h
        refine ⟨fun c => ?_, fun _ => ⟨rfl, rfl⟩⟩
        have := c.2.1 handler hh
        rw [this] at hc
        simp at hc
      · rename_i hc
        obtain ⟨t0, h0, _⟩ := after_eq_some h
        obtain ⟨a, b⟩ := navigateTo_start_history h0
        refine ⟨fun c => a ⟨c.2.2.1, c.2.2.2⟩, fun c => b fun d => c ⟨hsch', ?_, d.1, d.2⟩⟩
        intro h1 hh1
        rw [hh] at hh1
        cases hh1
        simpa using hc
    · rename_i hh
      obtain ⟨t0, h0, _⟩ := after_eq_some h
      obtain ⟨a, b⟩ := navigateTo_start_history h0
      refine ⟨fun c => a ⟨c.2.2.1, c.2.2.2⟩, fun c => b fun d => c ⟨hsch', ?_, d.1, d.2⟩⟩
      intro h1 hh1
      rw [hh] at hh1
      cases hh1

theorem navigateTo_dontPush_history {env : Env} {s s' : BrowserTab} {url : QUrl}
    {tr : List Effect}
    (h : navigateTo env s url PushToHistory.DontPush = some (s', tr)) :
    s'.history = s.history :=
  ((navigateTo_history h).2 (fun c => by
    have := c.2.2.2
    exact absurd this (by decide))).1

theorem on_inputRequired_history (env : Env) (fuel : Nat) (s : BrowserTab) (query : String) :
    ∀ (answers : List (Option String)) (s' : BrowserTab) (tr : List Effect),
    on_inputRequired env fuel s query answers = some (s', tr) → s'.history = s.history := by
  intro answers
  induction answers with
  | nil => intro s' tr h; simp [on_inputRequired] at h
  | cons a later ih =>
    intro s' tr h
    cases a with
    | none =>
      simp only [on_inputRequired] at h
      obtain ⟨t0, h0, _⟩ := after_eq_some h
      exact (setErrorMessage_frame h0).1.history
    | some text =>
      simp only [on_inputRequired] at h
      split at h
      · obtain ⟨t0, h0, _⟩ := after_eq_some h
        exact ih _ _ h0
      · obtain ⟨t0, h0, _⟩ := after_eq_some h
        exact navigateTo_dontPush_history h0

theorem trySetClientCertificate_history (env : Env) (s : BrowserTab) (query : String) :
    (trySetClientCertificate env s query).1.history = s.history := by
  unfold trySetClientCertificate
  split
  · rfl
  · dsimp only
    split <;> rfl

theorem on_redirected_history {env : Env} {fuel : Nat} {s s' : BrowserTab} {uri : QUrl}
    {p : Bool} {tr : List Effect} (h : on_redirected env fuel s uri p = some (s', tr)) :
    s'.history = s.history := by
  unfold on_redirected at h
  split at h
  · exact (setErrorMessage_frame h).1.history
  · simp only at h
    split at h
    · obtain ⟨t0, h0, _⟩ := after_eq_some h
      exact (setErrorMessage_frame h0).1.history
    · split at h
      · exact absurd h (by simp)
      · rename_i s1 tr1 hs
        simp only [Option.some.injEq, Prod.mk.injEq] at h
        obtain ⟨rfl, _⟩ := h
        exact (startRequest_frame hs).1.history
      · rename_i s1 tr1 hs
        obtain ⟨t0, h0, _⟩ := after_eq_some h
        exact ((setErrorMessage_frame h0).1.history).trans (startRequest_frame hs).1.history

theorem AllRuns.runs_nil (p : QTextCharFormat → Prop) : AllRuns p [] := by
  intro text fmt h
  simp at h

theorem AllRuns.runs_append {p : QTextCharFormat → Prop} {a b : List CursorOp}
    (ha : AllRuns p a) (hb : AllRuns p b) : AllRuns p (a ++ b) := by
  intro text fmt h
  rcases List.mem_append.mp h with h | h
  · exact ha text fmt h
  · exact hb text fmt h

theorem AllRuns.runs_single {p : QTextCharFormat → Prop} (text : String) (fmt : QTextCharFormat)
    (h : p fmt) : AllRuns p [CursorOp.insertText text fmt] := by
  intro t f hop
  simp only [List.mem_singleton, CursorOp.insertText.injEq] at hop
  rw [hop.2]
  exact h

theorem AllRuns.runs_mono {p q : QTextCharFormat → Prop} {ops : List CursorOp}
    (h : AllRuns p ops) (hpq : ∀ f, p f → q f) : AllRuns q ops := by
  intro text fmt hop
  exact hpq fmt (h text fmt hop)

mutual
theorem renderNode_modifiers (env : Env) (state : RenderState) (node : Node)
    (fmt : QTextCharFormat) (listIndent : Int) (h : plainInline node = true) :
    ∃ ops, (renderNode env state node fmt listIndent).cursor = state.cursor ++ ops ∧
      AllRuns (KeepsModifiers fmt) ops := by
  cases node with
  | text literal =>
    exact ⟨[CursorOp.insertText (extractNodeText env literal) fmt], by simp only [renderNode],
      AllRuns.runs_single _ _ ⟨fun h => h, fun h => h⟩⟩
  | softbreak =>
    exact ⟨[CursorOp.insertText " " fmt], by simp only [renderNode],
      AllRuns.runs_single _ _ ⟨fun h => h, fun h => h⟩⟩
  | emph children =>
    simp only [plainInline] at h
    obtain ⟨ops, h1, h2⟩ := renderChildren_modifiers env state children
      { fmt with italic := true } 0 h
    refine ⟨ops, by simp only [renderNode]; exact h1, h2.runs_mono ?_⟩
    intro f hf
    exact ⟨fun _ => hf.1 rfl, fun hw => hf.2 hw⟩
  | strong children =>
    simp only [plainInline] at h
    obtain ⟨ops, h1, h2⟩ := renderChildren_modifiers env state children
      { fmt with weight := QFont_Bold } 0 h
    refine ⟨ops, by simp only [renderNode]; exact h1, h2.runs_mono ?_⟩
    intro f hf
    exact ⟨fun hi => hf.1 hi, fun _ => hf.2 rfl⟩
  | document children => simp [plainInline] at h
  | block_quote children => simp [plainInline] at h
  | list ordered children => simp [plainInline] at h
  | item children => simp [plainInline] at h
  | code_block literal => simp [plainInline] at h
  | html_block literal => simp [plainInline] at h
  | custom_block => simp [plainInline] at h
  | paragraph children => simp [plainInline] at h
  | heading level children => simp [plainInline] at h
  | thematic_break => simp [plainInline] at h
  | linebreak =>
    by_cases hb : state.suppress_next_block = true
    · exact ⟨[], by simp [renderNode, RenderState.emitNewBlock, hb], AllRuns.runs_nil _⟩
    · refine ⟨[CursorOp.insertBlock], by simp [renderNode, RenderState.emitNewBlock, hb], ?_⟩
      intro text f hop
      simp at hop
  | code literal => simp [plainInline] at h
  | html_inline literal => exact ⟨[], by simp [renderNode], AllRuns.runs_nil _⟩
  | custom_inline => exact ⟨[], by simp [renderNode], AllRuns.runs_nil _⟩
  | link url children => simp [plainInline] at h
  | image url children => simp [plainInline] at h

theorem renderChildren_modifiers (env : Env) (state : RenderState) (children : List Node)
    (fmt : QTextCharFormat) (listIndent : Int) (h : plainInlineList children = true) :
    ∃ ops, (renderChildren env state children fmt listIndent).cursor = state.cursor ++ ops ∧
      AllRuns (KeepsModifiers fmt) ops := by
  cases children with
  | nil => exact ⟨[], by simp [renderChildren], AllRuns.runs_nil _⟩
  | cons child rest =>
    simp only [plainInlineList, Bool.and_eq_true] at h
    obtain ⟨ops1, h1, a1⟩ := renderNode_modifiers env state child fmt listIndent h.1
    obtain ⟨ops2, h2, a2⟩ := renderChildren_modifiers env
      (renderNode env state child fmt listIndent) rest fmt listIndent h.2
    refine ⟨ops1 ++ ops2, ?_, a1.runs_append a2⟩
    simp only [renderChildren]
    rw [h2, h1, List.append_assoc]
end

theorem errorPageFile_injective (a b : NetworkError)
    (h : ":/error_page/" ++ errorPageFile a = ":/error_page/" ++ errorPageFile b) : a = b := by
  cases a <;> cases b <;> first | rfl | exact absurd h (by decide)

theorem selectRenderer_gemini (env : Env) (loc : QUrl) (data : QByteArray)
    (h : env.global_options.text_display ≠ TextDisplay.PlainText) :
    selectRenderer env loc data "text/gemini" =
      ⟨DocumentType.Text, (env.GeminiRenderer_render data loc (env.derive_style loc)).1,
        (env.GeminiRenderer_render data loc (env.derive_style loc)).2, [], none⟩ := by
  have h1 : startsWith "text/gemini" "text/gemini" = true := by decide
  simp [selectRenderer, h1, h]

theorem selectRenderer_gemini_docType (env : Env) (loc : QUrl) (data : QByteArray) :
    (selectRenderer env loc data "text/gemini").doc_type = DocumentType.Text := by
  have h1 : startsWith "text/gemini" "text/gemini" = true := by decide
  have h2 : startsWith "text/gemini" "text/gophermap" = false := by decide
  have h3 : startsWith "text/gemini" "text/finger" = false := by decide
  have h4 : startsWith "text/gemini" "text/html" = false := by decide
  have h5 : startsWith "text/gemini" "text/markdown" = false := by decide
  have h6 : startsWith "text/gemini" "text/" = true := by decide
  by_cases hp : env.global_options.text_display = TextDisplay.PlainText
  · simp [selectRenderer, h1, h2, h3, h4, h5, h6, hp]
  · simp [selectRenderer, h1, hp]

theorem on_requestComplete_installs (env : Env) (fuel : Nat) (s : BrowserTab)
    (data : QByteArray) (mime_text : String)
    (hn : needsConversion env data (env.MimeParser_parse mime_text) = false)
    (ha : documentAssertion (selectRenderer env s.current_location data mime_text) = true) :
    ∃ s' tr, on_requestComplete env (fuel + 1) s data mime_text = some (s', tr) ∧
      s'.current_mime = mime_text ∧ s'.current_buffer = data ∧
      s'.current_document = (selectRenderer env s.current_location data mime_text).document ∧
      s'.visible = (selectRenderer env s.current_location data mime_text).doc_type ∧
      s'.current_location = s.current_location ∧
      s'.is_internal_location = s.is_internal_location := by
  simp only [on_requestComplete, hn, on_requestComplete_show, ha]
  simp [Outcome.after]

theorem convertToUtf8_run_result (env : Env) (fuel : Nat) :
    ∀ (cd : Nat) (input result : QByteArray),
    convertToUtf8_loop env fuel cd input result =
      (convertToUtf8_run env fuel cd input result).map Prod.fst := by
  induction fuel with
  | zero =>
    intro cd input result
    simp only [convertToUtf8_loop, convertToUtf8_run]
    split <;> rfl
  | succ n ih =>
    intro cd input result
    simp only [convertToUtf8_loop, convertToUtf8_run]
    by_cases hin : input.length > 0
    · simp only [hin, if_true]
      cases herr : (env.iconv cd input 4096).error with
      | none => exact ih _ _ _
      | some e =>
        cases e with
        | E2BIG => exact ih _ _ _
        | EILSEQ =>
          simp only
          split
          · exact ih _ _ _
          · exact ih _ _ _
        | EINVAL =>
          simp only
          split
          · exact ih _ _ _
          · exact ih _ _ _
        | other => rfl
    · simp only [hin, if_false]
      rfl

theorem convertToUtf8_run_terminates (env : Env)
    (hok : ∀ cd input, input ≠ [] → (env.iconv cd input 4096).error = none →
      1 ≤ (env.iconv cd input 4096).consumed)
    (hbig : ∀ cd input, input ≠ [] → (env.iconv cd input 4096).error = some Errno.E2BIG →
      1 ≤ (env.iconv cd input 4096).consumed) (n : Nat) :
    ∀ (cd : Nat) (input result : QByteArray), input.length ≤ n →
    ∃ r rest, convertToUtf8_run env n cd input result = some (r, rest) ∧
      ((∀ cd' input', (env.iconv cd' input' 4096).error ≠ some Errno.other) → rest = []) := by
  induction n with
  | zero =>
    intro cd input result hlen
    have : input = [] := List.length_eq_zero.mp (Nat.le_zero.mp hlen)
    subst this
    exact ⟨result, [], by simp [convertToUtf8_run], fun _ => rfl⟩
  | succ n ih =>
    intro cd input result hlen
    by_cases hin : input.length > 0
    · have hne : input ≠ [] := by
        intro h
        rw [h] at hin
        simp at hin
      simp only [convertToUtf8_run, hin, if_true]
      have hdrop : ∀ k, 1 ≤ k → (input.drop k).length ≤ n := by
        intro k hk
        rw [List.length_drop]
        omega
      have hskip : ((input.drop (env.iconv cd input 4096).consumed).drop 1).length ≤ n := by
        rw [List.length_drop, List.length_drop]
        omega
      have hempty : ¬ (input.drop (env.iconv cd input 4096).consumed).length > 0 →
          (input.drop (env.iconv cd input 4096).consumed).length ≤ n := by
        intro h
        omega
      cases herr : (env.iconv cd input 4096).error with
      | none =>
        simp only
        exact ih _ _ _ (hdrop _ (hok cd input hne herr))
      | some e =>
        cases e with
        | E2BIG =>
          simp only
          exact ih _ _ _ (hdrop _ (hbig cd input hne herr))
        | EILSEQ =>
          simp only
          split
          · exact ih _ _ _ hskip
          · rename_i h
            exact ih _ _ _ (hempty h)
        | EINVAL =>
          simp only
          split
          · exact ih _ _ _ hskip
          · rename_i h
            exact ih _ _ _ (hempty h)
        | other =>
          simp only
          exact ⟨_, _, rfl, fun h => absurd herr (h cd input)⟩
    · have : input = [] := by
        cases input with
        | nil => rfl
        | cons b bs => simp at hin
      subst this
      exact ⟨result, [], by simp [convertToUtf8_run], fun _ => rfl⟩

theorem iconv_ascii_progress (cd : Nat) (input : QByteArray) (hne : input ≠ [])
    (h : (iconv_ascii cd input 4096).error = none ∨
      (iconv_ascii cd input 4096).error = some Errno.E2BIG) :
    1 ≤ (iconv_ascii cd input 4096).consumed := by
  cases input with
  | nil => exact absurd rfl hne
  | cons b bs =>
    have h4096 : (4096 : Nat) = 4095 + 1 := rfl
    by_cases hb : b < 128
    · simp [iconv_ascii, h4096, asciiRun, hb]
    · exfalso
      simp [iconv_ascii, h4096, asciiRun, hb] at h

theorem startRequest_dispatches (env : Env) (s : BrowserTab) (url : QUrl)
    (options : RequestOptions) (handler : Nat)
    (hfind : findHandler s.protocol_handlers url.scheme = some handler)
    (hgo : ¬ abortedAtCertificatePrompt env s handler url) :
    ∃ s' tr, startRequest env s url options =
        some (s', tr, env.handler_startRequest handler url options) ∧
      s'.current_location = url ∧
      s'.is_internal_location = (url.scheme == "about") ∧
      dispatches tr = [(handler, url, options)] := by
  have hc : (startRequest_certificate env { s with current_handler := some handler }
      handler url).2.2 = true := by
    unfold startRequest_certificate
    by_cases h1 : s.current_identitiy.isValid = true
    · by_cases h2 : env.handler_enableClientCertificate handler s.current_identitiy = true
      · simp [h1, h2]
      · by_cases h3 : env.question (unsupportedCertificateQuestion url.scheme) = true
        · simp [h1, h2, h3]
        · exact absurd ⟨h1, by simpa using h2, by simpa using h3⟩ hgo
    · simp [h1]
  obtain ⟨_, _, _, _, c5, _⟩ :=
    certificate_frame env { s with current_handler := some handler } handler url
  obtain ⟨_, _, n3, _⟩ := newHost_frame env
    (startRequest_certificate env { s with current_handler := some handler } handler url).1
    handler url
  simp only [startRequest, hfind, hc, Bool.not_true, Bool.false_eq_true, if_false]
  refine ⟨_, _, rfl, rfl, rfl, ?_⟩
  rw [dispatches_append, dispatches_append, c5, n3]
  rfl

theorem Extends.same (s : RenderState) : Extends s s :=
  ⟨rfl, rfl, [], by simp⟩

theorem Extends.step {s0 s1 s2 : RenderState} (a : Extends s0 s1) (b : Extends s1 s2) :
    Extends s0 s2 := by
  obtain ⟨a1, a2, opsa, a3⟩ := a
  obtain ⟨b1, b2, opsb, b3⟩ := b
  exact ⟨b1.trans a1, b2.trans a2, opsa ++ opsb, by rw [b3, a3, List.append_assoc]⟩

theorem Extends.add {s0 s1 : RenderState} (a : Extends s0 s1) (ops : List CursorOp)
    (b : Bool) :
    Extends s0 { s1 with cursor := s1.cursor ++ ops, suppress_next_block := b } := by
  obtain ⟨a1, a2, opsa, a3⟩ := a
  exact ⟨a1, a2, opsa ++ ops, by simp [a3]⟩

theorem emitNewBlock_extends (s : RenderState) : Extends s s.emitNewBlock := by
  unfold RenderState.emitNewBlock
  by_cases h : s.suppress_next_block = true
  · simp only [h, Bool.not_true, Bool.false_eq_true, if_false]
    exact ⟨rfl, rfl, [], by simp⟩
  · simp only [h, Bool.not_eq_true] at *
    simp only [h, Bool.not_false, if_true]
    exact ⟨rfl, rfl, [CursorOp.insertBlock], rfl⟩

theorem resetFormatting_extends (s : RenderState) (f : QTextBlockFormat) :
    Extends s (resetFormatting s f) := by
  unfold resetFormatting
  exact (emitNewBlock_extends s).add _ _

theorem headingOutline_extends (s : RenderState) (level : Nat) (text : String) :
    Extends s (headingOutline s level text) := by
  unfold headingOutline
  split
  · dsimp only
    split <;> split <;> first
      | exact ⟨rfl, rfl, _, rfl⟩
      | exact ⟨rfl, rfl, [], (List.append_nil _).symm⟩
  · exact ⟨rfl, rfl, [], by simp⟩
  · exact ⟨rfl, rfl, [], by simp⟩
  · exact Extends.same s

mutual
theorem renderNode_extends (env : Env) (state : RenderState) (node : Node)
    (fmt : QTextCharFormat) (listIndent : Int) :
    Extends state (renderNode env state node fmt listIndent) := by
  cases node with
  | document children =>
    simp only [renderNode]
    exact renderChildren_extends env state children fmt 0
  | block_quote children =>
    simp only [renderNode]
    exact ((((emitNewBlock_extends state).add _ true).step
      (renderChildren_extends env _ children fmt 0)).add _ _)
  | list ordered children =>
    simp only [renderNode]
    exact ((((Extends.same state).add _ true).step
      (renderChildren_extends env _ children fmt _)).step (resetFormatting_extends _ _))
  | item children =>
    simp only [renderNode]
    exact renderChildren_extends env state children fmt listIndent
  | code_block literal =>
    simp only [renderNode]
    exact (((emitNewBlock_extends state).add _ _).step (resetFormatting_extends _ _))
  | html_block literal => simp only [renderNode]; exact Extends.same state
  | custom_block => simp only [renderNode]; exact Extends.same state
  | paragraph children =>
    simp only [renderNode]
    exact (emitNewBlock_extends state).step (renderChildren_extends env _ children fmt 0)
  | heading level children =>
    simp only [renderNode]
    exact (((((emitNewBlock_extends state).add _ _).step
      (headingOutline_extends _ level _)).step
      (renderChildren_extends env _ children _ 0)).step (resetFormatting_extends _ _))
  | thematic_break => simp only [renderNode]; exact Extends.same state
  | text literal => simp only [renderNode]; exact (Extends.same state).add _ _
  | softbreak => simp only [renderNode]; exact (Extends.same state).add _ _
  | linebreak => simp only [renderNode]; exact emitNewBlock_extends state
  | code literal => simp only [renderNode]; exact (Extends.same state).add _ _
  | html_inline literal => simp only [renderNode]; exact Extends.same state
  | custom_inline => simp only [renderNode]; exact Extends.same state
  | emph children =>
    simp only [renderNode]
    exact renderChildren_extends env state children _ 0
  | strong children =>
    simp only [renderNode]
    exact renderChildren_extends env state children _ 0
  | image url children =>
    simp only [renderNode]
    exact (renderChildren_extends env state children _ 0).add _ _
  | link url children =>
    simp only [renderNode]
    exact (renderChildren_extends env state children _ 0).add _ _

theorem renderChildren_extends (env : Env) (state : RenderState) (children : List Node)
    (fmt : QTextCharFormat) (listIndent : Int) :
    Extends state (renderChildren env state children fmt listIndent) := by
  cases children with
  | nil => simp only [renderChildren]; exact Extends.same state
  | cons child rest =>
    simp only [renderChildren]
    exact (renderNode_extends env state child fmt listIndent).step
      (renderChildren_extends env _ rest fmt listIndent)
end

theorem renderChildren_append (env : Env) (state : RenderState) (a b : List Node)
    (fmt : QTextCharFormat) (listIndent : Int) :
    renderChildren env state (a ++ b) fmt listIndent =
      renderChildren env (renderChildren env state a fmt listIndent) b fmt listIndent := by
  induction a generalizing state with
  | nil => simp [renderChildren]
  | cons child rest ih =>
    simp only [List.cons_append, renderChildren]
    exact ih _

theorem renderChildren_at (env : Env) (state : RenderState) (before after : List Node)
    (child : Node) (fmt : QTextCharFormat) (listIndent : Int) :
    ∃ ops, (renderChildren env state (before ++ child :: after) fmt listIndent).cursor =
      (renderNode env (renderChildren env state before fmt listIndent) child fmt
        listIndent).cursor ++ ops := by
  rw [renderChildren_append]
  simp only [renderChildren]
  exact (renderChildren_extends env _ after fmt listIndent).2.2

theorem render_plug (env : Env) (leaf : Node) (path : List Step) :
    ∀ (state : RenderState) (fmt : QTextCharFormat) (listIndent : Int),
    ∃ li ops, (renderNode env state (plug path leaf) fmt listIndent).cursor =
      (renderNode env (reach env path state fmt).1 leaf (reach env path state fmt).2
        li).cursor ++ ops := by
  induction path with
  | nil =>
    intro state fmt listIndent
    exact ⟨listIndent, [], by simp [plug, reach]⟩
  | cons st rest ih =>
    intro state fmt listIndent
    obtain ⟨c, before, after⟩ := st
    cases c with
    | emph =>
      obtain ⟨ops1, h1⟩ := renderChildren_at env state before after (plug rest leaf)
        { fmt with italic := true } 0
      obtain ⟨li, ops2, h2⟩ := ih (renderChildren env state before { fmt with italic := true } 0)
        { fmt with italic := true } 0
      refine ⟨li, ops2 ++ ops1, ?_⟩
      simp only [plug, Step.node, renderNode, reach, Container.childFormat]
      rw [h1, h2, List.append_assoc]
    | strong =>
      obtain ⟨ops1, h1⟩ := renderChildren_at env state before after (plug rest leaf)
        { fmt with weight := QFont_Bold } 0
      obtain ⟨li, ops2, h2⟩ := ih
        (renderChildren env state before { fmt with weight := QFont_Bold } 0)
        { fmt with weight := QFont_Bold } 0
      refine ⟨li, ops2 ++ ops1, ?_⟩
      simp only [plug, Step.node, renderNode, reach, Container.childFormat]
      rw [h1, h2, List.append_assoc]
    | link url =>
      obtain ⟨ops1, h1⟩ := renderChildren_at env state before after (plug rest leaf)
        (linkFormat env state.text_style state.root_url (linkTarget env state.root_url url)) 0
      obtain ⟨li, ops2, h2⟩ := ih
        (renderChildren env state before
          (linkFormat env state.text_style state.root_url
            (linkTarget env state.root_url url)) 0)
        (linkFormat env state.text_style state.root_url (linkTarget env state.root_url url)) 0
      refine ⟨li, ops2 ++ ops1 ++ [CursorOp.insertText
        (linkSuffix env state.root_url (linkTarget env state.root_url url))
        (linkFormat env state.text_style state.root_url
          (linkTarget env state.root_url url))], ?_⟩
      simp only [plug, Step.node, renderNode, reach, Container.childFormat]
      rw [h1, h2]
      simp only [List.append_assoc]
    | image url =>
      obtain ⟨ops1, h1⟩ := renderChildren_at env state before after (plug rest leaf)
        (linkFormat env state.text_style state.root_url (linkTarget env state.root_url url)) 0
      obtain ⟨li, ops2, h2⟩ := ih
        (renderChildren env state before
          (linkFormat env state.text_style state.root_url
            (linkTarget env state.root_url url)) 0)
        (linkFormat env state.text_style state.root_url (linkTarget env state.root_url url)) 0
      refine ⟨li, ops2 ++ ops1 ++ [CursorOp.insertText
        (linkSuffix env state.root_url (linkTarget env state.root_url url))
        (linkFormat env state.text_style state.root_url
          (linkTarget env state.root_url url))], ?_⟩
      simp only [plug, Step.node, renderNode, reach, Container.childFormat]
      rw [h1, h2]
      simp only [List.append_assoc]

/-- The theme and the root URL at the end of a path are those at its start. -/
theorem reach_frame (env : Env) (path : List Step) :
    ∀ (state : RenderState) (fmt : QTextCharFormat),
      (reach env path state fmt).1.text_style = state.text_style ∧
      (reach env path state fmt).1.root_url = state.root_url := by
  induction path with
  | nil => intro state fmt; exact ⟨rfl, rfl⟩
  | cons st rest ih =>
    intro state fmt
    simp only [reach]
    obtain ⟨a, b⟩ := ih (renderChildren env state st.before
      (st.container.childFormat env state fmt) 0) (st.container.childFormat env state fmt)
    obtain ⟨c, d, _⟩ := renderChildren_extends env state st.before
      (st.container.childFormat env state fmt) 0
    exact ⟨a.trans c, b.trans d⟩

theorem reach_append (env : Env) (p q : List Step) :
    ∀ (state : RenderState) (fmt : QTextCharFormat),
      reach env (p ++ q) state fmt =
        reach env q (reach env p state fmt).1 (reach env p state fmt).2 := by
  induction p with
  | nil => intro state fmt; rfl
  | cons st rest ih =>
    intro state fmt
    simp only [List.cons_append, reach]
    exact ih _ _

/-- Along emphasis and strong nodes the format keeps the theme part and the anchor, keeps
italic and bold, and gains italic at an emphasis node and bold at a strong node. -/
theorem reach_modifiers (env : Env) (path : List Step) (hpath : ModifiersOnly path) :
    ∀ (state : RenderState) (fmt : QTextCharFormat),
      (reach env path state fmt).2.base = fmt.base ∧
      (reach env path state fmt).2.anchorHref = fmt.anchorHref ∧
      KeepsModifiers fmt (reach env path state fmt).2 ∧
      ((∃ st ∈ path, st.container = Container.emph) →
        (reach env path state fmt).2.italic = true) ∧
      ((∃ st ∈ path, st.container = Container.strong) →
        (reach env path state fmt).2.weight = QFont_Bold) := by
  induction path with
  | nil =>
    intro state fmt
    exact ⟨rfl, rfl, ⟨fun h => h, fun h => h⟩, fun ⟨_, h, _⟩ => absurd h (by simp),
      fun ⟨_, h, _⟩ => absurd h (by simp)⟩
  | cons st rest ih =>
    intro state fmt
    have hrest : ModifiersOnly rest := fun x hx => hpath x (List.mem_cons_of_mem _ hx)
    obtain ⟨c, before, after⟩ := st
    have hc := hpath ⟨c, before, after⟩ (List.mem_cons_self _ _)
    simp only at hc
    rcases hc with hc | hc
    · subst hc
      obtain ⟨a1, a2, a3, a4, a5⟩ := ih hrest
        (renderChildren env state before { fmt with italic := true } 0)
        { fmt with italic := true }
      simp only [reach, Container.childFormat]
      refine ⟨a1, a2, ⟨fun _ => a3.1 rfl, fun h => a3.2 h⟩, fun _ => a3.1 rfl, ?_⟩
      rintro ⟨x, hx, hxs⟩
      rcases List.mem_cons.mp hx with hx | hx
      · subst hx
        simp at hxs
      · exact a5 ⟨x, hx, hxs⟩
    · subst hc
      obtain ⟨a1, a2, a3, a4, a5⟩ := ih hrest
        (renderChildren env state before { fmt with weight := QFont_Bold } 0)
        { fmt with weight := QFont_Bold }
      simp only [reach, Container.childFormat]
      refine ⟨a1, a2, ⟨fun h => a3.1 h, fun _ => a3.2 rfl⟩, ?_, fun _ => a3.2 rfl⟩
      rintro ⟨x, hx, hxs⟩
      rcases List.mem_cons.mp hx with hx | hx
      · subst hx
        simp at hxs
      · exact a4 ⟨x, hx, hxs⟩

theorem plug_append (p q : List Step) (leaf : Node) :
    plug (p ++ q) leaf = plug p (plug q leaf) := by
  induction p with
  | nil => rfl
  | cons st rest ih =>
    show st.node (plug (rest ++ q) leaf) = st.node (plug rest (plug q leaf))
    rw [ih]

/-- The run of a text node at the end of a path. -/
theorem text_at_path (env : Env) (path : List Step) (state : RenderState)
    (fmt : QTextCharFormat) (listIndent : Int) (literal : String) :
    ∃ rest, (renderNode env state (plug path (Node.text literal)) fmt listIndent).cursor =
      (reach env path state fmt).1.cursor ++
        [CursorOp.insertText (extractNodeText env literal) (reach env path state fmt).2] ++
        rest := by
  obtain ⟨li, ops, h⟩ := render_plug env (Node.text literal) path state fmt listIndent
  exact ⟨ops, by rw [h]; simp only [renderNode]⟩

/-- The run of a soft break at the end of a path. -/
theorem softbreak_at_path (env : Env) (path : List Step) (state : RenderState)
    (fmt : QTextCharFormat) (listIndent : Int) :
    ∃ rest, (renderNode env state (plug path Node.softbreak) fmt listIndent).cursor =
      (reach env path state fmt).1.cursor ++
        [CursorOp.insertText " " (reach env path state fmt).2] ++ rest := by
  obtain ⟨li, ops, h⟩ := render_plug env Node.softbreak path state fmt listIndent
  exact ⟨ops, by rw [h]; simp only [renderNode]⟩

theorem startRequest_returns (env : Env) (s : BrowserTab) (url : QUrl)
    (options : RequestOptions) (handler : Nat)
    (hfind : findHandler s.protocol_handlers url.scheme = some handler) :
    ∃ r, startRequest env s url options = some r := by
  unfold startRequest
  rw [hfind]
  dsimp only
  split <;> exact ⟨_, rfl⟩

theorem navigateTo_returns (env : Env) (s : BrowserTab) (url : QUrl) (mode : PushToHistory)
    (handler : Nat)
    (hs : env.isSchemeSupported url.scheme = ProtocolSetup.Enabled)
    (hc : ∀ active, s.current_handler = some active →
      env.handler_cancelRequest active = true)
    (hfind : findHandler s.protocol_handlers url.scheme = some handler) :
    ∃ s' tr, navigateTo env s url mode = some (s', tr) := by
  have hstart : ∃ s' tr, navigateTo_start env s url mode = some (s', tr) := by
    obtain ⟨⟨s2, tr2, ok⟩, h⟩ := startRequest_returns env
      { s with redirection_count := 0, successfully_loaded := false } url
      RequestOptions.Default handler hfind
    unfold navigateTo_start
    simp only [h]
    cases ok
    · exact ⟨_, _, rfl⟩
    · dsimp only
      split <;> exact ⟨_, _, rfl⟩
  obtain ⟨s', tr, h⟩ := hstart
  unfold navigateTo
  rw [if_neg (by simp [hs])]
  cases hh : s.current_handler with
  | none => exact ⟨s', [Effect.navigateTo url mode] ++ tr, by simp only [h, Outcome.after]⟩
  | some active =>
    simp only
    rw [if_neg (by simp [hc active hh])]
    exact ⟨s', [Effect.navigateTo url mode, Effect.cancelRequest active true] ++ tr,
      by simp only [h, Outcome.after]⟩

/-- The format and the suffix of a link or image node with target `U` (resolved against the
root `R` when relative): the children are rendered in, and the suffix is inserted with, a
format that is the internal-link style when `U` has the scheme and host of `R` (empty suffix),
the external-link style when `U` has the scheme of `R` and another host (empty suffix), and
the cross-protocol style with the suffix ` [SCHEME]` in upper case when the scheme of `U`
differs from that of `R` and is not `kristall+ctrl`, whatever its host. -/
theorem link_classification (env : Env) (state : RenderState) (url : String)
    (children : List Node) (current_format : QTextCharFormat) (listIndent : Int) :
    ∃ fmt suffix,
      (renderNode env state (Node.link url children) current_format listIndent =
        { renderChildren env state children fmt 0 with
          cursor := (renderChildren env state children fmt 0).cursor ++
            [CursorOp.insertText suffix fmt] }) ∧
      (renderNode env state (Node.image url children) current_format listIndent =
        { renderChildren env state children fmt 0 with
          cursor := (renderChildren env state children fmt 0).cursor ++
            [CursorOp.insertText suffix fmt] }) ∧
      ((linkTarget env state.root_url url).scheme = state.root_url.scheme →
        (linkTarget env state.root_url url).host = state.root_url.host →
        fmt = { state.text_style.standard_link with
          anchorHref := env.url_toStringFullyEncoded (linkTarget env state.root_url url) } ∧
        suffix = "") ∧
      ((linkTarget env state.root_url url).scheme = state.root_url.scheme →
        (linkTarget env state.root_url url).host ≠ state.root_url.host →
        fmt = { state.text_style.external_link with
          anchorHref := env.url_toStringFullyEncoded (linkTarget env state.root_url url) } ∧
        suffix = "") ∧
      ((linkTarget env state.root_url url).scheme ≠ state.root_url.scheme →
        (linkTarget env state.root_url url).scheme ≠ "kristall+ctrl" →
        fmt = { state.text_style.cross_protocol_link with
          anchorHref := env.url_toStringFullyEncoded (linkTarget env state.root_url url) } ∧
        suffix = " [" ++ env.toUpper (linkTarget env state.root_url url).scheme ++ "]") := by
  refine ⟨linkFormat env state.text_style state.root_url (linkTarget env state.root_url url),
    linkSuffix env state.root_url (linkTarget env state.root_url url), ?_, ?_, ?_, ?_, ?_⟩
  · simp only [renderNode]
  · simp only [renderNode]
  · intro hs hh
    simp [linkFormat, linkSuffix, hs, hh]
  · intro hs hh
    simp [linkFormat, linkSuffix, hs, hh]
  · intro hs hc
    simp [linkFormat, linkSuffix, hs, hc]

/-- The example of the spec: below the root `gemini://a/`, the children of a link to
`other://host/x` are rendered in the cross-protocol style, and the suffix is ` [OTHER]`. -/
theorem link_classification_witness :
    ∃ fmt suffix,
      renderNode demoEnv demoRenderState (Node.link "other://host/x" [Node.text "t"])
          demoStyle.text_style.standard 0 =
        { renderChildren demoEnv demoRenderState [Node.text "t"] fmt 0 with
          cursor := (renderChildren demoEnv demoRenderState [Node.text "t"] fmt 0).cursor ++
            [CursorOp.insertText suffix fmt] } ∧
      fmt = { demoStyle.text_style.cross_protocol_link with anchorHref := "other://host/x" } ∧
      suffix = " [OTHER]" := by
  obtain ⟨fmt, suffix, h1, _, _, _, h5⟩ := link_classification demoEnv demoRenderState
    "other://host/x" [Node.text "t"] demoStyle.text_style.standard 0
  obtain ⟨h6, h7⟩ := h5 (by decide) (by decide)
  exact ⟨fmt, suffix, h1, by rw [h6]; decide, by rw [h7]; decide⟩

/-- What the renderer records for the headings of a document rendered with an empty page
title: the outline receives `beginBuild`, then one entry per heading of level 1, 2 or 3 in
document order with that level and the literal of the first child of the heading, and
`endBuild`; the page title is the first of the texts so recorded for level 1 that is not
empty. For the headings "A" (1), "B" (2), "C" (1) the entries are (1,"A"), (2,"B"), (1,"C")
and the title is "A". -/
theorem headings_recorded (env : Env) (input : QByteArray) (root_url : QUrl)
    (style : DocumentStyle) (outline : List OutlineCall) (md_root : Node)
    (hparse : env.cmark_parse_document input = some md_root) :
    (MarkdownRenderer_render env input root_url style outline "").outline =
      outline ++ [OutlineCall.beginBuild] ++ (headingsOf md_root).map entryCall ++
        [OutlineCall.endBuild] ∧
    (MarkdownRenderer_render env input root_url style outline "").page_title =
      firstTitledH1 (headingsOf md_root) ∧
    (md_root = headingsExample →
      (MarkdownRenderer_render env input root_url style outline "").outline =
        outline ++ [OutlineCall.beginBuild, OutlineCall.appendH1 "A" "",
          OutlineCall.appendH2 "B" "", OutlineCall.appendH1 "C" "", OutlineCall.endBuild] ∧
      (MarkdownRenderer_render env input root_url style outline "").page_title = "A") := by
  simp only [MarkdownRenderer_render, hparse]
  have h := renderNode_recorded env
    { cursor := []
      root_url := root_url
      style := style
      outline := outline ++ [OutlineCall.beginBuild]
      text_style := style.text_style
      page_title := ""
      centre_first_h1 := style.centre_h1
      suppress_next_block := true } md_root style.text_style.standard 0
  obtain ⟨h1, h2⟩ := h
  have e1 : headingsOf headingsExample = [(1, "A"), (2, "B"), (1, "C")] := by decide
  refine ⟨by rw [h1], by rw [h2]; simp, ?_⟩
  intro hex
  subst hex
  refine ⟨?_, ?_⟩
  · rw [h1, e1]
    simp [entryCall]
  · rw [h2, e1]
    have e2 : firstTitledH1 [(1, "A"), (2, "B"), (1, "C")] = "A" := by decide
    simp [e2]

/-- The example of the spec: headings "A" (1), "B" (2), "C" (1). -/
theorem headings_recorded_witness :
    (demoMarkdownEnv headingsExample).cmark_parse_document [] = some headingsExample ∧
    (MarkdownRenderer_render (demoMarkdownEnv headingsExample) [] (demoUrl "gemini" "a" "/")
        demoStyle [] "").outline =
      [OutlineCall.beginBuild, OutlineCall.appendH1 "A" "", OutlineCall.appendH2 "B" "",
       OutlineCall.appendH1 "C" "", OutlineCall.endBuild] ∧
    (MarkdownRenderer_render (demoMarkdownEnv headingsExample) [] (demoUrl "gemini" "a" "/")
        demoStyle [] "").page_title = "A" :=
  ⟨rfl, (headings_recorded (demoMarkdownEnv headingsExample) [] (demoUrl "gemini" "a" "/")
    demoStyle [] headingsExample rfl).2.2 rfl⟩

/-- What `on_requestComplete` does for a non-empty text payload whose declared charset is not
UTF-8 and whose conversion returns no bytes, when the user declines to display the unconverted
data: it returns with the error document of `setErrorMessage` installed (given that the content
type of error documents resolves to UTF-8 and the plain text renderer returns a document), and
with `successfully_loaded = true`, set by the nested call. -/
theorem conversion_declined (env : Env) (fuel : Nat) (s : BrowserTab) (ref_data : QByteArray)
    (mime_text : String)
    (hdata : ref_data ≠ [])
    (htext : (env.MimeParser_parse mime_text).type = "text")
    (hcharset : charsetOf env (env.MimeParser_parse mime_text) ≠ "UTF-8")
    (hfail : convertToUtf8 env (fuel + 1) ref_data
      (charsetOf env (env.MimeParser_parse mime_text)) = some [])
    (hdecline : env.question
      (conversionQuestion (charsetOf env (env.MimeParser_parse mime_text))) = false)
    (hmime : charsetOf env (env.MimeParser_parse errorDocumentMime) = "UTF-8")
    (hplain : (env.PlainTextRenderer_render
      (errorDocumentData
        (conversionFailedMessage (charsetOf env (env.MimeParser_parse mime_text))))
      (env.derive_style s.current_location)).isSome = true) :
    ∃ s' tr, on_requestComplete env (fuel + 2) s ref_data mime_text = some (s', tr) ∧
      s'.current_buffer = errorDocumentData
        (conversionFailedMessage (charsetOf env (env.MimeParser_parse mime_text))) ∧
      s'.current_document = env.PlainTextRenderer_render
        (errorDocumentData
          (conversionFailedMessage (charsetOf env (env.MimeParser_parse mime_text))))
        (env.derive_style s.current_location) ∧
      s'.visible = DocumentType.Text ∧
      s'.successfully_loaded = true := by
  have hn : needsConversion env ref_data (env.MimeParser_parse mime_text) = true := by
    cases ref_data with
    | nil => exact absurd rfl hdata
    | cons b bs => simp [needsConversion, htext, hcharset]
  obtain ⟨s', tr, h, hb, hd, hv⟩ := setErrorMessage_installs env fuel s
    (conversionFailedMessage (charsetOf env (env.MimeParser_parse mime_text))) hmime hplain
  have hl := (setErrorMessage_frame h).2.1
  refine ⟨s', [Effect.stopPlaying, Effect.question
    (conversionQuestion (charsetOf env (env.MimeParser_parse mime_text))) false] ++ tr,
    ?_, hb, hd, hv, hl⟩
  simp only [setErrorMessage] at h
  rw [on_requestComplete]
  simp [hn, hfail, hdecline, h, Outcome.after]

set_option maxRecDepth 4000 in
/-- The declined conversion at the demo tab: one byte declared as ASCII, a libc without
charsets, and a user who declines. -/
theorem conversion_declined_witness :
    (([0x61] : QByteArray) ≠ [] ∧
      (demoEnvDeclining.MimeParser_parse "text/plain; charset=ascii").type = "text" ∧
      charsetOf demoEnvDeclining
        (demoEnvDeclining.MimeParser_parse "text/plain; charset=ascii") ≠ "UTF-8" ∧
      convertToUtf8 demoEnvDeclining (0 + 1) [0x61] (charsetOf demoEnvDeclining
        (demoEnvDeclining.MimeParser_parse "text/plain; charset=ascii")) = some [] ∧
      demoEnvDeclining.question (conversionQuestion (charsetOf demoEnvDeclining
        (demoEnvDeclining.MimeParser_parse "text/plain; charset=ascii"))) = false) ∧
    ∃ s' tr, on_requestComplete demoEnvDeclining (0 + 2) demoTab [0x61]
        "text/plain; charset=ascii" = some (s', tr) ∧
      s'.current_buffer = errorDocumentData (conversionFailedMessage (charsetOf demoEnvDeclining
        (demoEnvDeclining.MimeParser_parse "text/plain; charset=ascii"))) ∧
      s'.current_document = demoEnvDeclining.PlainTextRenderer_render
        (errorDocumentData (conversionFailedMessage (charsetOf demoEnvDeclining
          (demoEnvDeclining.MimeParser_parse "text/plain; charset=ascii"))))
        (demoEnvDeclining.derive_style demoTab.current_location) ∧
      s'.visible = DocumentType.Text ∧
      s'.successfully_loaded = true :=
  ⟨⟨by decide, by decide, by decide, by decide, by decide⟩,
   conversion_declined demoEnvDeclining 0 demoTab [0x61] "text/plain; charset=ascii"
    (by decide) (by decide) (by decide) (by decide) (by decide) (by decide) (by decide)⟩

/-- Emphasis and strong nodes whose whole subtree is inline content without inline code, links
and images: every text run emitted is italic (under emphasis) or bold (under strong) and keeps
the other modifier of the enclosing format; inline code is emitted in the preformatted format
of the theme, and the rendering of a link or image does not depend on the enclosing
format. -/
theorem modifiers_reach_plain_runs (env : Env) (state : RenderState) (children : List Node)
    (fmt : QTextCharFormat) (listIndent : Int)
    (h : plainInlineList children = true) :
    (∃ ops, (renderNode env state (Node.emph children) fmt listIndent).cursor
        = state.cursor ++ ops ∧
      AllRuns (fun f => f.italic = true ∧ (fmt.weight = QFont_Bold → f.weight = QFont_Bold))
        ops) ∧
    (∃ ops, (renderNode env state (Node.strong children) fmt listIndent).cursor
        = state.cursor ++ ops ∧
      AllRuns (fun f => f.weight = QFont_Bold ∧ (fmt.italic = true → f.italic = true)) ops) ∧
    (∃ ops, (renderNode env state (Node.emph [Node.strong children]) fmt listIndent).cursor
        = state.cursor ++ ops ∧
      AllRuns (fun f => f.italic = true ∧ f.weight = QFont_Bold) ops) ∧
    (∃ ops, (renderNode env state (Node.strong [Node.emph children]) fmt listIndent).cursor
        = state.cursor ++ ops ∧
      AllRuns (fun f => f.italic = true ∧ f.weight = QFont_Bold) ops) ∧
    (∀ literal, (renderNode env state (Node.code literal) fmt listIndent).cursor =
      state.cursor ++
        [CursorOp.insertText (extractNodeText env literal) state.text_style.preformatted]) ∧
    (∀ url other, renderNode env state (Node.link url children) fmt listIndent =
        renderNode env state (Node.link url children) other listIndent ∧
      renderNode env state (Node.image url children) fmt listIndent =
        renderNode env state (Node.image url children) other listIndent) := by
  refine ⟨?_, ?_, ?_, ?_, ?_, ?_⟩
  · obtain ⟨ops, h1, h2⟩ := renderChildren_modifiers env state children
      { fmt with italic := true } 0 h
    refine ⟨ops, by simp only [renderNode]; exact h1, h2.runs_mono ?_⟩
    intro f hf
    exact ⟨hf.1 rfl, fun hw => hf.2 hw⟩
  · obtain ⟨ops, h1, h2⟩ := renderChildren_modifiers env state children
      { fmt with weight := QFont_Bold } 0 h
    refine ⟨ops, by simp only [renderNode]; exact h1, h2.runs_mono ?_⟩
    intro f hf
    exact ⟨hf.2 rfl, fun hi => hf.1 hi⟩
  · obtain ⟨ops', h1', h2'⟩ := renderChildren_modifiers env state children
      { ({ fmt with italic := true } : QTextCharFormat) with weight := QFont_Bold } 0 h
    refine ⟨ops', ?_, h2'.runs_mono ?_⟩
    · simp only [renderNode, renderChildren]
      exact h1'
    · intro f hf
      exact ⟨hf.1 rfl, hf.2 rfl⟩
  · obtain ⟨ops', h1', h2'⟩ := renderChildren_modifiers env state children
      { ({ fmt with weight := QFont_Bold } : QTextCharFormat) with italic := true } 0 h
    refine ⟨ops', ?_, h2'.runs_mono ?_⟩
    · simp only [renderNode, renderChildren]
      exact h1'
    · intro f hf
      exact ⟨hf.1 rfl, hf.2 rfl⟩
  · intro literal
    simp only [renderNode]
  · intro url other
    simp only [renderNode, and_self]

/-- An emphasis node over the text `t`. -/
theorem modifiers_reach_plain_runs_witness :
    plainInlineList [Node.text "t"] = true ∧
    ∃ ops, (renderNode demoEnv demoRenderState (Node.emph [Node.text "t"])
        demoStyle.text_style.standard 0).cursor = demoRenderState.cursor ++ ops ∧
      AllRuns (fun f => f.italic = true ∧
        (demoStyle.text_style.standard.weight = QFont_Bold → f.weight = QFont_Bold)) ops :=
  ⟨rfl, (modifiers_reach_plain_runs demoEnv demoRenderState [Node.text "t"]
    demoStyle.text_style.standard 0 rfl).1⟩

/-! ## The claims -/

/-- C1: when `redirection_count >= max_redirections`, `on_redirected` hands no request to any
handler and leaves `redirection_count` and `current_location` as they were, whatever the
collaborators do. When the content type of error documents declares no other charset than
UTF-8 and the plain text renderer returns a document for the error payload, the call returns
and installs the error document, whose payload contains the fully encoded target URI. -/
theorem on_redirected_at_limit (env : Env) (fuel : Nat) (s : BrowserTab) (uri : QUrl)
    (is_permanent : Bool)
    (hlimit : s.redirection_count ≥ env.global_options.max_redirections) :
    (∀ s' tr, on_redirected env fuel s uri is_permanent = some (s', tr) →
      dispatches tr = [] ∧ s'.redirection_count = s.redirection_count ∧
        s'.current_location = s.current_location) ∧
    (charsetOf env (env.MimeParser_parse errorDocumentMime) = "UTF-8" →
      (env.PlainTextRenderer_render (errorDocumentData (tooManyRedirectsMessage env uri))
        (env.derive_style s.current_location)).isSome = true →
      ∃ s' tr, on_redirected env (fuel + 1) s uri is_permanent = some (s', tr) ∧
        s'.current_buffer = errorDocumentData (tooManyRedirectsMessage env uri) ∧
        s'.current_document = env.PlainTextRenderer_render
          (errorDocumentData (tooManyRedirectsMessage env uri))
          (env.derive_style s.current_location) ∧
        s'.visible = DocumentType.Text ∧
        toUtf8 (env.url_toStringFullyEncoded uri) <:+: s'.current_buffer) := by
  constructor
  · intro s' tr h
    simp only [on_redirected, if_pos hlimit, setErrorMessage] at h
    obtain ⟨a, _, c, _⟩ := requestComplete_frame env fuel _ _ _ _ _ h
    exact ⟨c, a.redirection_count, a.current_location⟩
  · intro hmime hplain
    obtain ⟨s', tr, h, hb, hd, hv⟩ := setErrorMessage_installs env fuel s _ hmime hplain
    refine ⟨s', tr, ?_, hb, hd, hv, ?_⟩
    · simp only [on_redirected, if_pos hlimit]; exact h
    · rw [hb, errorDocumentData, tooManyRedirectsMessage, ← String.append_assoc, toUtf8_append]
      exact ⟨_, [], List.append_nil _⟩

/-- C1 at the demo tab with five redirects behind it and a limit of five. -/
theorem on_redirected_at_limit_witness :
    ({ demoTab with redirection_count := 5 } : BrowserTab).redirection_count
      ≥ demoEnv.global_options.max_redirections ∧
    ∃ s' tr, on_redirected demoEnv (0 + 1) { demoTab with redirection_count := 5 }
        (demoUrl "gemini" "b" "/x") false = some (s', tr) ∧
      s'.current_buffer =
        errorDocumentData (tooManyRedirectsMessage demoEnv (demoUrl "gemini" "b" "/x")) ∧
      s'.current_document = demoEnv.PlainTextRenderer_render
        (errorDocumentData (tooManyRedirectsMessage demoEnv (demoUrl "gemini" "b" "/x")))
        (demoEnv.derive_style
          ({ demoTab with redirection_count := 5 } : BrowserTab).current_location) ∧
      s'.visible = DocumentType.Text ∧
      toUtf8 (demoEnv.url_toStringFullyEncoded (demoUrl "gemini" "b" "/x")) <:+:
        s'.current_buffer :=
  ⟨by decide,
   (on_redirected_at_limit demoEnv 0 { demoTab with redirection_count := 5 }
      (demoUrl "gemini" "b" "/x") false (by decide)).2 (by decide) (by decide)⟩

/-- C2: a clicked `kristall+ctrl` link in a tab that is not flagged internal starts no request and
no navigation and leaves the whole tab, hence `current_location`, the history and the redirect
counter, unchanged. A request with `IgnoreTlsErrors` leaves `on_text_browser_anchorClicked`
only when the tab is flagged internal, the link is a `kristall+ctrl` link with path
`ignore-tls` and the user answered the question with yes; every other entry point of the
session controller dispatches with the default options or not at all. -/
theorem control_links_need_internal (env : Env) (s : BrowserTab) (url : QUrl) :
    (s.is_internal_location = false → url.scheme = "kristall+ctrl" →
      ∃ tr, on_text_browser_anchorClicked env s url = some (s, tr) ∧
        dispatches tr = [] ∧ navigations tr = []) ∧
    (∀ s' tr handler target,
      on_text_browser_anchorClicked env s url = some (s', tr) →
      (handler, target, RequestOptions.IgnoreTlsErrors) ∈ dispatches tr →
      s.is_internal_location = true ∧ url.scheme = "kristall+ctrl" ∧
        url.path = "ignore-tls" ∧ env.question ignoreTlsQuestion = true ∧
        Effect.question ignoreTlsQuestion true ∈ tr) ∧
    (∀ target mode s' tr, navigateTo env s target mode = some (s', tr) → DefaultOnly tr) ∧
    (∀ index s' tr, navigateBack env s index = some (s', tr) → DefaultOnly tr) ∧
    (∀ s' tr, reloadPage env s = some (s', tr) → DefaultOnly tr) ∧
    (∀ fuel uri p s' tr, on_redirected env fuel s uri p = some (s', tr) → DefaultOnly tr) ∧
    (∀ fuel query answers s' tr,
      on_inputRequired env fuel s query answers = some (s', tr) → DefaultOnly tr) ∧
    (∀ fuel reason s' tr,
      on_certificateRequired env fuel s reason = some (s', tr) → DefaultOnly tr) ∧
    (∀ fuel data mime_text s' tr,
      on_requestComplete env fuel s data mime_text = some (s', tr) → dispatches tr = []) ∧
    (∀ fuel error_code reason s' tr,
      on_networkError env fuel s error_code reason = some (s', tr) → dispatches tr = []) := by
  refine ⟨?_, ?_, ?_, ?_, ?_, ?_, ?_, ?_, ?_, ?_⟩
  · intro hi hsch
    refine ⟨[Effect.critical maliciousSiteMessage], ?_, rfl, rfl⟩
    simp [on_text_browser_anchorClicked, hsch, hi]
  · intro s' tr handler target h hmem
    by_cases hsch : (url.scheme == "kristall+ctrl") = true
    · rw [on_text_browser_anchorClicked, if_pos hsch] at h
      by_cases hint : s.is_internal_location = true
      · rw [if_pos hint] at h
        simp only at h
        by_cases hopt : (url.path == "ignore-tls") = true
        · rw [if_pos hopt] at h
          by_cases hq : env.question ignoreTlsQuestion = true
          · rw [if_pos hq] at h
            split at h
            · exact absurd h (by simp)
            · simp only [Option.some.injEq, Prod.mk.injEq] at h
              obtain ⟨_, rfl⟩ := h
              exact ⟨hint, by simpa using hsch, by simpa using hopt, hq, by simp⟩
          · rw [if_neg hq] at h
            simp only [Option.some.injEq, Prod.mk.injEq] at h
            obtain ⟨_, rfl⟩ := h
            simp [dispatches, Effect.dispatch?] at hmem
        · rw [if_neg hopt] at h
          simp only [Option.some.injEq, Prod.mk.injEq] at h
          obtain ⟨_, rfl⟩ := h
          simp [dispatches] at hmem
      · rw [if_neg hint] at h
        simp only [Option.some.injEq, Prod.mk.injEq] at h
        obtain ⟨_, rfl⟩ := h
        simp [dispatches, Effect.dispatch?] at hmem
    · have := anchorClicked_plain_link hsch h _ hmem
      simp at this
  · intro target mode s' tr h
    exact navigateTo_defaultOnly h
  · intro index s' tr h
    exact navigateBack_defaultOnly h
  · intro s' tr h
    exact reloadPage_defaultOnly h
  · intro fuel uri p s' tr h
    exact on_redirected_defaultOnly h
  · intro fuel query answers s' tr h
    exact on_inputRequired_defaultOnly env fuel s query answers s' tr h
  · intro fuel reason s' tr h
    exact on_certificateRequired_defaultOnly h
  · intro fuel data mime_text s' tr h
    exact (requestComplete_frame env fuel _ _ _ _ _ h).2.2.1
  · intro fuel error_code reason s' tr h
    exact on_networkError_quiet h

/-- C2 at the demo tab, which is not internal, and the link `kristall+ctrl:ignore-tls`. -/
theorem control_links_need_internal_witness :
    demoTab.is_internal_location = false ∧
    ∃ tr, on_text_browser_anchorClicked demoEnv demoTab
        ⟨"kristall+ctrl", "", "ignore-tls", "", "", true⟩ = some (demoTab, tr) ∧
      dispatches tr = [] ∧ navigations tr = [] :=
  ⟨rfl, (control_links_need_internal demoEnv demoTab
    ⟨"kristall+ctrl", "", "ignore-tls", "", "", true⟩).1 rfl rfl⟩

/-- C3: when the scheme of the URL is not enabled, or a handler is active and its
`cancelRequest()` returns false, `navigateTo` returns with the tab unchanged (in particular
`current_location`, the history and its cursor, `redirection_count`, `successfully_loaded`,
the identity and the certificates enabled on the handlers) and no request is dispatched. -/
theorem navigateTo_rejected (env : Env) (s : BrowserTab) (url : QUrl) (mode : PushToHistory)
    (h : env.isSchemeSupported url.scheme ≠ ProtocolSetup.Enabled ∨
      ∃ handler, s.current_handler = some handler ∧
        env.handler_cancelRequest handler = false) :
    ∃ tr, navigateTo env s url mode = some (s, tr) ∧ dispatches tr = [] := by
  unfold navigateTo
  by_cases hs : env.isSchemeSupported url.scheme = ProtocolSetup.Enabled
  · rcases h with h | ⟨handler, hh, hc⟩
    · exact absurd hs h
    · simp [hs, hh, hc, dispatches, Effect.dispatch?]
  · simp [hs, dispatches, Effect.dispatch?]

/-- C3 at the demo tab and an `http` URL, a scheme the demo environment does not enable. -/
theorem navigateTo_rejected_witness :
    (demoEnv.isSchemeSupported (demoUrl "http" "a" "/").scheme ≠ ProtocolSetup.Enabled ∨
      ∃ handler, demoTab.current_handler = some handler ∧
        demoEnv.handler_cancelRequest handler = false) ∧
    ∃ tr, navigateTo demoEnv demoTab (demoUrl "http" "a" "/") PushToHistory.PushImmediate
      = some (demoTab, tr) ∧ dispatches tr = [] :=
  ⟨Or.inl (by decide),
   navigateTo_rejected demoEnv demoTab (demoUrl "http" "a" "/") PushToHistory.PushImmediate
    (Or.inl (by decide))⟩

/-- C4: the renderer selection of `on_requestComplete` produces one outcome for every content
type and payload: a text document for every `text/` type, an image outcome without a document
for `image/`, a media outcome without a document for `video/` and `audio/`, and the text
document with the unsupported-type notice for everything else; when the dialect renderers
return a document, the assertion `(document != nullptr) == (doc_type == Text)` holds. -/
theorem renderer_selection_total (env : Env) (current_location : QUrl) (data : QByteArray)
    (mime_text : String) :
    (startsWith mime_text "text/" = true →
      (selectRenderer env current_location data mime_text).doc_type = DocumentType.Text) ∧
    (startsWith mime_text "image/" = true →
      (selectRenderer env current_location data mime_text).doc_type = DocumentType.Image ∧
      (selectRenderer env current_location data mime_text).document = none) ∧
    (startsWith mime_text "video/" = true ∨ startsWith mime_text "audio/" = true →
      (selectRenderer env current_location data mime_text).doc_type = DocumentType.Media ∧
      (selectRenderer env current_location data mime_text).document = none) ∧
    (startsWith mime_text "text/" = false → startsWith mime_text "image/" = false →
      startsWith mime_text "video/" = false → startsWith mime_text "audio/" = false →
      (selectRenderer env current_location data mime_text).doc_type = DocumentType.Text ∧
      ∃ setup, (selectRenderer env current_location data mime_text).document =
        some ⟨setup, DocumentContent.plainText
          (unsupportedNotice env mime_text (env.size_human data.length))⟩) ∧
    ((env.GeminiRenderer_render data current_location
          (env.derive_style current_location)).1.isSome = true →
      (env.GophermapRenderer_render data current_location
          (env.derive_style current_location)).isSome = true →
      (env.PlainTextRenderer_render data (env.derive_style current_location)).isSome = true →
      documentAssertion (selectRenderer env current_location data mime_text) = true) := by
  have hsub : ∀ p : String, (∃ r, p.data = "text/".data ++ r) →
      startsWith mime_text "text/" = false → startsWith mime_text p = false := by
    intro p ⟨r, hr⟩ ht
    cases hp : startsWith mime_text p with
    | false => rfl
    | true =>
      have h1 : p.data <+: mime_text.data := List.isPrefixOf_iff_prefix.mp hp
      have h2 : "text/".data <+: mime_text.data :=
        List.IsPrefix.trans ⟨r, hr.symm⟩ h1
      have h3 : startsWith mime_text "text/" = true := List.isPrefixOf_iff_prefix.mpr h2
      rw [ht] at h3
      exact absurd h3 (by simp)
  have hexcl : ∀ (p q : String) (c d : Char) (cs ds : List Char), p.data = c :: cs →
      q.data = d :: ds → c ≠ d → startsWith mime_text p = true →
      startsWith mime_text q = false := by
    intro p q c d cs ds hp hq hcd h
    apply startsWith_other hq
    rw [startsWith_first hp h]
    simpa using hcd
  by_cases ht : startsWith mime_text "text/" = true
  · have hi : startsWith mime_text "image/" = false :=
      hexcl "text/" "image/" _ _ _ _ rfl rfl (by decide) ht
    have hv : startsWith mime_text "video/" = false :=
      hexcl "text/" "video/" _ _ _ _ rfl rfl (by decide) ht
    have ha : startsWith mime_text "audio/" = false :=
      hexcl "text/" "audio/" _ _ _ _ rfl rfl (by decide) ht
    refine ⟨fun _ => ?_, fun h => ?_, fun h => ?_, fun h => ?_, fun h1 h2 h3 => ?_⟩
    · unfold selectRenderer
      simp only [ht]
      repeat' split
      all_goals first | rfl | simp_all
    · rw [hi] at h; exact absurd h (by simp)
    · rw [hv, ha] at h; simp at h
    · rw [ht] at h; exact absurd h (by simp)
    · unfold selectRenderer documentAssertion
      simp only [ht]
      repeat' split
      all_goals simp [h1, h2, h3]
  · have ht : startsWith mime_text "text/" = false := by simpa using ht
    have hg := hsub "text/gemini" ⟨_, rfl⟩ ht
    have hgm := hsub "text/gophermap" ⟨_, rfl⟩ ht
    have hf := hsub "text/finger" ⟨_, rfl⟩ ht
    have hh := hsub "text/html" ⟨_, rfl⟩ ht
    have hm := hsub "text/markdown" ⟨_, rfl⟩ ht
    have hiv := hexcl "image/" "video/" _ _ _ _ rfl rfl (by decide)
    have hia := hexcl "image/" "audio/" _ _ _ _ rfl rfl (by decide)
    refine ⟨fun h => ?_, fun h => ?_, fun h => ?_, fun _ h2 h3 h4 => ?_, fun _ _ _ => ?_⟩
    · rw [ht] at h; exact absurd h (by simp)
    · simp [selectRenderer, ht, hg, hgm, hf, hh, hm, h]
    · have hi : startsWith mime_text "image/" = false := by
        cases hi : startsWith mime_text "image/" with
        | false => rfl
        | true =>
          rw [hiv hi, hia hi] at h
          simp at h
      have hva : (startsWith mime_text "video/" || startsWith mime_text "audio/") = true := by
        simpa using h
      simp [selectRenderer, ht, hg, hgm, hf, hh, hm, hi, hva]
    · simp [selectRenderer, ht, hg, hgm, hf, hh, hm, h2, h3, h4]
    · clear hsub hexcl hiv hia
      simp only [selectRenderer, documentAssertion, ht, hg, hgm, hf, hh, hm, Bool.and_false,
        Bool.false_eq_true, if_false]
      repeat' split
      all_goals simp

/-- C4 at the content type `image/png`. -/
theorem renderer_selection_total_witness :
    startsWith "image/png" "image/" = true ∧
    (selectRenderer demoEnv (demoUrl "gemini" "a" "/") [] "image/png").doc_type
      = DocumentType.Image ∧
    (selectRenderer demoEnv (demoUrl "gemini" "a" "/") [] "image/png").document = none :=
  ⟨by decide,
   (renderer_selection_total demoEnv (demoUrl "gemini" "a" "/") [] "image/png").2.1
    (by decide)⟩

/-- C5: a `navigateTo` call that passes the scheme and cancel checks and finds a handler for
the scheme returns, after running `startRequest` on a tab whose `redirection_count` is 0, with
the counter at 0, and every such call that returns has done so; `on_redirected` raises the
counter by exactly 1 when the redirect is below the limit, passes the confirmation step and
its `startRequest` returns true, and leaves it unchanged otherwise; `on_requestComplete`,
`on_networkError`, `on_requestProgress` and the stop button never change it. -/
theorem redirection_count_protocol (env : Env) (fuel : Nat) (s : BrowserTab) :
    (∀ url mode handler,
      env.isSchemeSupported url.scheme = ProtocolSetup.Enabled →
      (∀ active, s.current_handler = some active →
        env.handler_cancelRequest active = true) →
      findHandler s.protocol_handlers url.scheme = some handler →
      ∃ s' tr, navigateTo env s url mode = some (s', tr) ∧
        s'.redirection_count = 0 ∧
        ∃ r, startRequest env { s with redirection_count := 0, successfully_loaded := false }
            url RequestOptions.Default = some r ∧
          dispatches tr = dispatches r.2.1) ∧
    (∀ url mode s' tr,
      env.isSchemeSupported url.scheme = ProtocolSetup.Enabled →
      (∀ handler, s.current_handler = some handler →
        env.handler_cancelRequest handler = true) →
      navigateTo env s url mode = some (s', tr) →
      s'.redirection_count = 0 ∧
      ∃ r, startRequest env { s with redirection_count := 0, successfully_loaded := false }
          url RequestOptions.Default = some r ∧
        dispatches tr = dispatches r.2.1) ∧
    (∀ uri p s' tr, on_redirected env fuel s uri p = some (s', tr) →
      ((s.redirection_count < env.global_options.max_redirections ∧
          redirectAccepted env s uri = true ∧
          ∃ s1 tr1, startRequest env s uri RequestOptions.Default = some (s1, tr1, true)) →
        s'.redirection_count = s.redirection_count + 1) ∧
      (¬ (s.redirection_count < env.global_options.max_redirections ∧
          redirectAccepted env s uri = true ∧
          ∃ s1 tr1, startRequest env s uri RequestOptions.Default = some (s1, tr1, true)) →
        s'.redirection_count = s.redirection_count)) ∧
    (∀ data mime_text s' tr, on_requestComplete env fuel s data mime_text = some (s', tr) →
      s'.redirection_count = s.redirection_count) ∧
    (∀ error_code reason s' tr,
      on_networkError env fuel s error_code reason = some (s', tr) →
      s'.redirection_count = s.redirection_count) ∧
    (∀ transferred, (on_requestProgress s transferred).1.redirection_count
      = s.redirection_count) ∧
    (on_stop_button_clicked env s).1.redirection_count = s.redirection_count := by
  have hnav : ∀ url mode s' tr,
      env.isSchemeSupported url.scheme = ProtocolSetup.Enabled →
      (∀ handler, s.current_handler = some handler →
        env.handler_cancelRequest handler = true) →
      navigateTo env s url mode = some (s', tr) →
      s'.redirection_count = 0 ∧
      ∃ r, startRequest env { s with redirection_count := 0, successfully_loaded := false }
          url RequestOptions.Default = some r ∧
        dispatches tr = dispatches r.2.1 := by
    intro url mode s' tr hs hc h
    have key : ∀ pre, dispatches pre = [] →
        (navigateTo_start env s url mode).after pre = some (s', tr) →
        s'.redirection_count = 0 ∧
        ∃ r, startRequest env { s with redirection_count := 0, successfully_loaded := false }
            url RequestOptions.Default = some r ∧
          dispatches tr = dispatches r.2.1 := by
      intro pre hpre h1
      obtain ⟨t0, h0, rfl⟩ := after_eq_some h1
      refine ⟨(navigateTo_start_frame h0).1, ?_⟩
      unfold navigateTo_start at h0
      simp only at h0
      split at h0
      · exact absurd h0 (by simp)
      · rename_i s2 tr2 hst
        simp only [Option.some.injEq, Prod.mk.injEq] at h0
        obtain ⟨_, rfl⟩ := h0
        exact ⟨_, hst, by rw [dispatches_append, dispatches_append, hpre]; simp [dispatches, Effect.dispatch?]⟩
      · rename_i s2 tr2 hst
        refine ⟨_, hst, ?_⟩
        split at h0
        · simp only [Option.some.injEq, Prod.mk.injEq] at h0
          obtain ⟨_, rfl⟩ := h0
          rw [dispatches_append, hpre]; rfl
        · simp only [Option.some.injEq, Prod.mk.injEq] at h0
          obtain ⟨_, rfl⟩ := h0
          rw [dispatches_append, hpre]; rfl
    unfold navigateTo at h
    rw [if_neg (by simp [hs])] at h
    split at h
    · rename_i handler hh
      rw [if_neg (by simp [hc handler hh])] at h
      exact key [Effect.navigateTo url mode, Effect.cancelRequest handler true] rfl h
    · exact key [Effect.navigateTo url mode] rfl h
  refine ⟨?_, hnav, ?_, ?_, ?_, ?_, ?_⟩
  · intro url mode handler hs hc hfind
    obtain ⟨s', tr, h⟩ := navigateTo_returns env s url mode handler hs hc hfind
    exact ⟨s', tr, h, hnav url mode s' tr hs hc h⟩
  · intro uri p s' tr h
    exact on_redirected_count h
  · intro data mime_text s' tr h
    exact (requestComplete_frame env fuel _ _ _ _ _ h).1.redirection_count
  · intro error_code reason s' tr h
    unfold on_networkError at h
    simp only at h
    split at h
    · exact absurd h (by simp)
    · exact (requestComplete_frame env fuel _ _ _ _ _ h).1.redirection_count
  · intro transferred; rfl
  · unfold on_stop_button_clicked
    split <;> rfl

set_option maxRecDepth 4000 in
/-- C5 at the demo tab: a `navigateTo` call made while the counter is 3 returns with the
counter at 0 and one dispatch, and a redirect within `gemini://a` raises the counter from 0
to 1. -/
theorem redirection_count_protocol_witness :
    (∃ s' tr, navigateTo demoEnv { demoTab with redirection_count := 3 }
        (demoUrl "gemini" "a" "/x") PushToHistory.PushImmediate = some (s', tr) ∧
      s'.redirection_count = 0 ∧
      dispatches tr = [(0, demoUrl "gemini" "a" "/x", RequestOptions.Default)]) ∧
    (∃ s' tr, on_redirected demoEnv 1 demoTab (demoUrl "gemini" "a" "/x") false
        = some (s', tr) ∧
      s'.redirection_count = demoTab.redirection_count + 1) := by
  refine ⟨?_, ?_⟩
  · obtain ⟨s', tr, h, h0, r, hr, hd⟩ :=
      (redirection_count_protocol demoEnv 1 { demoTab with redirection_count := 3 }).1
        (demoUrl "gemini" "a" "/x") PushToHistory.PushImmediate 0 (by decide)
        (fun active ha => Option.noConfusion ha) (by decide)
    have hv : (startRequest demoEnv
        { ({ demoTab with redirection_count := 3 } : BrowserTab) with
          redirection_count := 0, successfully_loaded := false }
        (demoUrl "gemini" "a" "/x") RequestOptions.Default).map
        (fun q => dispatches q.2.1) =
        some [(0, demoUrl "gemini" "a" "/x", RequestOptions.Default)] := by decide
    rw [hr] at hv
    simp only [Option.map_some', Option.some.injEq] at hv
    exact ⟨s', tr, h, h0, by rw [hd, hv]⟩
  · obtain ⟨r, hr⟩ := exists_of_isSome
      (by decide :
        (on_redirected demoEnv 1 demoTab (demoUrl "gemini" "a" "/x") false).isSome = true)
    obtain ⟨q, hq⟩ := exists_of_isSome
      (by decide : ((startRequest demoEnv demoTab (demoUrl "gemini" "a" "/x")
        RequestOptions.Default).filter fun x => x.2.2).isSome = true)
    have hq2 : startRequest demoEnv demoTab (demoUrl "gemini" "a" "/x") RequestOptions.Default
        = some (q.1, q.2.1, true) := by
      obtain ⟨h1, h2⟩ := Option.filter_eq_some.mp hq
      rw [h1]
      obtain ⟨q1, q2, q3⟩ := q
      simp only at h2
      rw [h2]
    exact ⟨r.1, r.2, hr,
      ((redirection_count_protocol demoEnv 1 demoTab).2.2.1 (demoUrl "gemini" "a" "/x") false
        r.1 r.2 hr).1 ⟨by decide, by decide, q.1, q.2.1, hq2⟩⟩

set_option maxRecDepth 4000 in
/-- C6, evaluated at two inputs on which the code departs from the redirect policy: under
`WarnAlways` a redirect to the same scheme and host is dispatched without any question, and
under a policy with neither warning bit set a redirect to another host puts a question (with
an empty text) before it is dispatched. -/
theorem redirect_confirmation_mismatch :
    (demoEnv.global_options.redirection_policy = RedirectionWarning.WarnAlways ∧
      (on_redirected demoEnv 1 demoTab (demoUrl "gemini" "a" "/x") false).map
        (fun r => (questions r.2, dispatches r.2, r.1.redirection_count)) =
        some ([], [(0, demoUrl "gemini" "a" "/x", RequestOptions.Default)], 1)) ∧
    (demoEnvNoWarning.global_options.redirection_policy = RedirectionWarning.mask false false ∧
      (on_redirected demoEnvNoWarning 1 demoTab (demoUrl "gemini" "b" "/x") false).map
        (fun r => (questions r.2, dispatches r.2, r.1.redirection_count)) =
        some ([""], [(0, demoUrl "gemini" "b" "/x", RequestOptions.Default)], 1)) := by
  refine ⟨⟨by decide, ?_⟩, ⟨by decide, ?_⟩⟩
  · decide
  · decide

set_option maxRecDepth 4000 in
/-- C7, evaluated at the input `a`, the invalid byte `0x80`, `b` declared as ASCII: the
replacement character is appended before the bytes converted in the same call of `iconv`, so
the result is U+FFFD, `a`, `b` and not `a`, U+FFFD, `b`, and `on_requestComplete` hands these
bytes to the plain text renderer. -/
theorem replacement_precedes_chunk :
    convertToUtf8 demoEnv 3 [0x61, 0x80, 0x62] "ascii"
      = some (replacement_character ++ [0x61, 0x62]) ∧
    convertToUtf8 demoEnv 3 [0x61, 0x80, 0x62] "ascii"
      ≠ some ([0x61] ++ replacement_character ++ [0x62]) ∧
    (on_requestComplete demoEnv 4 demoTab [0x61, 0x80, 0x62] "text/plain; charset=ascii").map
      (fun r => r.1.current_document) =
      some (some ⟨[], DocumentContent.external "plain"
        (replacement_character ++ [0x61, 0x62])⟩) := by
  refine ⟨by decide, by decide, by decide⟩

/-- C8: in `on_inputRequired`, an accepted input whose fully encoded location has 1020 bytes or
more starts no navigation, shows the warning and runs the dialog again; an accepted input below
1020 bytes calls `navigateTo` exactly once, with that location and `DontPush`. Hence every
location the handler navigates to has an encoded length of at most 1019 bytes. -/
theorem input_length_limit (env : Env) (fuel : Nat) (s : BrowserTab) (query : String) :
    (∀ text later,
      encodedLength env (env.url_setQuery s.current_location text) ≥ 1020 →
      on_inputRequired env fuel s query (some text :: later) =
        (on_inputRequired env fuel s query later).after
          [Effect.inputDialog query (some text),
           Effect.warning (inputTooLongMessage env
             (encodedLength env (env.url_setQuery s.current_location text)))]) ∧
    (∀ text later,
      encodedLength env (env.url_setQuery s.current_location text) < 1020 →
      on_inputRequired env fuel s query (some text :: later) =
        (navigateTo env s (env.url_setQuery s.current_location text)
          PushToHistory.DontPush).after [Effect.inputDialog query (some text)] ∧
      ∀ s' tr, on_inputRequired env fuel s query (some text :: later) = some (s', tr) →
        navigations tr =
          [(env.url_setQuery s.current_location text, PushToHistory.DontPush)]) ∧
    (∀ answers s' tr, on_inputRequired env fuel s query answers = some (s', tr) →
      ∀ n ∈ navigations tr, encodedLength env n.1 ≤ 1019 ∧ n.2 = PushToHistory.DontPush) := by
  refine ⟨?_, ?_, ?_⟩
  · intro text later hlen
    simp only [on_inputRequired]
    rw [if_pos hlen]
  · intro text later hlen
    have heq : on_inputRequired env fuel s query (some text :: later) =
        (navigateTo env s (env.url_setQuery s.current_location text)
          PushToHistory.DontPush).after [Effect.inputDialog query (some text)] := by
      simp only [on_inputRequired]
      rw [if_neg (not_le.mpr hlen)]
    refine ⟨heq, ?_⟩
    intro s' tr h
    rw [heq] at h
    obtain ⟨t0, h0, rfl⟩ := after_eq_some h
    rw [navigations_append, (navigateTo_frame h0).1]; rfl
  · intro answers s' tr h n hn
    rcases on_inputRequired_navigations env fuel s query answers s' tr h with e | ⟨t, _, hl, e⟩
    · rw [e] at hn; simp at hn
    · rw [e] at hn
      simp only [List.mem_singleton] at hn
      subst hn
      exact ⟨by simp only; omega, rfl⟩

set_option maxRecDepth 4000 in
/-- C8 at the demo tab and the accepted input `x`. -/
theorem input_length_limit_witness :
    encodedLength demoEnv (demoEnv.url_setQuery demoTab.current_location "x") < 1020 ∧
    ∃ s' tr, on_inputRequired demoEnv 1 demoTab "q" [some "x"] = some (s', tr) ∧
      navigations tr =
        [(demoEnv.url_setQuery demoTab.current_location "x", PushToHistory.DontPush)] := by
  obtain ⟨r, hr⟩ := exists_of_isSome
    (by decide : (on_inputRequired demoEnv 1 demoTab "q" [some "x"]).isSome = true)
  exact ⟨by decide, r.1, r.2, hr,
    ((input_length_limit demoEnv 1 demoTab "q").2.1 "x" [] (by decide)).2 r.1 r.2 hr⟩

/-- C10, evaluated at two documents. For the level 1 heading `*A*` set in emphasis followed by
the level 1 heading "C", the entry recorded for the first heading has the empty text although
the heading reads "A", and the page title is "C". For an empty level 1 heading followed by
the level 1 heading "C", the page title is "C" as well. -/
theorem title_skips_empty_heading :
    (firstH1 (headingsOf emptyHeadingExample) = "" ∧
      (MarkdownRenderer_render (demoMarkdownEnv emptyHeadingExample) []
        (demoUrl "gemini" "a" "/") demoStyle [] "").page_title = "C") ∧
    (visibleTextOfList [Node.emph [Node.text "A"]] = "A" ∧
      (MarkdownRenderer_render (demoMarkdownEnv emphasisedHeadingExample) []
        (demoUrl "gemini" "a" "/") demoStyle [] "").outline =
        [OutlineCall.beginBuild, OutlineCall.appendH1 "" "", OutlineCall.appendH1 "C" "",
         OutlineCall.endBuild] ∧
      (MarkdownRenderer_render (demoMarkdownEnv emphasisedHeadingExample) []
        (demoUrl "gemini" "a" "/") demoStyle [] "").page_title = "C") := by
  refine ⟨⟨by decide, by decide⟩, ⟨by decide, by decide, by decide⟩⟩

set_option maxRecDepth 4000 in
/-- C11, evaluated at a tab with `successfully_loaded = false`, the payload `a` declared as
`text/plain; charset=x-unknown`, a converter that cannot open that charset and a user who
declines to see the unconverted data: `on_requestComplete` asks the question, installs the
error document and ends with `successfully_loaded = true`. -/
theorem declined_conversion_counts_as_loaded :
    (needsConversion demoEnvUnknownCharset [0x61]
        (demoEnvUnknownCharset.MimeParser_parse "text/plain; charset=x-unknown") = true ∧
      convertToUtf8 demoEnvUnknownCharset 1 [0x61] "X-UNKNOWN" = some [] ∧
      demoEnvUnknownCharset.question (conversionQuestion "X-UNKNOWN") = false) ∧
    (on_requestComplete demoEnvUnknownCharset 2 { demoTab with successfully_loaded := false }
        [0x61] "text/plain; charset=x-unknown").map
      (fun r => (r.1.successfully_loaded, r.1.current_buffer, questions r.2)) =
      some (true, errorDocumentData (conversionFailedMessage "X-UNKNOWN"),
        [conversionQuestion "X-UNKNOWN"]) := by
  refine ⟨⟨by decide, by decide, by decide⟩, by decide⟩

set_option maxRecDepth 4000 in
/-- C12, evaluated at a tab with a valid identity on `gemini://a/` and a user who declines to
keep the certificate: the first request to `gemini://b/x` is dispatched with no certificate on
the handler, but the next request to `gemini://b/y` is dispatched with the certificate enabled
again, without any question and with the button still unchecked. -/
theorem declined_credential_comes_back :
    (demoTabWithIdentity.current_identitiy.isValid = true ∧
      demoEnvDeclining.question newHostQuestion = false) ∧
    ((startRequest demoEnvDeclining demoTabWithIdentity (demoUrl "gemini" "b" "/x")
        RequestOptions.Default).map
      (fun r => (questions r.2.1, dispatches r.2.1, r.2.2)) =
      some ([newHostQuestion],
        [(0, demoUrl "gemini" "b" "/x", RequestOptions.Default)], true) ∧
    (startRequest demoEnvDeclining demoTabWithIdentity (demoUrl "gemini" "b" "/x")
        RequestOptions.Default).map
      (fun r => (enabledCertificates r.1, r.1.enable_client_cert_button)) =
      some ([none], false)) ∧
    (((startRequest demoEnvDeclining demoTabWithIdentity (demoUrl "gemini" "b" "/x")
        RequestOptions.Default).bind fun r1 =>
      (startRequest demoEnvDeclining r1.1 (demoUrl "gemini" "b" "/y")
        RequestOptions.Default).map
      (fun r => (questions r.2.1, dispatches r.2.1, r.2.2))) =
      some ([], [(0, demoUrl "gemini" "b" "/y", RequestOptions.Default)], true) ∧
    ((startRequest demoEnvDeclining demoTabWithIdentity (demoUrl "gemini" "b" "/x")
        RequestOptions.Default).bind fun r1 =>
      (startRequest demoEnvDeclining r1.1 (demoUrl "gemini" "b" "/y")
        RequestOptions.Default).map
      (fun r => (enabledCertificates r.1, r.1.enable_client_cert_button))) =
      some ([some demoIdentity], false)) := by
  refine ⟨⟨by decide, by decide⟩, ⟨by decide, by decide⟩, ⟨by decide, by decide⟩⟩

/-- C13: a returning `navigateTo(url, mode)` leaves the history as `pushUrl` gives it for `url`
(a prefix of the old sequence followed by `url`, once) when the scheme is enabled, an active
request was cancelled, `startRequest` returned true and the mode is `PushImmediate`, and leaves
the history sequence and cursor unchanged otherwise; with `DontPush` (reload, back and forward,
input, certificate retry) and in `on_redirected` the history sequence is never modified. -/
theorem history_push_conditions (env : Env) (s : BrowserTab) :
    (∀ url mode s' tr, navigateTo env s url mode = some (s', tr) →
      (pushesHistory env s url mode →
        s'.history = (history_pushUrl s.history s.current_history_index url).1 ∧
        s'.current_history_index =
          (history_pushUrl s.history s.current_history_index url).2 ∧
        ∃ kept, kept <+: s.history ∧ s'.history = kept ++ [url]) ∧
      (¬ pushesHistory env s url mode →
        s'.history = s.history ∧ s'.current_history_index = s.current_history_index)) ∧
    (∀ url s' tr, navigateTo env s url PushToHistory.DontPush = some (s', tr) →
      s'.history = s.history) ∧
    (∀ s' tr, reloadPage env s = some (s', tr) → s'.history = s.history) ∧
    (∀ index s' tr, navigateBack env s index = some (s', tr) → s'.history = s.history) ∧
    (∀ fuel query answers s' tr,
      on_inputRequired env fuel s query answers = some (s', tr) → s'.history = s.history) ∧
    (∀ fuel reason s' tr,
      on_certificateRequired env fuel s reason = some (s', tr) → s'.history = s.history) ∧
    (∀ fuel uri p s' tr, on_redirected env fuel s uri p = some (s', tr) →
      s'.history = s.history) := by
  refine ⟨?_, ?_, ?_, ?_, ?_, ?_, ?_⟩
  · intro url mode s' tr h
    obtain ⟨a, b⟩ := navigateTo_history h
    refine ⟨fun c => ⟨(a c).1, (a c).2, ?_⟩, b⟩
    rw [(a c).1]
    unfold history_pushUrl
    cases s.current_history_index with
    | none => exact ⟨s.history, List.prefix_refl _, rfl⟩
    | some i => exact ⟨s.history.take (i + 1), List.take_prefix _ _, rfl⟩
  · intro url s' tr h
    exact navigateTo_dontPush_history h
  · intro s' tr h
    unfold reloadPage at h
    split at h
    · exact navigateTo_dontPush_history h
    · simp only [Option.some.injEq, Prod.mk.injEq] at h
      rw [← h.1]
  · intro index s' tr h
    unfold navigateBack at h
    simp only at h
    split at h
    · exact (navigateTo_dontPush_history h).trans rfl
    · simp only [Option.some.injEq, Prod.mk.injEq] at h
      rw [← h.1]
  · intro fuel query answers s' tr h
    exact on_inputRequired_history env fuel s query answers s' tr h
  · intro fuel reason s' tr h
    unfold on_certificateRequired at h
    simp only at h
    split at h
    · obtain ⟨t0, h0, _⟩ := after_eq_some h
      exact ((setErrorMessage_frame h0).1.history).trans
        (trySetClientCertificate_history env s reason)
    · obtain ⟨t0, h0, _⟩ := after_eq_some h
      exact (navigateTo_dontPush_history h0).trans
        (trySetClientCertificate_history env s reason)
  · intro fuel uri p s' tr h
    exact on_redirected_history h

set_option maxRecDepth 4000 in
/-- C13 at the demo tab: following a link to `gemini://a/x` appends it to the history. -/
theorem history_push_conditions_witness :
    ∃ s' tr, navigateTo demoEnv demoTab (demoUrl "gemini" "a" "/x")
        PushToHistory.PushImmediate = some (s', tr) ∧
      s'.history = [demoUrl "gemini" "a" "/", demoUrl "gemini" "a" "/x"] ∧
      s'.current_history_index = some 1 := by
  obtain ⟨r, hr⟩ := exists_of_isSome
    (by decide : (navigateTo demoEnv demoTab (demoUrl "gemini" "a" "/x")
      PushToHistory.PushImmediate).isSome = true)
  obtain ⟨q, hq⟩ := exists_of_isSome
    (by decide : ((startRequest demoEnv
      { demoTab with redirection_count := 0, successfully_loaded := false }
      (demoUrl "gemini" "a" "/x") RequestOptions.Default).filter fun x => x.2.2).isSome = true)
  have hq2 : startRequest demoEnv
      { demoTab with redirection_count := 0, successfully_loaded := false }
      (demoUrl "gemini" "a" "/x") RequestOptions.Default = some (q.1, q.2.1, true) := by
    obtain ⟨h1, h2⟩ := Option.filter_eq_some.mp hq
    rw [h1]
    obtain ⟨q1, q2, q3⟩ := q
    simp only at h2
    rw [h2]
  have hp : pushesHistory demoEnv demoTab (demoUrl "gemini" "a" "/x")
      PushToHistory.PushImmediate :=
    ⟨by decide, fun handler hh => Option.noConfusion hh, ⟨q.1, q.2.1, hq2⟩, rfl⟩
  obtain ⟨h1, h2, _⟩ := ((history_push_conditions demoEnv demoTab).1
    (demoUrl "gemini" "a" "/x") PushToHistory.PushImmediate r.1 r.2 hr).1 hp
  exact ⟨r.1, r.2, hr, by rw [h1]; decide, by rw [h2]; decide⟩

/-- C15, amended: for a text node or soft break that is reached from the rendered node through
emphasis and strong nodes only, whatever its siblings and theirs are, the run emitted for it
is italic when an emphasis node is among them and bold when a strong node is among them (so
bold and italic under both), and keeps italic and bold of the enclosing format. The children
of a link or image node are rendered from the link format of the theme for its target in
place of the enclosing format: a text node that is a child of a link or image below such
modifiers is emitted in exactly that link format. -/
theorem modifiers_reach_runs (env : Env) (state : RenderState) (path : List Step)
    (fmt : QTextCharFormat) (listIndent : Int) (hpath : ModifiersOnly path) :
    (∀ literal, ∃ f rest,
      (renderNode env state (plug path (Node.text literal)) fmt listIndent).cursor =
        (reach env path state fmt).1.cursor ++
          [CursorOp.insertText (extractNodeText env literal) f] ++ rest ∧
      ((∃ st ∈ path, st.container = Container.emph) → f.italic = true) ∧
      ((∃ st ∈ path, st.container = Container.strong) → f.weight = QFont_Bold) ∧
      KeepsModifiers fmt f) ∧
    (∃ f rest,
      (renderNode env state (plug path Node.softbreak) fmt listIndent).cursor =
        (reach env path state fmt).1.cursor ++ [CursorOp.insertText " " f] ++ rest ∧
      ((∃ st ∈ path, st.container = Container.emph) → f.italic = true) ∧
      ((∃ st ∈ path, st.container = Container.strong) → f.weight = QFont_Bold) ∧
      KeepsModifiers fmt f) ∧
    (∀ c url before after literal,
      c = Container.link url ∨ c = Container.image url →
      ∃ rest,
        (renderNode env state
          (plug path (Step.node ⟨c, before, after⟩ (Node.text literal))) fmt
            listIndent).cursor =
          (reach env (path ++ [⟨c, before, after⟩]) state fmt).1.cursor ++
            [CursorOp.insertText (extractNodeText env literal)
              (linkFormat env state.text_style state.root_url
                (linkTarget env state.root_url url))] ++ rest) := by
  obtain ⟨_, _, h3, h4, h5⟩ := reach_modifiers env path hpath state fmt
  refine ⟨?_, ?_, ?_⟩
  · intro literal
    obtain ⟨rest, h⟩ := text_at_path env path state fmt listIndent literal
    exact ⟨_, rest, h, h4, h5, h3⟩
  · obtain ⟨rest, h⟩ := softbreak_at_path env path state fmt listIndent
    exact ⟨_, rest, h, h4, h5, h3⟩
  · intro c url before after literal hc
    obtain ⟨rest, h⟩ := text_at_path env (path ++ [⟨c, before, after⟩]) state fmt listIndent
      literal
    obtain ⟨f1, f2⟩ := reach_frame env path state fmt
    refine ⟨rest, ?_⟩
    have hp : plug (path ++ [⟨c, before, after⟩]) (Node.text literal) =
        plug path (Step.node ⟨c, before, after⟩ (Node.text literal)) := by
      rw [plug_append]
      rfl
    rw [← hp, h, reach_append]
    rcases hc with hc | hc <;> subst hc <;> simp only [reach, Container.childFormat, f1, f2]

/-- C15 at the emphasis node over the text `a` followed by the inline code `b`: the run of `a`
is italic. -/
theorem modifiers_reach_runs_witness :
    ModifiersOnly [⟨Container.emph, [], [Node.code "b"]⟩] ∧
    ∃ f rest,
      (renderNode demoEnv demoRenderState (Node.emph [Node.text "a", Node.code "b"])
        demoStyle.text_style.standard 0).cursor =
        demoRenderState.cursor ++ [CursorOp.insertText "a" f] ++ rest ∧
      f.italic = true := by
  have hp : ModifiersOnly [⟨Container.emph, [], [Node.code "b"]⟩] := by
    intro st hst
    simp only [List.mem_singleton] at hst
    exact Or.inl (by rw [hst])
  obtain ⟨f, rest, h, hi, _, _⟩ := (modifiers_reach_runs demoEnv demoRenderState
    [⟨Container.emph, [], [Node.code "b"]⟩] demoStyle.text_style.standard 0 hp).1 "a"
  exact ⟨hp, f, rest, h, hi ⟨_, List.mem_singleton.mpr rfl, rfl⟩⟩

/-- C15 as stated fails: below the root `gemini://a/`, inline code under emphasis is emitted in
the preformatted format, which is not italic, and the label of a link to `/x` under a strong
node is emitted in the internal-link format, which is not bold. -/
theorem modifiers_lost_in_code_and_links :
    ((renderNode demoEnv demoRenderState (Node.emph [Node.code "x"])
        demoStyle.text_style.standard 0).cursor =
        [CursorOp.insertText "x" demoStyle.text_style.preformatted] ∧
      demoStyle.text_style.preformatted.italic = false) ∧
    ((renderNode demoEnv demoRenderState (Node.strong [Node.link "/x" [Node.text "t"]])
        demoStyle.text_style.standard 0).cursor =
        [CursorOp.insertText "t"
          { demoStyle.text_style.standard_link with anchorHref := "gemini://a/x" },
         CursorOp.insertText ""
          { demoStyle.text_style.standard_link with anchorHref := "gemini://a/x" }] ∧
      demoStyle.text_style.standard_link.weight ≠ QFont_Bold) := by
  refine ⟨⟨by decide, by decide⟩, ⟨by decide, by decide⟩⟩

set_option maxRecDepth 4000 in
/-- C16, evaluated at a list inside a block quote inside a list item: the inner list is
inserted with the base indent plus 0 although one list encloses it, while a list directly
inside a list item gets the base indent plus 1. -/
theorem quoted_list_loses_indent :
    demoStyle.text_style.list_format.indent = 1 ∧
    listIndents (renderNode demoEnv demoRenderState nestedListExample
      demoStyle.text_style.standard 0).cursor = [1 + 0, 1 + 1] ∧
    listIndents (renderNode demoEnv demoRenderState quotedListExample
      demoStyle.text_style.standard 0).cursor = [1 + 0, 1 + 0] := by
  refine ⟨by decide, by decide, by decide⟩

/-- C17: `on_networkError` opens the file `:/error_page/<kind>.gemini`, distinct for distinct
kinds; every returning call leaves `current_location` unchanged and ends with
`is_internal_location = true`; and when the page exists, `text/gemini` resolves to UTF-8 and
the assertion on the rendered document holds, the call returns with the page, the reason
substituted by `QString::arg`, installed as a `text/gemini` document (rendered by the Gemini
renderer unless plain text display is set). -/
theorem network_error_page (env : Env) (fuel : Nat) (s : BrowserTab)
    (error_code : NetworkError) (reason : String) :
    (∀ other, ":/error_page/" ++ errorPageFile error_code
        = ":/error_page/" ++ errorPageFile other → error_code = other) ∧
    (∀ s' tr, on_networkError env fuel s error_code reason = some (s', tr) →
      s'.current_location = s.current_location ∧ s'.is_internal_location = true) ∧
    (∀ bytes, env.resource (":/error_page/" ++ errorPageFile error_code) = some bytes →
      charsetOf env (env.MimeParser_parse "text/gemini") = "UTF-8" →
      documentAssertion (selectRenderer env s.current_location
        (toUtf8 (env.QString_arg (env.fromUtf8 bytes) reason)) "text/gemini") = true →
      ∃ s' tr, on_networkError env (fuel + 1) s error_code reason = some (s', tr) ∧
        s'.current_mime = "text/gemini" ∧
        s'.current_buffer = toUtf8 (env.QString_arg (env.fromUtf8 bytes) reason) ∧
        s'.current_document = (selectRenderer env s.current_location
          (toUtf8 (env.QString_arg (env.fromUtf8 bytes) reason)) "text/gemini").document ∧
        (env.global_options.text_display ≠ TextDisplay.PlainText →
          s'.current_document = (env.GeminiRenderer_render
            (toUtf8 (env.QString_arg (env.fromUtf8 bytes) reason)) s.current_location
            (env.derive_style s.current_location)).1) ∧
        s'.visible = DocumentType.Text ∧
        s'.current_location = s.current_location ∧
        s'.is_internal_location = true) := by
  refine ⟨fun other h => errorPageFile_injective _ _ h, ?_, ?_⟩
  · intro s' tr h
    unfold on_networkError at h
    simp only at h
    split at h
    · exact absurd h (by simp)
    · obtain ⟨a, _⟩ := requestComplete_frame env fuel _ _ _ _ _ h
      exact ⟨a.current_location, a.is_internal_location⟩
  · intro bytes hres hmime hassert
    have hn : needsConversion env (toUtf8 (env.QString_arg (env.fromUtf8 bytes) reason))
        (env.MimeParser_parse "text/gemini") = false := by
      simp [needsConversion, hmime]
    obtain ⟨s', tr, h, h1, h2, h3, h4, h5, h6⟩ := on_requestComplete_installs env fuel
      { s with is_internal_location := true }
      (toUtf8 (env.QString_arg (env.fromUtf8 bytes) reason)) "text/gemini" hn hassert
    refine ⟨s', tr, ?_, h1, h2, h3, ?_, ?_, h5, h6⟩
    · simp only [on_networkError, hres]
      exact h
    · intro hp
      rw [h3]
      exact congrArg RenderOutcome.document (selectRenderer_gemini env _ _ hp)
    · rw [h4]
      exact selectRenderer_gemini_docType env _ _

/-- C17 at the demo tab, the error kind `Timeout` and an environment that has the pages. -/
theorem network_error_page_witness :
    ∃ s' tr, on_networkError demoEnvWithPages (0 + 1) demoTab NetworkError.Timeout "late"
        = some (s', tr) ∧
      s'.current_mime = "text/gemini" ∧
      s'.current_location = demoTab.current_location ∧
      s'.is_internal_location = true := by
  obtain ⟨s', tr, h, h1, _, _, _, _, h6, h7⟩ :=
    (network_error_page demoEnvWithPages 0 demoTab NetworkError.Timeout "late").2.2
      (toUtf8 ("# " ++ (":/error_page/" ++ errorPageFile NetworkError.Timeout) ++ "\n"))
      rfl (by decide) (by decide)
  exact ⟨s', tr, h, h1, h6, h7⟩

/-- C18: an iteration of the loop of `convertToUtf8` in which `iconv` reports `EILSEQ` or
`EINVAL` and leaves input continues with that input less exactly one byte and with the result
extended by exactly one replacement character (and the bytes converted in the call), so the
remaining input is strictly shorter; and when every call that reports no error or `E2BIG`
consumes at least one byte, the loop ends within as many iterations as the input has bytes,
with no input left unless a call reports an error other than the three. -/
theorem conversion_loop_progress (env : Env)
    (hok : ∀ cd input, input ≠ [] → (env.iconv cd input 4096).error = none →
      1 ≤ (env.iconv cd input 4096).consumed)
    (hbig : ∀ cd input, input ≠ [] → (env.iconv cd input 4096).error = some Errno.E2BIG →
      1 ≤ (env.iconv cd input 4096).consumed) :
    (∀ fuel cd input result, input ≠ [] →
      ((env.iconv cd input 4096).error = some Errno.EILSEQ ∨
        (env.iconv cd input 4096).error = some Errno.EINVAL) →
      input.drop (env.iconv cd input 4096).consumed ≠ [] →
      convertToUtf8_loop env (fuel + 1) cd input result =
        convertToUtf8_loop env fuel (env.iconv cd input 4096).cd
          ((input.drop (env.iconv cd input 4096).consumed).drop 1)
          (result ++ replacement_character ++ (env.iconv cd input 4096).output) ∧
      ((input.drop (env.iconv cd input 4096).consumed).drop 1).length + 1 =
        (input.drop (env.iconv cd input 4096).consumed).length ∧
      ((input.drop (env.iconv cd input 4096).consumed).drop 1).length < input.length) ∧
    (∀ cd input result, ∃ r rest,
      convertToUtf8_run env input.length cd input result = some (r, rest) ∧
      convertToUtf8_loop env input.length cd input result = some r ∧
      ((∀ cd' input', (env.iconv cd' input' 4096).error ≠ some Errno.other) → rest = [])) ∧
    (∀ input charSet, ∃ r, convertToUtf8 env input.length input charSet = some r) := by
  have hterm : ∀ cd input result, ∃ r rest,
      convertToUtf8_run env input.length cd input result = some (r, rest) ∧
      convertToUtf8_loop env input.length cd input result = some r ∧
      ((∀ cd' input', (env.iconv cd' input' 4096).error ≠ some Errno.other) → rest = []) := by
    intro cd input result
    obtain ⟨r, rest, h1, h2⟩ :=
      convertToUtf8_run_terminates env hok hbig input.length cd input result (Nat.le_refl _)
    refine ⟨r, rest, h1, ?_, h2⟩
    rw [convertToUtf8_run_result, h1]
    rfl
  refine ⟨?_, hterm, ?_⟩
  · intro fuel cd input result hne herr hleft
    have hin : input.length > 0 := List.length_pos.mpr hne
    have hl : (input.drop (env.iconv cd input 4096).consumed).length > 0 :=
      List.length_pos.mpr hleft
    refine ⟨?_, ?_, ?_⟩
    · rcases herr with h | h
      · simp only [convertToUtf8_loop, hin, if_true, h, hl]
      · simp only [convertToUtf8_loop, hin, if_true, h, hl]
    · rw [List.length_drop]
      omega
    · rw [List.length_drop, List.length_drop]
      omega
  · intro input charSet
    unfold convertToUtf8
    split
    · exact ⟨[], rfl⟩
    · obtain ⟨r, _, _, h, _⟩ := hterm _ input []
      exact ⟨r, h⟩

/-- C18 at the demo converter for ASCII and the input `a`, `0x80`, `b`. -/
theorem conversion_loop_progress_witness :
    (∀ cd input, input ≠ [] → (demoEnv.iconv cd input 4096).error = none →
      1 ≤ (demoEnv.iconv cd input 4096).consumed) ∧
    (∀ cd input, input ≠ [] → (demoEnv.iconv cd input 4096).error = some Errno.E2BIG →
      1 ≤ (demoEnv.iconv cd input 4096).consumed) ∧
    ∃ r rest,
      convertToUtf8_run demoEnv ([0x61, 0x80, 0x62] : QByteArray).length 0
        [0x61, 0x80, 0x62] [] = some (r, rest) ∧
      convertToUtf8_loop demoEnv ([0x61, 0x80, 0x62] : QByteArray).length 0
        [0x61, 0x80, 0x62] [] = some r ∧
      ((∀ cd' input', (demoEnv.iconv cd' input' 4096).error ≠ some Errno.other) →
        rest = []) :=
  ⟨fun cd input hne h => iconv_ascii_progress cd input hne (Or.inl h),
   fun cd input hne h => iconv_ascii_progress cd input hne (Or.inr h),
   (conversion_loop_progress demoEnv
    (fun cd input hne h => iconv_ascii_progress cd input hne (Or.inl h))
    (fun cd input hne h => iconv_ascii_progress cd input hne (Or.inr h))).2.1
    0 [0x61, 0x80, 0x62] []⟩

set_option maxRecDepth 4000 in
/-- C19, evaluated at a tab that shows the second of two history entries: a back step whose
navigation is rejected, because the running request cannot be cancelled or because the scheme
of the entry is not enabled, dispatches nothing and keeps the location, but leaves the history
cursor on the first entry. -/
theorem rejected_back_step_moves_cursor :
    (demoTabSecondPage.current_history_index = some 1 ∧
      (history_get demoTabSecondPage.history
        (history_oneBackward demoTabSecondPage.history
          demoTabSecondPage.current_history_index)).isValid = true ∧
      demoEnvBusy.handler_cancelRequest 0 = false) ∧
    (navOneBackback demoEnvBusy demoTabSecondPage).map
      (fun r => (r.1.current_history_index, r.1.current_location, dispatches r.2)) =
      some (some 0, demoUrl "gemini" "b" "/", []) ∧
    (demoTabAfterHttp.current_history_index = some 1 ∧
      demoEnv.isSchemeSupported "http" ≠ ProtocolSetup.Enabled) ∧
    (navOneBackback demoEnv demoTabAfterHttp).map
      (fun r => (r.1.current_history_index, r.1.current_location, dispatches r.2)) =
      some (some 0, demoUrl "gemini" "b" "/", []) := by
  refine ⟨⟨by decide, by decide, by decide⟩, by decide, ⟨by decide, by decide⟩, by decide⟩

/-- C20: when a handler supports the scheme and the user does not abort at the prompt for a scheme
without client certificates, `startRequest(url, options)` hands the request to the handler
and returns what the handler returns, in a tab with `current_location = url` and
`is_internal_location = (scheme of url is "about")`, whether the handler succeeds or fails;
in particular the retry started by the `ignore-tls` control link of an internal page at a
location that is not an `about` location ends with the internal flag cleared. -/
theorem startRequest_sets_location (env : Env) (s : BrowserTab) (url : QUrl)
    (options : RequestOptions) (handler : Nat)
    (hfind : findHandler s.protocol_handlers url.scheme = some handler)
    (hgo : ¬ abortedAtCertificatePrompt env s handler url) :
    (∃ s' tr, startRequest env s url options =
        some (s', tr, env.handler_startRequest handler url options) ∧
      s'.current_location = url ∧
      s'.is_internal_location = (url.scheme == "about") ∧
      dispatches tr = [(handler, url, options)]) ∧
    (∀ t retry,
      findHandler t.protocol_handlers t.current_location.scheme = some retry →
      ¬ abortedAtCertificatePrompt env t retry t.current_location →
      t.is_internal_location = true →
      t.current_location.scheme ≠ "about" → env.question ignoreTlsQuestion = true →
      ∃ t' tr, on_text_browser_anchorClicked env t
          ⟨"kristall+ctrl", "", "ignore-tls", "", "", true⟩ = some (t', tr) ∧
        dispatches tr = [(retry, t.current_location, RequestOptions.IgnoreTlsErrors)] ∧
        t'.current_location = t.current_location ∧
        t'.is_internal_location = false) := by
  refine ⟨startRequest_dispatches env s url options handler hfind hgo, ?_⟩
  intro t retry hfind' hgo' hint habout hq
  obtain ⟨t', tr, h, h1, h2, h3⟩ := startRequest_dispatches env t t.current_location
    RequestOptions.IgnoreTlsErrors retry hfind' hgo'
  refine ⟨t', [Effect.question ignoreTlsQuestion true] ++ tr, ?_, ?_, h1, ?_⟩
  · simp [on_text_browser_anchorClicked, hint, hq, h]
  · rw [dispatches_append, h3]
    rfl
  · rw [h2]
    simpa using habout

/-- C20 at the demo tab and a request for `gemini://b/x`. -/
theorem startRequest_sets_location_witness :
    (findHandler demoTab.protocol_handlers (demoUrl "gemini" "b" "/x").scheme = some 0 ∧
      ¬ abortedAtCertificatePrompt demoEnv demoTab 0 (demoUrl "gemini" "b" "/x")) ∧
    ∃ s' tr, startRequest demoEnv demoTab (demoUrl "gemini" "b" "/x")
        RequestOptions.Default = some (s', tr,
          demoEnv.handler_startRequest 0 (demoUrl "gemini" "b" "/x")
            RequestOptions.Default) ∧
      s'.current_location = demoUrl "gemini" "b" "/x" ∧
      s'.is_internal_location = ((demoUrl "gemini" "b" "/x").scheme == "about") ∧
      dispatches tr = [(0, demoUrl "gemini" "b" "/x", RequestOptions.Default)] :=
  ⟨⟨by decide, fun h => absurd h.1 (by decide)⟩,
   (startRequest_sets_location demoEnv demoTab (demoUrl "gemini" "b" "/x")
    RequestOptions.Default 0 (by decide) (fun h => absurd h.1 (by decide))).1⟩

end Kristall
